import Mathlib

/-!
# Extended-key RPC helpers of `src/wallet/rpchdwallet.cpp`

A shallow embedding of the extended-key part of `rpchdwallet.cpp`:
`reversePlace`, `ExtractBip32InfoV`, `ExtractBip32InfoP`, `ExtKeyPathV`,
`ExtKeyPathP`, `ManageExtKey`, `ManageExtAccount`, the mode selection of `extkey` and
its modes `info`, `options`, `setdefaultaccount`, `deriveaccount` and `import`,
`extkeyaltversion`, `getnewstealthaddress`, `importstealthaddress`, the loop of
`deriverangekeys`, and `filteraddresses`.

Conventions.
* A byte vector (`std::vector<uint8_t>`) is a `List Nat`; well-formed vectors hold
  values below 256 (`IsBytes`).
* A read through `&v[off]` of `n` bytes is a checked read (`readBytes`); a function
  that would read outside its vector returns `none`.
* Functions with reference out-parameters take their initial values and return a
  record of the updated ones.
* Collaborators defined outside this translation unit (chain parameters, Base58,
  the path parser, the child-key derivation primitive, ...) are the fields of `Env`.
  Every call to one of the observed collaborators is appended to a call log.
-/

namespace Particl

/-! ## Data model -/

/-- Byte vectors. -/
abbrev Bytes := List Nat

/-- Well-formed byte vector: every element is below 256. -/
def IsBytes (v : Bytes) : Prop := ∀ x ∈ v, x < 256

instance (v : Bytes) : Decidable (IsBytes v) := by
  unfold IsBytes; infer_instance

/-- Network identifiers of `CBaseChainParams`. -/
inductive Network where
  | MAIN
  | TESTNET
  | REGTEST
  deriving DecidableEq, Repr

/-- The entries of `CChainParams::Base58Type` used by this file. -/
inductive Base58Type where
  | PUBKEY_ADDRESS
  | EXT_PUBLIC_KEY
  | EXT_SECRET_KEY
  | EXT_PUBLIC_KEY_BTC
  | EXT_SECRET_KEY_BTC
  | EXT_KEY_HASH
  | EXT_ACC_HASH
  deriving DecidableEq, Repr

/-- Values pushed into a `UniValue` object by this file: strings and integers. -/
inductive Val where
  | str (s : String)
  | num (n : Int)
  deriving DecidableEq, Repr

/-- A `UniValue` object: the pairs pushed so far, in push order. -/
abbrev UniObj := List (String × Val)

/-- `obj.push_back(Pair(k, v))`. -/
def push_back (obj : UniObj) (k : String) (v : Val) : UniObj := obj ++ [(k, v)]

/-- Modelled from the spec: the fields of an extended secret key (`CExtKey`, declared
in the key headers): depth, parent fingerprint, child index, chain code, secret. -/
structure CExtKey where
  nDepth : Nat
  vchFingerprint : Bytes
  nChild : Nat
  vchChainCode : Bytes
  key : Bytes
  deriving DecidableEq, Repr

/-- Modelled from the spec: the fields of an extended public key (`CExtPubKey`):
depth, parent fingerprint, child index, chain code, compressed point. -/
structure CExtPubKey where
  nDepth : Nat
  vchFingerprint : Bytes
  nChild : Nat
  vchChainCode : Bytes
  pubkey : Bytes
  deriving DecidableEq, Repr

/-- Observed calls to collaborators. -/
inductive Call where
  | Base58Prefix (net : Network) (type : Base58Type)
  | ExtractExtKeyPath (sPath : String)
  | DeriveV (vkWork : CExtKey) (nChild : Nat)
  | DeriveP (pkWork : CExtPubKey) (nChild : Nat)
  | ExtractBip32InfoV
  | ExtractBip32InfoP
  deriving DecidableEq, Repr

/-- Collaborators that live outside `rpchdwallet.cpp`. -/
structure Env where
  /-- `Params().NetworkID()`. -/
  NetworkID : Network
  /-- `Params(net).Base58Prefix(type)`. -/
  Base58Prefix : Network → Base58Type → Bytes
  /-- `Params(net).NetworkIDString()`. -/
  NetworkIDString : Network → String
  /-- `DecodeBase58(psz, vchRet)`: `none` when it returns false. -/
  DecodeBase58 : String → Option Bytes
  /-- `EncodeBase58(vch)`. -/
  EncodeBase58 : Bytes → String
  /-- The 4-byte checksum of a payload used by Base58Check. -/
  Hash4 : Bytes → Bytes
  /-- `ExtractExtKeyPath(sPath, vPath)`: the return code and the filled path. -/
  ExtractExtKeyPath : String → Int × List Nat
  /-- `ExtKeyGetString(rv)`. -/
  ExtKeyGetString : Int → String
  /-- `CExtKey::Derive(out, nChild)`: `none` when it returns false. -/
  DeriveV : CExtKey → Nat → Option CExtKey
  /-- `CExtPubKey::Derive(out, nChild)`: `none` when it returns false. -/
  DeriveP : CExtPubKey → Nat → Option CExtPubKey
  /-- A default-constructed `CExtKey`. -/
  vkDefault : CExtKey
  /-- A default-constructed `CExtPubKey`. -/
  pkDefault : CExtPubKey
  /-- `CBitcoinSecret(key).ToString()` for the key set from 32 secret bytes. -/
  SecretToString : Bytes → String
  /-- `key.GetPubKey().GetID()` for the key set from 32 secret bytes. -/
  SecretKeyID : Bytes → Bytes
  /-- `key.GetID()` for the public key set from 33 bytes. -/
  PubKeyID : Bytes → Bytes
  /-- `addr.Set(id, type); addr.ToString()`. -/
  AddressToString : Bytes → Base58Type → String
  /-- `vk.DecodeV(code); ek58.SetKey(vk, type); ek58.ToString()` on a 74-byte payload. -/
  ExtKey58ToString : Bytes → Base58Type → String
  /-- `part::IsStringBoolPositive`. -/
  IsStringBoolPositive : String → Bool
  /-- `GetArg("-defaultlookaheadsize", N_DEFAULT_LOOKAHEAD)`. -/
  defaultLookAhead : Nat
  /-- `SetCompressedInt64(v, n)`: the bytes stored for `n`. -/
  SetCompressedInt64 : Nat → Bytes
  /-- `GetCompressedInt64(v, n)`: the number read back from stored bytes. -/
  GetCompressedInt64 : Bytes → Nat
  /-- The flag bit `EAF_ACTIVE`. -/
  EAF_ACTIVE : Nat
  /-- The flag bit `EAF_RECEIVE_ON`. -/
  EAF_RECEIVE_ON : Nat
  /-- The `mapValue` key `EKVT_N_LOOKAHEAD`. -/
  EKVT_N_LOOKAHEAD : Nat

/-- The out-parameters and return code of the `int`-returning helpers, together with
the calls made. -/
structure Out where
  rv : Int
  keyInfo : UniObj
  sError : String
  calls : List Call
  deriving DecidableEq, Repr

/-! ## Memory reads and formatting -/

/-- Checked read of `n` bytes starting at `&v[off]`. -/
def readBytes (v : Bytes) (off n : Nat) : Option Bytes :=
  if off + n ≤ v.length then some ((v.drop off).take n) else none

/-- `reversePlace(p)`: `rv |= (uint32_t) *(p+i) << (8 * (3-i))` for `i = 0..3`;
`p` holds the four bytes at the pointer. -/
def reversePlace (p : Bytes) : Nat :=
  (List.range 4).foldl (fun rv i => rv ||| ((p.getD i 0 % 2 ^ 32) <<< (8 * (3 - i))) % 2 ^ 32) 0

/-- Upper-case hexadecimal digit. -/
def hexDigitUpper (d : Nat) : Char := "0123456789ABCDEF".toList.getD d '0'

/-- Lower-case hexadecimal digit. -/
def hexDigitLower (d : Nat) : Char := "0123456789abcdef".toList.getD d '0'

/-- The base-16 digits of `n`, least significant first, at least `width` of them. -/
def hexDigitsRev : (fuel : Nat) → (width : Nat) → (n : Nat) → List Nat
  | 0, _, _ => []
  | fuel + 1, width, n =>
    if n < 16 ∧ width ≤ 1 then [n] else n % 16 :: hexDigitsRev fuel (width - 1) (n / 16)

/-- `strprintf("%0<width>X", n)` for a 32-bit unsigned `n`. -/
def fmtX (width n : Nat) : String :=
  String.mk ((hexDigitsRev 8 width n).reverse.map hexDigitUpper)

/-- `strprintf("%u", n)`. -/
def fmtU (n : Nat) : String := toString n

/-- `HexStr(begin, end)`: two lower-case digits per byte. -/
def HexStr (v : Bytes) : String :=
  String.mk (v.flatMap (fun b => [hexDigitLower (b / 16 % 16), hexDigitLower (b % 16)]))

/-- `memcmp(&v[0], &pfx[0], 4) == 0` for a 4-byte prefix table entry. -/
def memcmp4 (ver pfx : Bytes) : Bool := decide (ver = pfx.take 4)

/-! ## Key codec (declared in the key and Base58 headers) -/

/-- Big-endian value of a byte string. -/
def beValue (v : Bytes) : Nat := v.foldl (fun acc b => acc * 256 + b) 0

/-- The four big-endian bytes of a 32-bit value. -/
def be4 (n : Nat) : Bytes := [n / 2 ^ 24 % 256, n / 2 ^ 16 % 256, n / 2 ^ 8 % 256, n % 256]

/-- Modelled from the spec: `CExtKey::Decode` on the 74-byte secret-form payload
`depth(1) | parent_fingerprint(4) | child_index(4) | chain_code(32) | 0x00 padding(1) |
secret(32)`. -/
def CExtKey.Decode (code : Bytes) : CExtKey :=
  { nDepth := code.getD 0 0
    vchFingerprint := (code.drop 1).take 4
    nChild := beValue ((code.drop 5).take 4)
    vchChainCode := (code.drop 9).take 32
    key := (code.drop 42).take 32 }

/-- Modelled from the spec: `CExtKey::Encode`, the inverse of `Decode`. -/
def CExtKey.Encode (k : CExtKey) : Bytes :=
  [k.nDepth] ++ k.vchFingerprint ++ be4 k.nChild ++ k.vchChainCode ++ [0] ++ k.key

/-- Modelled from the spec: `CExtPubKey::Decode` on the 74-byte public-form payload
`depth(1) | parent_fingerprint(4) | child_index(4) | chain_code(32) |
compressed_point(33)`. -/
def CExtPubKey.Decode (code : Bytes) : CExtPubKey :=
  { nDepth := code.getD 0 0
    vchFingerprint := (code.drop 1).take 4
    nChild := beValue ((code.drop 5).take 4)
    vchChainCode := (code.drop 9).take 32
    pubkey := (code.drop 41).take 33 }

/-- Modelled from the spec: `CExtPubKey::Encode`, the inverse of `Decode`. -/
def CExtPubKey.Encode (k : CExtPubKey) : Bytes :=
  [k.nDepth] ++ k.vchFingerprint ++ be4 k.nChild ++ k.vchChainCode ++ k.pubkey

/-- Modelled from the spec: Base58Check text of a payload, the payload followed by its
4-byte checksum, Base58-encoded. -/
def EncodeBase58Check (env : Env) (v : Bytes) : String :=
  env.EncodeBase58 (v ++ env.Hash4 v)

/-- Modelled from the spec: `VerifyChecksum(data)`, the trailing 4 bytes are the
checksum of what precedes them. -/
def VerifyChecksum (env : Env) (data : Bytes) : Bool :=
  decide (4 ≤ data.length) &&
    decide (env.Hash4 (data.take (data.length - 4)) = data.drop (data.length - 4))

/-- Modelled from the spec: `CBitcoinExtKey::SetKey(vk)` followed by `ToString()`, the
encoding with the active network's native secret prefix. -/
def CBitcoinExtKey.ToString (env : Env) (vk : CExtKey) : String :=
  EncodeBase58Check env ((env.Base58Prefix env.NetworkID .EXT_SECRET_KEY).take 4 ++ vk.Encode)

/-- Modelled from the spec: `CBitcoinExtPubKey::SetKey(pk)` followed by `ToString()`,
the encoding with the active network's native public prefix. -/
def CBitcoinExtPubKey.ToString (env : Env) (pk : CExtPubKey) : String :=
  EncodeBase58Check env ((env.Base58Prefix env.NetworkID .EXT_PUBLIC_KEY).take 4 ++ pk.Encode)

/-! ## `ExtractBip32InfoV` / `ExtractBip32InfoP` -/

/-- `ExtractBip32InfoV(vchKey, keyInfo, sError)`. -/
def ExtractBip32InfoV (env : Env) (vchKey : Bytes) (keyInfo : UniObj) (sError : String) :
    Option Out := do
  -- vk.DecodeV(&vchKey[4])
  let code ← readBytes vchKey 4 74
  -- memcmp(&vchKey[0], &Params().Base58Prefix(...)[0], 4)
  let ver ← readBytes vchKey 0 4
  let isPart := memcmp4 ver (env.Base58Prefix env.NetworkID .EXT_SECRET_KEY)
  let isBtc := memcmp4 ver (env.Base58Prefix env.NetworkID .EXT_SECRET_KEY_BTC)
  let typePk : Base58Type :=
    if isPart then .EXT_PUBLIC_KEY else if isBtc then .EXT_PUBLIC_KEY_BTC else .EXT_PUBLIC_KEY
  let typeName : String :=
    if isPart then "Particl extended secret key"
    else if isBtc then "Bitcoin extended secret key"
    else "Unknown extended secret key"
  let cmps : List Call :=
    if isPart then [.Base58Prefix env.NetworkID .EXT_SECRET_KEY]
    else [.Base58Prefix env.NetworkID .EXT_SECRET_KEY,
          .Base58Prefix env.NetworkID .EXT_SECRET_KEY_BTC]
  let keyInfo := push_back keyInfo "type" (.str typeName)
  let keyInfo := push_back keyInfo "version" (.str (fmtX 2 (reversePlace ver)))
  let depth ← readBytes vchKey 4 1
  let keyInfo := push_back keyInfo "depth" (.str (fmtU (depth.getD 0 0)))
  let fp ← readBytes vchKey 5 4
  let keyInfo := push_back keyInfo "parent_fingerprint" (.str (fmtX 8 (reversePlace fp)))
  let ci ← readBytes vchKey 9 4
  let keyInfo := push_back keyInfo "child_index" (.str (fmtU (reversePlace ci)))
  let cc ← readBytes vchKey 13 32
  let keyInfo := push_back keyInfo "chain_code" (.str (HexStr cc))
  let sk ← readBytes vchKey 46 32
  let keyInfo := push_back keyInfo "key" (.str (HexStr sk))
  -- key.Set(&vchKey[46], true)
  let keyInfo := push_back keyInfo "privkey" (.str (env.SecretToString sk))
  let id := env.SecretKeyID sk
  let keyInfo := push_back keyInfo "id" (.str (env.AddressToString id .EXT_KEY_HASH))
  let keyInfo := push_back keyInfo "address" (.str (env.AddressToString id .PUBKEY_ADDRESS))
  let ck ← readBytes vchKey 78 4
  let keyInfo := push_back keyInfo "checksum" (.str (fmtX 2 (reversePlace ck)))
  let keyInfo := push_back keyInfo "ext_public_key" (.str (env.ExtKey58ToString code typePk))
  pure { rv := 0, keyInfo := keyInfo, sError := sError, calls := .ExtractBip32InfoV :: cmps }

/-- `ExtractBip32InfoP(vchKey, keyInfo, sError)`. -/
def ExtractBip32InfoP (env : Env) (vchKey : Bytes) (keyInfo : UniObj) (sError : String) :
    Option Out := do
  let ver ← readBytes vchKey 0 4
  let isPart := memcmp4 ver (env.Base58Prefix env.NetworkID .EXT_PUBLIC_KEY)
  let isBtc := memcmp4 ver (env.Base58Prefix env.NetworkID .EXT_PUBLIC_KEY_BTC)
  let typeName : String :=
    if isPart then "Particl extended public key"
    else if isBtc then "Bitcoin extended public key"
    else "Unknown extended public key"
  let cmps : List Call :=
    if isPart then [.Base58Prefix env.NetworkID .EXT_PUBLIC_KEY]
    else [.Base58Prefix env.NetworkID .EXT_PUBLIC_KEY,
          .Base58Prefix env.NetworkID .EXT_PUBLIC_KEY_BTC]
  let keyInfo := push_back keyInfo "type" (.str typeName)
  let keyInfo := push_back keyInfo "version" (.str (fmtX 2 (reversePlace ver)))
  let depth ← readBytes vchKey 4 1
  let keyInfo := push_back keyInfo "depth" (.str (fmtU (depth.getD 0 0)))
  let fp ← readBytes vchKey 5 4
  let keyInfo := push_back keyInfo "parent_fingerprint" (.str (fmtX 8 (reversePlace fp)))
  let ci ← readBytes vchKey 9 4
  let keyInfo := push_back keyInfo "child_index" (.str (fmtU (reversePlace ci)))
  let cc ← readBytes vchKey 13 32
  let keyInfo := push_back keyInfo "chain_code" (.str (HexStr cc))
  let pkb ← readBytes vchKey 45 33
  let keyInfo := push_back keyInfo "key" (.str (HexStr pkb))
  -- key.Set(&vchKey[45], &vchKey[78])
  let id := env.PubKeyID pkb
  let keyInfo := push_back keyInfo "id" (.str (env.AddressToString id .EXT_KEY_HASH))
  let keyInfo := push_back keyInfo "address" (.str (env.AddressToString id .PUBKEY_ADDRESS))
  let ck ← readBytes vchKey 78 4
  let keyInfo := push_back keyInfo "checksum" (.str (fmtX 2 (reversePlace ck)))
  pure { rv := 0, keyInfo := keyInfo, sError := sError, calls := .ExtractBip32InfoP :: cmps }

/-! ## `ExtKeyPathV` / `ExtKeyPathP` -/

/-- The `for` loop of `ExtKeyPathV` over the remaining path, from the current
`vkWork`, `vkOut` and call log: the final `vkOut`, or `none` after a failed `Derive`. -/
def ExtKeyPathV.loop (env : Env) :
    List Nat → CExtKey → CExtKey → List Call → Option CExtKey × List Call
  | [], _, vkOut, calls => (some vkOut, calls)
  | it :: rest, vkWork, _, calls =>
    if it = 0 then
      -- vkOut = vkWork; vkWork = vkOut
      ExtKeyPathV.loop env rest vkWork vkWork calls
    else
      match env.DeriveV vkWork it with
      | none => (none, calls ++ [.DeriveV vkWork it])
      | some out => ExtKeyPathV.loop env rest out out (calls ++ [.DeriveV vkWork it])

/-- `ExtKeyPathV(sPath, vchKey, keyInfo, sError)`. -/
def ExtKeyPathV (env : Env) (sPath : String) (vchKey : Bytes) (keyInfo : UniObj)
    (sError : String) : Option Out :=
  if sPath = "info" then
    ExtractBip32InfoV env vchKey keyInfo sError
  else do
    -- vk.Decode(&vchKey[4])
    let code ← readBytes vchKey 4 74
    let vk := CExtKey.Decode code
    let (rv, vPath) := env.ExtractExtKeyPath sPath
    if rv ≠ 0 then
      pure { rv := 1, keyInfo := keyInfo, sError := env.ExtKeyGetString rv,
             calls := [.ExtractExtKeyPath sPath] }
    else
      match ExtKeyPathV.loop env vPath vk env.vkDefault [.ExtractExtKeyPath sPath] with
      | (none, calls) =>
        pure { rv := 1, keyInfo := keyInfo, sError := "CExtKey Derive failed.", calls := calls }
      | (some vkOut, calls) =>
        pure { rv := 0,
               keyInfo := push_back keyInfo "result" (.str (CBitcoinExtKey.ToString env vkOut)),
               sError := sError, calls := calls }

/-- The `for` loop of `ExtKeyPathP`: the final `pkOut`, or the error text set before
`return 1`. -/
def ExtKeyPathP.loop (env : Env) :
    List Nat → CExtPubKey → CExtPubKey → List Call → Except String CExtPubKey × List Call
  | [], _, pkOut, calls => (.ok pkOut, calls)
  | it :: rest, pkWork, _, calls =>
    if it = 0 then
      ExtKeyPathP.loop env rest pkWork pkWork calls
    else if (it % 2 ^ 32) >>> 31 = 1 then
      (.error "Can't derive hardened keys from public ext key.", calls)
    else
      match env.DeriveP pkWork it with
      | none => (.error "CExtKey Derive failed.", calls ++ [.DeriveP pkWork it])
      | some out => ExtKeyPathP.loop env rest out out (calls ++ [.DeriveP pkWork it])

/-- `ExtKeyPathP(sPath, vchKey, keyInfo, sError)`. -/
def ExtKeyPathP (env : Env) (sPath : String) (vchKey : Bytes) (keyInfo : UniObj)
    (sError : String) : Option Out :=
  if sPath = "info" then
    ExtractBip32InfoP env vchKey keyInfo sError
  else do
    -- pk.Decode(&vchKey[4])
    let code ← readBytes vchKey 4 74
    let pk := CExtPubKey.Decode code
    let (rv, vPath) := env.ExtractExtKeyPath sPath
    if rv ≠ 0 then
      pure { rv := 1, keyInfo := keyInfo, sError := env.ExtKeyGetString rv,
             calls := [.ExtractExtKeyPath sPath] }
    else
      match ExtKeyPathP.loop env vPath pk env.pkDefault [.ExtractExtKeyPath sPath] with
      | (.error e, calls) =>
        pure { rv := 1, keyInfo := keyInfo, sError := e, calls := calls }
      | (.ok pkOut, calls) =>
        pure { rv := 0,
               keyInfo := push_back keyInfo "result" (.str (CBitcoinExtPubKey.ToString env pkOut)),
               sError := sError, calls := calls }

/-! ## `extkey`, mode `info` -/

/-- Modelled from the spec: `BIP32_KEY_LEN`, the fixed 78-byte payload (4-byte version
prefix and 74 bytes of key data) plus the 4-byte checksum. -/
def BIP32_KEY_LEN : Nat := 82

/-- The `otherNet` of `extkey`: main for testnet and regtest, testnet for main. -/
def otherNet (env : Env) : Network :=
  if env.NetworkID = .TESTNET ∨ env.NetworkID = .REGTEST then .MAIN else .TESTNET

/-- A chain `memcmp(..) == 0 || memcmp(..) == 0 || ...` of the version bytes against
prefix table entries, evaluated left to right and stopping at the first match; each
evaluated comparison is logged. -/
def prefixAny (env : Env) (ver : Bytes) : List (Network × Base58Type) → Bool × List Call
  | [] => (false, [])
  | (net, type) :: rest =>
    if memcmp4 ver (env.Base58Prefix net type) then (true, [.Base58Prefix net type])
    else ((prefixAny env ver rest).1, .Base58Prefix net type :: (prefixAny env ver rest).2)

instance {ε α : Type} [DecidableEq ε] [DecidableEq α] : DecidableEq (Except ε α) :=
  fun a b =>
    match a, b with
    | .ok x, .ok y =>
      if h : x = y then isTrue (by rw [h]) else isFalse (fun e => h (Except.ok.inj e))
    | .error x, .error y =>
      if h : x = y then isTrue (by rw [h]) else isFalse (fun e => h (Except.error.inj e))
    | .ok _, .error _ => isFalse (fun e => Except.noConfusion e)
    | .error _, .ok _ => isFalse (fun e => Except.noConfusion e)

/-- The result of an RPC body: the returned object or the text of the
`std::runtime_error` thrown, with the calls made. -/
structure RpcOut where
  result : Except String UniObj
  calls : List Call
  deriving DecidableEq

/-- `sInKey.substr(0, 4)`. -/
def substr04 (s : String) : String := String.mk (s.toList.take 4)

/-- The `mode == "info"` branch of `extkey`, from the decoding of `sInKey` on;
`sMode` is the path argument (default `"info"`). The returned object is the
`key_info` entry of the RPC result. -/
def extkey_info (env : Env) (sInKey sMode : String) : Option RpcOut :=
  match env.DecodeBase58 sInKey with
  | none => some { result := .error "DecodeBase58 failed.", calls := [] }
  | some vchOut =>
    if ¬ VerifyChecksum env vchOut then
      some { result := .error "VerifyChecksum failed.", calls := [] }
    else if vchOut.length ≠ BIP32_KEY_LEN then
      some { result := .error ("Unknown ext key length '" ++ toString vchOut.length ++ "'"),
             calls := [] }
    else do
      let ver ← readBytes vchOut 0 4
      let active := env.NetworkID
      let other := otherNet env
      let (isV, c1) := prefixAny env ver [(active, .EXT_SECRET_KEY), (active, .EXT_SECRET_KEY_BTC)]
      if isV then
        let out ← ExtKeyPathV env sMode vchOut [] ""
        if out.rv ≠ 0 then
          pure { result := .error ("ExtKeyPathV failed " ++ out.sError ++ "."),
                 calls := c1 ++ out.calls }
        else
          pure { result := .ok out.keyInfo, calls := c1 ++ out.calls }
      else
        let (isP, c2) := prefixAny env ver [(active, .EXT_PUBLIC_KEY), (active, .EXT_PUBLIC_KEY_BTC)]
        if isP then
          let out ← ExtKeyPathP env sMode vchOut [] ""
          if out.rv ≠ 0 then
            pure { result := .error ("ExtKeyPathP failed " ++ out.sError ++ "."),
                   calls := c1 ++ c2 ++ out.calls }
          else
            pure { result := .ok out.keyInfo, calls := c1 ++ c2 ++ out.calls }
        else
          let (isO, c3) := prefixAny env ver
            [(other, .EXT_SECRET_KEY), (other, .EXT_SECRET_KEY_BTC),
             (other, .EXT_PUBLIC_KEY), (other, .EXT_PUBLIC_KEY_BTC)]
          if isO then
            pure { result := .error ("Prefix is for " ++ env.NetworkIDString other ++
                                     "-net bip32 key."),
                   calls := c1 ++ c2 ++ c3 }
          else
            pure { result := .error ("Unknown prefix '" ++ substr04 sInKey ++ "'"),
                   calls := c1 ++ c2 ++ c3 }

/-! ## `ManageExtKey` -/

/-- The fields of `CStoredExtKey` that `ManageExtKey` touches: label, flags and the
metadata map (`std::map<uint8_t, std::vector<uint8_t>>`, as an association list). -/
structure CStoredExtKey where
  sLabel : String
  nFlags : Nat
  mapValue : List (Nat × Bytes)
  deriving DecidableEq, Repr

/-- `mapValue.find(k)`: the stored bytes, `none` for `end()`. -/
def mapFind (m : List (Nat × Bytes)) (k : Nat) : Option Bytes :=
  (m.find? (fun e => e.1 == k)).map (fun e => e.2)

/-- `mapValue[k] = v`: overwrite the entry of `k`, or add one. -/
def mapSet : List (Nat × Bytes) → Nat → Bytes → List (Nat × Bytes)
  | [], k, v => [(k, v)]
  | e :: rest, k, v => if e.1 = k then (k, v) :: rest else e :: mapSet rest k v

/-- `x & ~m`: the bits of `m` cleared in `x`. -/
def clearBits (x m : Nat) : Nat := x ^^^ (x &&& m)

/-- `ULONG_MAX` where `unsigned long` has 64 bits (LP64). -/
def ULONG_MAX : Nat := 2 ^ 64 - 1

/-- `isspace` in the C locale. -/
def isspace (c : Char) : Bool :=
  c = ' ' || c = '\t' || c = '\n' || c = '\x0b' || c = '\x0c' || c = '\r'

/-- Result of `strtoul`: the value returned, the text at `*pend`, and whether `errno`
was set (to `ERANGE`). -/
structure StrtoulOut where
  value : Nat
  pend : List Char
  errnoSet : Bool
  deriving DecidableEq, Repr

/-- The decimal digits consumed by `strtoul`: accumulated value, set to exceed
`ULONG_MAX` for good once it overflows, and the unread rest. -/
def strtoulDigits : List Char → Nat → Nat × List Char
  | [], acc => (acc, [])
  | c :: cs, acc =>
    if c.isDigit then
      strtoulDigits cs (if ULONG_MAX < acc * 10 + (c.toNat - 48) then ULONG_MAX + 1
                        else acc * 10 + (c.toNat - 48))
    else (acc, c :: cs)

/-- The optional sign read by `strtoul`: whether it is a minus, and the text after it. -/
def strtoulSign : List Char → Bool × List Char
  | '-' :: r => (true, r)
  | '+' :: r => (false, r)
  | s => (false, s)

/-- `strtoul(nptr, &pend, 10)` of the C library on the characters of `nptr`: leading
white space, an optional sign, then decimal digits; without digits nothing is consumed;
on overflow the value is `ULONG_MAX` and `errno` is set; a minus sign negates modulo
`ULONG_MAX + 1`. -/
def strtoul10 (nptr : List Char) : StrtoulOut :=
  let neg := (strtoulSign (nptr.dropWhile isspace)).1
  let body := (strtoulSign (nptr.dropWhile isspace)).2
  match body with
  | [] => { value := 0, pend := nptr, errnoSet := false }
  | c :: _ =>
    if ¬ c.isDigit then { value := 0, pend := nptr, errnoSet := false }
    else if ULONG_MAX < (strtoulDigits body 0).1 then
      { value := ULONG_MAX, pend := (strtoulDigits body 0).2, errnoSet := true }
    else
      { value := if neg then (ULONG_MAX + 1 - (strtoulDigits body 0).1) % (ULONG_MAX + 1)
                 else (strtoulDigits body 0).1,
        pend := (strtoulDigits body 0).2, errnoSet := false }

/-- `s.c_str()` as seen by a C function: the characters before the first NUL. -/
def c_str (s : String) : List Char := s.toList.takeWhile (fun c => c ≠ '\x00')

/-- `(int) n` for a 64-bit unsigned `n`. -/
def toInt32 (n : Nat) : Int :=
  if n % 2 ^ 32 < 2 ^ 31 then ((n % 2 ^ 32 : Nat) : Int) else ((n % 2 ^ 32 : Nat) : Int) - 2 ^ 32

/-- `flags & bit ? "true" : "false"`. -/
def flagStr (flags bit : Nat) : Val := .str (if flags &&& bit ≠ 0 then "true" else "false")

/-- Result of `ManageExtKey`: the chain and the result object as left by the call, and
the message of the `JSONRPCError(RPC_INVALID_PARAMETER, ..)` thrown, if any; without
a throw the function returns 0. -/
structure ManageOut where
  sek : CStoredExtKey
  result : UniObj
  thrown : Option String
  deriving DecidableEq, Repr

/-- The shared tail of the `look_ahead` and list-all branches: report the stored
lookahead entry or `"default"`. -/
def reportLookAhead (env : Env) (sek : CStoredExtKey) (result : UniObj) : UniObj :=
  match mapFind sek.mapValue env.EKVT_N_LOOKAHEAD with
  | some v => push_back result "look_ahead" (.num (toInt32 (env.GetCompressedInt64 v)))
  | none => push_back result "look_ahead" (.str "default")

/-- `ManageExtKey(sek, sOptName, sOptValue, result, sError)`; `sError` is never
written. -/
def ManageExtKey (env : Env) (sek : CStoredExtKey) (sOptName sOptValue : String)
    (result : UniObj) : ManageOut :=
  if sOptName = "label" then
    let sek := if sOptValue.length = 0 then { sek with sLabel := sOptValue } else sek
    { sek := sek, result := push_back result "set_label" (.str sek.sLabel), thrown := none }
  else if sOptName = "active" then
    let sek :=
      if sOptValue.length > 0 then
        if env.IsStringBoolPositive sOptValue then
          { sek with nFlags := sek.nFlags ||| env.EAF_ACTIVE }
        else { sek with nFlags := clearBits sek.nFlags env.EAF_ACTIVE }
      else sek
    { sek := sek, result := push_back result "set_active" (flagStr sek.nFlags env.EAF_ACTIVE),
      thrown := none }
  else if sOptName = "receive_on" then
    let sek :=
      if sOptValue.length > 0 then
        if env.IsStringBoolPositive sOptValue then
          { sek with nFlags := sek.nFlags ||| env.EAF_RECEIVE_ON }
        else { sek with nFlags := clearBits sek.nFlags env.EAF_RECEIVE_ON }
      else sek
    { sek := sek, result := push_back result "receive_on" (flagStr sek.nFlags env.EAF_RECEIVE_ON),
      thrown := none }
  else if sOptName = "look_ahead" then
    if sOptValue.length > 0 then
      let r := strtoul10 (c_str sOptValue)
      -- errno != 0 || !pend || *pend != '\0'
      if r.errnoSet ∨ r.pend ≠ [] then
        { sek := sek, result := result, thrown := some "Failed: look_ahead invalid number." }
      else if r.value < 1 ∨ r.value > 1000 then
        { sek := sek, result := result, thrown := some "Failed: look_ahead number out of range." }
      else
        let sek := { sek with mapValue := mapSet sek.mapValue env.EKVT_N_LOOKAHEAD
                                            (env.SetCompressedInt64 r.value) }
        let result := push_back result "note"
          (.str "Wallet must be restarted to reload lookahead pool.")
        { sek := sek, result := reportLookAhead env sek result, thrown := none }
    else
      { sek := sek, result := reportLookAhead env sek result, thrown := none }
  else
    let result := push_back result "label" (.str sek.sLabel)
    let result := push_back result "active" (flagStr sek.nFlags env.EAF_ACTIVE)
    let result := push_back result "receive_on" (flagStr sek.nFlags env.EAF_RECEIVE_ON)
    { sek := sek, result := reportLookAhead env sek result, thrown := none }

/-! ## Specification-side notions -/

/-- A hardened index: bit 31 is set. -/
def hardened (i : Nat) : Bool := i.testBit 31

/-- The walk of the specification for secret keys: a left fold over the path with
`step(c, 0) = c` and `step(c, i) = Derive(c, i)`, failing when a derivation fails. -/
def walkV (env : Env) (k : CExtKey) (p : List Nat) : Option CExtKey :=
  p.foldlM (fun c i => if i = 0 then some c else env.DeriveV c i) k

/-- The walk of the specification for public keys. -/
def walkP (env : Env) (k : CExtPubKey) (p : List Nat) : Option CExtPubKey :=
  p.foldlM (fun c i => if i = 0 then some c else env.DeriveP c i) k

/-- The value of `ExtKeyPathV` once the path has been parsed. -/
def ExtKeyPathV.finish (env : Env) (keyInfo : UniObj) (sError : String)
    (r : Option CExtKey × List Call) : Out :=
  match r with
  | (none, calls) =>
    { rv := 1, keyInfo := keyInfo, sError := "CExtKey Derive failed.", calls := calls }
  | (some vkOut, calls) =>
    { rv := 0, keyInfo := push_back keyInfo "result" (.str (CBitcoinExtKey.ToString env vkOut)),
      sError := sError, calls := calls }

/-- The value of `ExtKeyPathP` once the path has been parsed. -/
def ExtKeyPathP.finish (env : Env) (keyInfo : UniObj) (sError : String)
    (r : Except String CExtPubKey × List Call) : Out :=
  match r with
  | (.error e, calls) => { rv := 1, keyInfo := keyInfo, sError := e, calls := calls }
  | (.ok pkOut, calls) =>
    { rv := 0, keyInfo := push_back keyInfo "result" (.str (CBitcoinExtPubKey.ToString env pkOut)),
      sError := sError, calls := calls }

/-- The number denoted by a string of decimal digits. -/
def decValue (ds : List Char) : Nat := ds.foldl (fun a c => a * 10 + (c.toNat - 48)) 0

/-- The version bytes `ver` equal one of the four extended-key prefixes of `net`. -/
def isExtPrefixOf (env : Env) (net : Network) (ver : Bytes) : Prop :=
  ver = (env.Base58Prefix net .EXT_SECRET_KEY).take 4 ∨
  ver = (env.Base58Prefix net .EXT_SECRET_KEY_BTC).take 4 ∨
  ver = (env.Base58Prefix net .EXT_PUBLIC_KEY).take 4 ∨
  ver = (env.Base58Prefix net .EXT_PUBLIC_KEY_BTC).take 4

/-! ## A concrete instance of the collaborators

Used to evaluate the definitions on concrete inputs. Lower-case hexadecimal text
stands in for Base58, a polynomial checksum for the double hash, and a derivation
that fails exactly on child numbers ending in 999 for the curve arithmetic. -/

namespace Sample

/-- Value of a lower-case hexadecimal digit. -/
def hexVal (c : Char) : Option Nat :=
  if c.isDigit then some (c.toNat - 48)
  else if 97 ≤ c.toNat ∧ c.toNat ≤ 102 then some (c.toNat - 87)
  else none

/-- Text to bytes: two hexadecimal digits per byte. -/
def decodeText : List Char → Option Bytes
  | [] => some []
  | [_] => none
  | a :: b :: rest =>
    match hexVal a, hexVal b, decodeText rest with
    | some x, some y, some r => some ((x * 16 + y) :: r)
    | _, _, _ => none

/-- Path text to indices: decimal segments separated by `/`, a trailing `h` adds
`2^31`; `none` on any other character. -/
def parsePath : List Char → Nat → Option (List Nat)
  | [], acc => some [acc]
  | c :: cs, acc =>
    if c = '/' then (parsePath cs 0).map (fun r => acc :: r)
    else if c = 'h' then parsePath cs (acc + 2 ^ 31)
    else if c.isDigit then parsePath cs (acc * 10 + (c.toNat - 48))
    else none

/-- Extended-key prefixes of the two networks. -/
def prefixes : Network → Base58Type → Bytes
  | .MAIN, .EXT_PUBLIC_KEY => [0x69, 0x6e, 0x82, 0xd1]
  | .MAIN, .EXT_SECRET_KEY => [0x8f, 0x1d, 0xae, 0xb8]
  | .MAIN, .EXT_PUBLIC_KEY_BTC => [0x04, 0x88, 0xb2, 0x1e]
  | .MAIN, .EXT_SECRET_KEY_BTC => [0x04, 0x88, 0xad, 0xe4]
  | _, .EXT_PUBLIC_KEY => [0xe1, 0x42, 0x78, 0x00]
  | _, .EXT_SECRET_KEY => [0x04, 0x88, 0x94, 0x78]
  | _, .EXT_PUBLIC_KEY_BTC => [0x04, 0x35, 0x87, 0xcf]
  | _, .EXT_SECRET_KEY_BTC => [0x04, 0x35, 0x83, 0x94]
  | _, _ => [0x00]

/-- The instance, on the main network. -/
def env : Env :=
  { NetworkID := .MAIN
    Base58Prefix := prefixes
    NetworkIDString := fun n =>
      match n with
      | .MAIN => "main"
      | .TESTNET => "test"
      | .REGTEST => "regtest"
    DecodeBase58 := fun s => decodeText s.toList
    EncodeBase58 := HexStr
    Hash4 := fun v => be4 (v.foldl (fun a b => (a * 31 + b) % 2 ^ 32) 7)
    ExtractExtKeyPath := fun s =>
      match parsePath s.toList 0 with
      | some p => (0, p)
      | none => (2, [])
    ExtKeyGetString := fun rv => "error " ++ toString rv
    DeriveV := fun k n =>
      if n % 1000 = 999 then none
      else some { k with nDepth := k.nDepth + 1, nChild := n, key := k.key.map (fun b => (b + n) % 256) }
    DeriveP := fun k n =>
      if n % 1000 = 999 then none
      else some { k with nDepth := k.nDepth + 1, nChild := n,
                         pubkey := k.pubkey.map (fun b => (b + n) % 256) }
    vkDefault := { nDepth := 0, vchFingerprint := [], nChild := 0, vchChainCode := [], key := [] }
    pkDefault := { nDepth := 0, vchFingerprint := [], nChild := 0, vchChainCode := [], pubkey := [] }
    SecretToString := HexStr
    SecretKeyID := fun sk => sk.take 20
    PubKeyID := fun pk => pk.take 20
    AddressToString := fun id _ => HexStr id
    ExtKey58ToString := fun code _ => HexStr code
    IsStringBoolPositive := fun s => decide (s = "true")
    defaultLookAhead := 64
    SetCompressedInt64 := fun n => [n % 256, n / 256 % 256]
    GetCompressedInt64 := fun v => v.getD 0 0 + 256 * v.getD 1 0
    EAF_ACTIVE := 1
    EAF_RECEIVE_ON := 8
    EKVT_N_LOOKAHEAD := 7 }

/-- A key blob with the given version bytes: depth 0, zero fingerprint and child index,
chain code of 32 bytes `0x11`, a padding or header byte, key bytes `0x22`, and the
checksum of the instance. -/
def blob (ver : Bytes) (b45 : Nat) : Bytes :=
  let body := ver ++ [0] ++ List.replicate 4 0 ++ List.replicate 4 0 ++ List.replicate 32 0x11 ++
    [b45] ++ List.replicate 32 0x22
  body ++ env.Hash4 body

/-- A secret key blob with the native prefix of the main network. -/
def vkBlob : Bytes := blob (prefixes .MAIN .EXT_SECRET_KEY) 0

/-- A secret key blob with the Bitcoin prefix of the main network. -/
def vkBlobBtc : Bytes := blob (prefixes .MAIN .EXT_SECRET_KEY_BTC) 0

/-- A public key blob with the native prefix of the main network. -/
def pkBlob : Bytes := blob (prefixes .MAIN .EXT_PUBLIC_KEY) 2

/-- The secret key blob with its last checksum byte changed. -/
def badBlob : Bytes := vkBlob.take 81 ++ [(vkBlob.getD 81 0 + 1) % 256]

/-- A checksummed blob that is one byte short: 77 bytes and their checksum. -/
def shortBlob : Bytes := vkBlob.take 77 ++ env.Hash4 (vkBlob.take 77)

/-- A public key blob with the native prefix of the test network. -/
def pkBlobTest : Bytes := blob (prefixes .TESTNET .EXT_PUBLIC_KEY) 2

/-- A blob whose version bytes are no extended-key prefix of any network. -/
def unknownBlob : Bytes := blob [1, 2, 3, 4] 0

/-- A chain with a label, the active flag and no metadata. -/
def chain : CStoredExtKey := { sLabel := "savings", nFlags := 1, mapValue := [] }

end Sample

/-! ## `ManageExtAccount` -/

/-- The fields of `CExtKeyAccount` that `ManageExtAccount` touches: label and flags. -/
structure CExtKeyAccount where
  sLabel : String
  nFlags : Nat
  deriving DecidableEq, Repr

/-- Result of `ManageExtAccount`: the account and the result object as left by the
call; the function always returns 0 and throws nothing. -/
structure ManageAccountOut where
  sea : CExtKeyAccount
  result : UniObj
  deriving DecidableEq, Repr

/-- `ManageExtAccount(sea, sOptName, sOptValue, result, sError)`; `sError` is never
written. -/
def ManageExtAccount (env : Env) (sea : CExtKeyAccount) (sOptName sOptValue : String)
    (result : UniObj) : ManageAccountOut :=
  if sOptName = "label" then
    let sea := if sOptValue.length > 0 then { sea with sLabel := sOptValue } else sea
    { sea := sea, result := push_back result "set_label" (.str sea.sLabel) }
  else if sOptName = "active" then
    let sea :=
      if sOptValue.length > 0 then
        if env.IsStringBoolPositive sOptValue then
          { sea with nFlags := sea.nFlags ||| env.EAF_ACTIVE }
        else { sea with nFlags := clearBits sea.nFlags env.EAF_ACTIVE }
      else sea
    { sea := sea, result := push_back result "set_active" (flagStr sea.nFlags env.EAF_ACTIVE) }
  else
    let result := push_back result "label" (.str sea.sLabel)
    let result := push_back result "active" (flagStr sea.nFlags env.EAF_ACTIVE)
    { sea := sea, result := result }

namespace Sample

/-- An account with a label and the active flag. -/
def account : CExtKeyAccount := { sLabel := "main account", nFlags := 1 }

/-- A chain that already stores a lookahead entry. -/
def chainLookAhead : CStoredExtKey :=
  { sLabel := "change", nFlags := 9, mapValue := [(7, [64, 0])] }

end Sample

/-! ## Wallet state, store and wallet collaborators -/

/-- Key and account identifiers (`CKeyID`). -/
abbrev CKeyID := Bytes

/-- The state of `CHDWallet` that the modes below read and write: the in-memory maps
of loose keys and of accounts, whose entries are pointers to the stored objects, and
the default account id. -/
structure CHDWallet where
  mapExtKeys : List (CKeyID × CStoredExtKey)
  mapExtAccounts : List (CKeyID × CExtKeyAccount)
  idDefaultAccount : CKeyID
  deriving DecidableEq, Repr

/-- `map.find(id)`: the object the entry points to, `none` for `end()`. -/
def mapLookup {α : Type} (m : List (CKeyID × α)) (id : CKeyID) : Option α :=
  (m.find? (fun e => e.1 == id)).map (fun e => e.2)

/-- A write through the pointer `it->second` of the entry of `id`: the object held in
the map becomes `v`. -/
def mapStore {α : Type} (m : List (CKeyID × α)) (id : CKeyID) (v : α) : List (CKeyID × α) :=
  m.map (fun e => if e.1 = id then (e.1, v) else e)

/-- Modelled from the spec: `CExtKey58` after a successful `Set58`, a decoded extended
key with its 4-byte version prefix and its key data. -/
structure CExtKey58 where
  vchVersion : Bytes
  vchKey : Bytes
  deriving DecidableEq, Repr

/-- Modelled from the spec: `CExtKey58::IsValid(type)`, the version prefix of the key
is the active network's prefix of `type`. -/
def CExtKey58.IsValid (env : Env) (k : CExtKey58) (type : Base58Type) : Bool :=
  memcmp4 k.vchVersion (env.Base58Prefix env.NetworkID type)

/-- Observed calls to the store (`CHDWalletDB`) and to `CHDWallet`. -/
inductive WCall where
  | TxnBegin
  | TxnAbort
  | TxnCommit
  | ReadExtKey (id : CKeyID)
  | ReadExtAccount (id : CKeyID)
  | WriteExtKey (id : CKeyID) (sek : CStoredExtKey)
  | WriteExtAccount (id : CKeyID) (sea : CExtKeyAccount)
  | ExtKeySetDefaultAccount (id : CKeyID)
  | ExtKeyDeriveNewAccount (sLabel sPath : String)
  | ExtKeyImportLoose (sek : CStoredExtKey) (key : CExtKey58) (fBip44 fSaveBip44 : Bool)
  | NewStealthKeyFromAccount (sLabel : String) (num_prefix_bits : Nat)
      (pPrefix : Option String)
  deriving DecidableEq, Repr

/-- The store and the wallet methods defined outside `rpchdwallet.cpp`, as they behave
during one call. -/
structure WalletEnv where
  /-- `wdb.TxnBegin()`. -/
  TxnBegin : Bool
  /-- `wdb.TxnCommit()`. -/
  TxnCommit : Bool
  /-- `wdb.ReadExtKey(id, sek)`: `none` when it returns false. -/
  ReadExtKey : CKeyID → Option CStoredExtKey
  /-- `wdb.ReadExtAccount(id, sea)`: `none` when it returns false. -/
  ReadExtAccount : CKeyID → Option CExtKeyAccount
  /-- `wdb.WriteExtKey(id, sek)`. -/
  WriteExtKey : CKeyID → CStoredExtKey → Bool
  /-- `wdb.WriteExtAccount(id, sea)`. -/
  WriteExtAccount : CKeyID → CExtKeyAccount → Bool
  /-- `pwallet->ExtKeySetDefaultAccount(&wdb, id)`: the return code and the wallet as
  left by the call. -/
  ExtKeySetDefaultAccount : CHDWallet → CKeyID → Int × CHDWallet
  /-- `pwallet->ExtKeyDeriveNewAccount(&wdb, sea, sLabel, sPath)`: the return code, the
  wallet as left by the call and the account object `*sea`. -/
  ExtKeyDeriveNewAccount : CHDWallet → String → String → Int × CHDWallet × CExtKeyAccount
  /-- `sea->GetIDString58()`. -/
  GetIDString58 : CExtKeyAccount → String
  /-- `sea->ChainAccount()` with `eKey58.SetKeyP(sekAccount->kp); eKey58.ToString()`:
  `none` when the account has no account chain. -/
  ChainAccountKey58 : CExtKeyAccount → Option String
  /-- `eKey58.Set58(psz)`: the return code and the decoded key. -/
  Set58 : String → Int × CExtKey58
  /-- `pwallet->ExtKeyImportLoose(&wdb, sek, idDerived, fBip44, fSaveBip44)` with
  `sek.kp` set from the decoded key: the return code and the wallet as left. -/
  ExtKeyImportLoose : CHDWallet → CStoredExtKey → CExtKey58 → Bool → Bool → Int × CHDWallet
  /-- `pwallet->NewStealthKeyFromAccount(sLabel, akStealth, num_prefix_bits, pPrefix)`
  with `akStealth.SetSxAddr(sxAddr); sxAddr.ToString()`: the return code and the
  address text. -/
  NewStealthKeyFromAccount : String → Nat → Option String → Int × String

/-- Outcome of a wallet RPC body: the wallet as left by the call, the returned object
or the text of the exception thrown, and the calls made. -/
structure WalletOut where
  wallet : CHDWallet
  result : Except String UniObj
  calls : List WCall
  deriving DecidableEq

/-! ## `extkey`, mode `options` (from line 1352) -/

/-- The `if (fKey)` block once `pSek` is set: `ManageExtKey` on `*pSek`, then the
write to the store. `inMemory` tells whether `pSek` is the map's object (`it->second`),
which `ManageExtKey` then changes in place, or the local `sek` read from the store. -/
def extkey_options.manageKey (env : Env) (wenv : WalletEnv) (wallet : CHDWallet)
    (id : CKeyID) (pSek : CStoredExtKey) (inMemory : Bool) (sOptName sOptValue : String)
    (result : UniObj) (calls : List WCall) :
    Except WalletOut (CHDWallet × UniObj × List WCall) :=
  let out := ManageExtKey env pSek sOptName sOptValue result
  let wallet :=
    if inMemory then { wallet with mapExtKeys := mapStore wallet.mapExtKeys id out.sek }
    else wallet
  match out.thrown with
  | some msg => .error { wallet := wallet, result := .error msg, calls := calls }
  | none =>
    if sOptValue.length > 0 then
      if ¬ wenv.WriteExtKey id out.sek then
        .error { wallet := wallet, result := .error "WriteExtKey failed.",
                 calls := calls ++ [.WriteExtKey id out.sek, .TxnAbort] }
      else .ok (wallet, out.result, calls ++ [.WriteExtKey id out.sek])
    else .ok (wallet, out.result, calls)

/-- The `if (fKey)` block: the state handed on, or the outcome of a throw. -/
def extkey_options.key (env : Env) (wenv : WalletEnv) (wallet : CHDWallet) (id : CKeyID)
    (sOptName sOptValue : String) (result : UniObj) (calls : List WCall) :
    Except WalletOut (CHDWallet × UniObj × List WCall) :=
  match mapLookup wallet.mapExtKeys id with
  | some pSek =>
    extkey_options.manageKey env wenv wallet id pSek true sOptName sOptValue result calls
  | none =>
    match wenv.ReadExtKey id with
    | some sek =>
      extkey_options.manageKey env wenv wallet id sek false sOptName sOptValue result
        (calls ++ [.ReadExtKey id])
    | none =>
      .error { wallet := wallet, result := .error "Key not in wallet.",
               calls := calls ++ [.ReadExtKey id, .TxnAbort] }

/-- The `if (fAccount)` block once `pSea` is set: `ManageExtAccount` on `*pSea`, then
the write to the store. -/
def extkey_options.manageAccount (env : Env) (wenv : WalletEnv) (wallet : CHDWallet)
    (id : CKeyID) (pSea : CExtKeyAccount) (inMemory : Bool) (sOptName sOptValue : String)
    (result : UniObj) (calls : List WCall) :
    Except WalletOut (CHDWallet × UniObj × List WCall) :=
  let out := ManageExtAccount env pSea sOptName sOptValue result
  let wallet :=
    if inMemory then
      { wallet with mapExtAccounts := mapStore wallet.mapExtAccounts id out.sea }
    else wallet
  if sOptValue.length > 0 then
    if ¬ wenv.WriteExtAccount id out.sea then
      .error { wallet := wallet, result := .error "Write failed.",
               calls := calls ++ [.WriteExtAccount id out.sea, .TxnAbort] }
    else .ok (wallet, out.result, calls ++ [.WriteExtAccount id out.sea])
  else .ok (wallet, out.result, calls)

/-- The `if (fAccount)` block: the state handed on, or the outcome of a throw. -/
def extkey_options.account (env : Env) (wenv : WalletEnv) (wallet : CHDWallet) (id : CKeyID)
    (sOptName sOptValue : String) (result : UniObj) (calls : List WCall) :
    Except WalletOut (CHDWallet × UniObj × List WCall) :=
  match mapLookup wallet.mapExtAccounts id with
  | some pSea =>
    extkey_options.manageAccount env wenv wallet id pSea true sOptName sOptValue result calls
  | none =>
    match wenv.ReadExtAccount id with
    | some sea =>
      extkey_options.manageAccount env wenv wallet id sea false sOptName sOptValue result
        (calls ++ [.ReadExtAccount id])
    | none =>
      .error { wallet := wallet, result := .error "Account not in wallet.",
               calls := calls ++ [.ReadExtAccount id, .TxnAbort] }

/-- The `options` mode of `extkey` from the transaction block on (line 1352), for the
target `id` resolved as a key (`fKey`) or an account (`fAccount`). `ManageExtKey` and
`ManageExtAccount` return 0 whenever they return, so the two `Error:` throws are not
reached; a `JSONRPCError` thrown by `ManageExtKey` leaves the function. -/
def extkey_options (env : Env) (wenv : WalletEnv) (wallet : CHDWallet) (fKey fAccount : Bool)
    (id : CKeyID) (sOptName sOptValue : String) (result : UniObj) : WalletOut :=
  if ¬ wenv.TxnBegin then
    { wallet := wallet, result := .error "TxnBegin failed.", calls := [.TxnBegin] }
  else
    let afterKey :=
      if fKey then extkey_options.key env wenv wallet id sOptName sOptValue result [.TxnBegin]
      else .ok (wallet, result, [.TxnBegin])
    match afterKey with
    | .error o => o
    | .ok (wallet, result, calls) =>
      let afterAccount :=
        if fAccount then
          extkey_options.account env wenv wallet id sOptName sOptValue result calls
        else .ok (wallet, result, calls)
      match afterAccount with
      | .error o => o
      | .ok (wallet, result, calls) =>
        if sOptValue.length = 0 then
          { wallet := wallet, result := .ok result, calls := calls ++ [.TxnAbort] }
        else if ¬ wenv.TxnCommit then
          { wallet := wallet, result := .error "TxnCommit failed.",
            calls := calls ++ [.TxnCommit] }
        else
          { wallet := wallet, result := .ok (push_back result "result" (.str "Success.")),
            calls := calls ++ [.TxnCommit] }

/-! ## `extkey`, modes `setdefaultaccount`, `deriveaccount` and `import` -/

/-- The `setdefaultaccount` mode of `extkey` from line 1196 on; `idNewDefault` is the
id as left by the address parsing of lines 1202-1207. -/
def extkey_setdefaultaccount (env : Env) (wenv : WalletEnv) (wallet : CHDWallet)
    (idNewDefault : CKeyID) (result : UniObj) : WalletOut :=
  let idOldDefault := wallet.idDefaultAccount
  if ¬ wenv.TxnBegin then
    { wallet := wallet, result := .error "TxnBegin failed.", calls := [.TxnBegin] }
  else
    match wenv.ExtKeySetDefaultAccount wallet idNewDefault with
    | (rv, wallet) =>
      if rv ≠ 0 then
        { wallet := wallet,
          result := .error ("ExtKeySetDefaultAccount failed, " ++ env.ExtKeyGetString rv ++ "."),
          calls := [.TxnBegin, .ExtKeySetDefaultAccount idNewDefault, .TxnAbort] }
      else if ¬ wenv.TxnCommit then
        -- pwallet->idDefaultAccount = idOldDefault
        { wallet := { wallet with idDefaultAccount := idOldDefault },
          result := .error "TxnCommit failed.",
          calls := [.TxnBegin, .ExtKeySetDefaultAccount idNewDefault, .TxnCommit] }
      else
        { wallet := wallet, result := .ok (push_back result "result" (.str "Success.")),
          calls := [.TxnBegin, .ExtKeySetDefaultAccount idNewDefault, .TxnCommit] }

/-- The `deriveaccount` mode of `extkey` from line 1259 on, with the label and path
read from the parameters. -/
def extkey_deriveaccount (env : Env) (wenv : WalletEnv) (wallet : CHDWallet)
    (sLabel sPath : String) (result : UniObj) : WalletOut :=
  if ¬ wenv.TxnBegin then
    { wallet := wallet, result := .error "TxnBegin failed.", calls := [.TxnBegin] }
  else
    match wenv.ExtKeyDeriveNewAccount wallet sLabel sPath with
    | (rv, wallet, sea) =>
      if rv ≠ 0 then
        { wallet := wallet,
          result := .ok (push_back (push_back result "result" (.str "Failed."))
            "reason" (.str (env.ExtKeyGetString rv))),
          calls := [.TxnBegin, .ExtKeyDeriveNewAccount sLabel sPath, .TxnAbort] }
      else if ¬ wenv.TxnCommit then
        { wallet := wallet, result := .error "TxnCommit failed.",
          calls := [.TxnBegin, .ExtKeyDeriveNewAccount sLabel sPath, .TxnCommit] }
      else
        let result := push_back result "result" (.str "Success.")
        let result := push_back result "account" (.str (wenv.GetIDString58 sea))
        let result :=
          match wenv.ChainAccountKey58 sea with
          | some s => push_back result "public key" (.str s)
          | none => result
        let result := if sLabel ≠ "" then push_back result "label" (.str sLabel) else result
        { wallet := wallet, result := .ok result,
          calls := [.TxnBegin, .ExtKeyDeriveNewAccount sLabel sPath, .TxnCommit] }

/-- The `import` mode of `extkey` from line 1018 on; `sek` is the stored key as
prepared by lines 990-1016 (label and creation time), `fBip44` and `fSaveBip44` the
flags read from the parameters. -/
def extkey_import (env : Env) (wenv : WalletEnv) (wallet : CHDWallet) (sek : CStoredExtKey)
    (sInKey : String) (fBip44 fSaveBip44 : Bool) (result : UniObj) : WalletOut :=
  match wenv.Set58 sInKey with
  | (rv58, eKey58) =>
    if rv58 ≠ 0 then
      { wallet := wallet, result := .error "Import failed - Invalid key.", calls := [] }
    else if fBip44 = true ∧ ¬ eKey58.IsValid env .EXT_SECRET_KEY_BTC then
      { wallet := wallet,
        result := .error "Import failed - BIP44 key must begin with a bitcoin secret key prefix.",
        calls := [] }
    else if fBip44 = false ∧
        (¬ eKey58.IsValid env .EXT_SECRET_KEY ∧ ¬ eKey58.IsValid env .EXT_PUBLIC_KEY_BTC) then
      { wallet := wallet,
        result := .error "Import failed - Key must begin with a particl prefix.",
        calls := [] }
    else if ¬ wenv.TxnBegin then
      { wallet := wallet, result := .error "TxnBegin failed.", calls := [.TxnBegin] }
    else
      match wenv.ExtKeyImportLoose wallet sek eKey58 fBip44 fSaveBip44 with
      | (rv, wallet) =>
        if rv ≠ 0 then
          { wallet := wallet,
            result := .error ("ExtKeyImportLoose failed, " ++ env.ExtKeyGetString rv),
            calls := [.TxnBegin, .ExtKeyImportLoose sek eKey58 fBip44 fSaveBip44, .TxnAbort] }
        else if ¬ wenv.TxnCommit then
          { wallet := wallet, result := .error "TxnCommit failed.",
            calls := [.TxnBegin, .ExtKeyImportLoose sek eKey58 fBip44 fSaveBip44, .TxnCommit] }
        else
          let result := push_back result "result" (.str "Success.")
          let result := push_back result "key_label" (.str sek.sLabel)
          let result := push_back result "note" (.str "Please backup your wallet.")
          { wallet := wallet, result := .ok result,
            calls := [.TxnBegin, .ExtKeyImportLoose sek eKey58 fBip44 fSaveBip44, .TxnCommit] }

/-! ## A concrete wallet and store -/

namespace Sample

/-- A wallet holding one loose chain and one account, the account being the default. -/
def wallet : CHDWallet :=
  { mapExtKeys := [([0xaa], chain)]
    mapExtAccounts := [([0xbb], account)]
    idDefaultAccount := [0xbb] }

/-- The account that the sample `ExtKeyDeriveNewAccount` constructs. -/
def newAccount (sLabel : String) : CExtKeyAccount := { sLabel := sLabel, nFlags := 3 }

/-- A store and wallet whose `TxnBegin`, writes and `TxnCommit` succeed or fail as
told. `ExtKeySetDefaultAccount` sets the default id for an account of the map and
reports 1 otherwise; `ExtKeyDeriveNewAccount` links a new account under the id `cc` and
then reports `rvDerive`; `Set58` reads hexadecimal text, the first four bytes being
the version; `ExtKeyImportLoose` links the stored key under the first byte of the key
data. -/
def wenv (fBegin fWrite fCommit : Bool) (rvDerive : Int) : WalletEnv :=
  { TxnBegin := fBegin
    TxnCommit := fCommit
    ReadExtKey := fun _ => none
    ReadExtAccount := fun _ => none
    WriteExtKey := fun _ _ => fWrite
    WriteExtAccount := fun _ _ => fWrite
    ExtKeySetDefaultAccount := fun w id =>
      if (mapLookup w.mapExtAccounts id).isSome then (0, { w with idDefaultAccount := id })
      else (1, w)
    ExtKeyDeriveNewAccount := fun w sLabel _ =>
      (rvDerive, { w with mapExtAccounts := w.mapExtAccounts ++ [([0xcc], newAccount sLabel)] },
        newAccount sLabel)
    GetIDString58 := fun sea => "id of " ++ sea.sLabel
    ChainAccountKey58 := fun _ => none
    Set58 := fun s =>
      match decodeText s.toList with
      | some b => if 4 ≤ b.length then (0, { vchVersion := b.take 4, vchKey := b.drop 4 })
                  else (1, { vchVersion := [], vchKey := [] })
      | none => (1, { vchVersion := [], vchKey := [] })
    ExtKeyImportLoose := fun w sek k _ _ =>
      (0, { w with mapExtKeys := w.mapExtKeys ++ [(k.vchKey.take 1, sek)] })
    NewStealthKeyFromAccount := fun sLabel n _ => (0, "stealth " ++ sLabel ++ " " ++ toString n) }

end Sample

/-! ## Stealth addresses: `getnewstealthaddress` and `importstealthaddress` -/

/-- A `CKey`: its validity flag and its key bytes. -/
structure CKey where
  fValid : Bool
  keydata : Bytes
  deriving DecidableEq, Repr

/-- Modelled from the spec: `CStealthAddress`, a scan key, the id and public key of the
spend key, a label and the optional bit-prefix filter `prefix` with its number of bits
and its value. -/
structure CStealthAddress where
  label : String
  scan_secret : CKey
  spend_secret_id : CKeyID
  number_bits : Nat
  bitfield : Nat
  scan_pubkey : Bytes
  spend_pubkey : Bytes
  deriving DecidableEq, Repr

/-- Collaborators of the stealth address functions that live outside
`rpchdwallet.cpp`. -/
structure StealthEnv where
  /-- `IsHex(s)`. -/
  IsHex : String → Bool
  /-- `ParseHex(s)`. -/
  ParseHex : String → Bytes
  /-- `wif.SetString(s)` followed by `wif.GetKey()`: `none` when `SetString` fails. -/
  WifSetString : String → Option CKey
  /-- A default-constructed `CKey`. -/
  KeyDefault : CKey
  /-- `sk.Set(&vch[0], true)` on the 32 bytes of `vch`. -/
  KeySet : Bytes → CKey
  /-- `ExtractStealthPrefix(psz, nPrefix)`: `none` when it returns false. -/
  ExtractStealthPrefix : String → Option Nat
  /-- `CSHA256().Write(sk.begin(), 32).Finalize(tmp32)`: the 32 bytes of `tmp32`. -/
  Sha256Key : CKey → Bytes
  /-- `sk.GetPubKey().GetID()`. -/
  SpendKeyID : CKey → CKeyID
  /-- `SecretToPublicKey(sk, pk)`: `none` when it does not return 0. -/
  SecretToPublicKey : CKey → Option Bytes
  /-- A default-constructed `CStealthAddress` (`CStealthAddress sxAddr;`, line 1944): the
  constructor is declared outside `rpchdwallet.cpp`. -/
  SxAddrDefault : CStealthAddress

/-- Modelled from the spec: `SetStealthMask(nBits)`, the mask of the `nBits` least
significant bits; the help text of lines 1809 and 1862 has the least significant
`num_prefix_bits` become the prefix. -/
def SetStealthMask (nBits : Nat) : Nat := 2 ^ nBits - 1

/-- Value of a byte string read as a little-endian integer (`memcpy` into an integer on
a little-endian host). -/
def leValue (v : Bytes) : Nat := v.foldr (fun b acc => b + 256 * acc) 0

/-- The reading of the `num_prefix_bits` parameter, lines 1823-1835 of
`getnewstealthaddress` and, with the same text, lines 1879-1891 of
`importstealthaddress`; `sTemp` is the parameter when it is present. The value that
`strtoul` returns is stored in a `uint32_t`. -/
def num_prefix_bits (sTemp : Option String) : Except String Nat :=
  match sTemp with
  | none => .ok 0
  | some s =>
    -- errno != 0 || !pend || *pend != '\0'
    if (strtoul10 (c_str s)).errnoSet ∨ (strtoul10 (c_str s)).pend ≠ [] then
      .error "Failed: num_prefix_bits invalid number."
    else if (strtoul10 (c_str s)).value % 2 ^ 32 > 32 then
      .error "Failed: num_prefix_bits must be <= 32."
    else .ok ((strtoul10 (c_str s)).value % 2 ^ 32)

/-- The body of `getnewstealthaddress` after the help check, on the parameter strings:
the address text returned or the text of the exception, and the wallet calls made. -/
def getnewstealthaddress (wenv : WalletEnv) (params : List String) :
    Except String String × List WCall :=
  let sLabel := params.getD 0 ""
  match num_prefix_bits params[1]? with
  | .error e => (.error e, [])
  | .ok n =>
    let sPrefix_num := params.getD 2 ""
    let pPrefix := if sPrefix_num = "" then none else some (String.mk (c_str sPrefix_num))
    if (wenv.NewStealthKeyFromAccount sLabel n pPrefix).1 ≠ 0 then
      (.error "NewStealthKeyFromAccount failed.", [.NewStealthKeyFromAccount sLabel n pPrefix])
    else
      (.ok (wenv.NewStealthKeyFromAccount sLabel n pPrefix).2,
       [.NewStealthKeyFromAccount sLabel n pPrefix])

/-- The size check that follows the decoding of a secret (lines 1918-1923 and
1937-1942): a non-empty vector must have 32 bytes and sets the key; with an empty
vector the key stays as it is. -/
def importstealthaddress.setKey (senv : StealthEnv) (vch : Bytes) (sk : CKey)
    (err32 : String) : Except String CKey :=
  if vch.length > 0 then
    if vch.length ≠ 32 then .error err32 else .ok (senv.KeySet vch)
  else .ok sk

/-- The decoding of a secret parameter as hex, WIF or Base58 (lines 1906-1923 for the
scan secret, 1925-1942 for the spend secret, which differ in their messages). -/
def importstealthaddress.secret (env : Env) (senv : StealthEnv) (s : String)
    (errDecode err32 : String) : Except String CKey :=
  if senv.IsHex s then
    importstealthaddress.setKey senv (senv.ParseHex s) senv.KeyDefault err32
  else
    match senv.WifSetString s with
    | some sk => importstealthaddress.setKey senv [] sk err32
    | none =>
      match env.DecodeBase58 s with
      | none => .error errDecode
      | some vch => importstealthaddress.setKey senv vch senv.KeyDefault err32

/-- The prefix of the address (lines 1949-1963): `nPrefix` is the number extracted from
the `prefix_num` parameter, 0 without one. -/
def importstealthaddress.setPrefix (senv : StealthEnv) (sxAddr : CStealthAddress)
    (num_prefix_bits nPrefix : Nat) (sPrefix_num : String) (skSpend : CKey) :
    CStealthAddress :=
  let sxAddr := { sxAddr with number_bits := num_prefix_bits }
  if sxAddr.number_bits > 0 then
    -- memcpy(&nPrefix, tmp32, 4)
    let nPrefix :=
      if sPrefix_num = "" then leValue ((senv.Sha256Key skSpend).take 4) % 2 ^ 32 else nPrefix
    let nMask := SetStealthMask num_prefix_bits
    { sxAddr with bitfield := nPrefix &&& nMask }
  else sxAddr

/-- The first part of `importstealthaddress`, lines 1872-1968, on the parameter strings
(two to five of them): the address built and the spend key, or the text of the
exception thrown. -/
def importstealthaddress.sxAddr (env : Env) (senv : StealthEnv) (params : List String) :
    Except String (CStealthAddress × CKey) :=
  let sScanSecret := params.getD 0 ""
  let sSpendSecret := params.getD 1 ""
  let sLabel := params.getD 2 ""
  match num_prefix_bits params[3]? with
  | .error e => .error e
  | .ok bits =>
    let sPrefix_num := params.getD 4 ""
    match (match params[4]? with
           | none => some 0
           | some s => (senv.ExtractStealthPrefix (String.mk (c_str s))).map
                         (fun n => n % 2 ^ 32)) with
    | none => .error "Failed: Could not convert prefix to number."
    | some nPrefix =>
      match importstealthaddress.secret env senv sScanSecret
          "Could not decode scan secret as wif, hex or base58." "Scan secret is not 32 bytes." with
      | .error e => .error e
      | .ok skScan =>
        match importstealthaddress.secret env senv sSpendSecret
            "Could not decode spend secret as hex or base58." "Spend secret is not 32 bytes." with
        | .error e => .error e
        | .ok skSpend =>
          let sxAddr := { senv.SxAddrDefault with
                          label := sLabel, scan_secret := skScan,
                          spend_secret_id := senv.SpendKeyID skSpend }
          let sxAddr := importstealthaddress.setPrefix senv sxAddr bits nPrefix sPrefix_num skSpend
          match senv.SecretToPublicKey skScan with
          | none => .error "Could not get scan public key."
          | some scan_pubkey =>
            match senv.SecretToPublicKey skSpend with
            | none => .error "Could not get spend public key."
            | some spend_pubkey =>
              .ok ({ sxAddr with scan_pubkey := scan_pubkey, spend_pubkey := spend_pubkey },
                   skSpend)

namespace Sample

/-- Hexadecimal text of an even, non-zero number of digits. -/
def isHexText (s : String) : Bool :=
  s ≠ "" && s.length % 2 = 0 && (decodeText s.toList).isSome

/-- Stealth collaborators: secrets are read as hexadecimal text only, the key of a byte
string is those bytes, its public key the bytes with a leading 2, its hash the bytes
reversed, a prefix number is read in decimal, and a default-constructed address has
empty fields and the prefix value 0. -/
def senv : StealthEnv :=
  { IsHex := isHexText
    ParseHex := fun s => (decodeText s.toList).getD []
    WifSetString := fun _ => none
    KeyDefault := { fValid := false, keydata := List.replicate 32 0 }
    KeySet := fun vch => { fValid := true, keydata := vch }
    ExtractStealthPrefix := fun s =>
      if s ≠ "" ∧ s.toList.all Char.isDigit then some (decValue s.toList) else none
    Sha256Key := fun sk => sk.keydata.reverse
    SpendKeyID := fun sk => sk.keydata.take 20
    SecretToPublicKey := fun sk => if sk.fValid then some (2 :: sk.keydata) else none
    SxAddrDefault :=
      { label := "", scan_secret := { fValid := false, keydata := List.replicate 32 0 },
        spend_secret_id := [], number_bits := 0, bitfield := 0, scan_pubkey := [],
        spend_pubkey := [] } }

/-- The scan secret `01 02 .. 20` in hexadecimal text. -/
def scanSecret : String := HexStr ((List.range 32).map (fun i => i + 1))

/-- The spend secret `a0 a1 .. bf` in hexadecimal text. -/
def spendSecret : String := HexStr ((List.range 32).map (fun i => i + 160))

/-- The key read from `spendSecret`. -/
def spendKey : CKey := { fValid := true, keydata := (List.range 32).map (fun i => i + 160) }

/-- The address that importing `scanSecret` and `spendSecret` under the label "lbl"
builds, given the number of prefix bits and the prefix value it stores. -/
def importedAddress (number_bits bitfield : Nat) : CStealthAddress :=
  { label := "lbl"
    scan_secret := { fValid := true, keydata := (List.range 32).map (fun i => i + 1) }
    spend_secret_id := (List.range 20).map (fun i => i + 160)
    number_bits := number_bits
    bitfield := bitfield
    scan_pubkey := 2 :: (List.range 32).map (fun i => i + 1)
    spend_pubkey := 2 :: (List.range 32).map (fun i => i + 160) }

end Sample

namespace Sample

/-- A public key blob with the Bitcoin prefix of the main network. -/
def pkBlobBtc : Bytes := blob (prefixes .MAIN .EXT_PUBLIC_KEY_BTC) 2

end Sample

/-! ## `extkey`: selection of the mode (lines 761-783) -/

/-- `strstr(haystack, needle) != NULL` on the characters of two C strings. -/
def strstr : List Char → List Char → Bool
  | [], needle => needle.isEmpty
  | c :: cs, needle => needle.isPrefixOf (c :: cs) || strstr cs needle

/-- The mode words of `extkey`, line 770. -/
def pmodes : String :=
  " info list gen account key import importaccount setmaster setdefaultaccount deriveaccount options "

/-- What lines 761-783 leave: the mode, the input key and the parameter offset. -/
structure ModeOut where
  mode : String
  sInKey : String
  nParamOffset : Nat
  deriving DecidableEq, Repr

/-- Lines 761-783 of `extkey` on the parameter strings. -/
def extkey_mode (params : List String) : ModeOut :=
  match params with
  | [] => { mode := "list", sInKey := "", nParamOffset := 0 }
  | s :: _ =>
    -- st = " " + s + " ", then std::transform(.., ::tolower)
    let st := (" " ++ s ++ " ").toList.map Char.toLower
    if strstr (c_str pmodes) (st.takeWhile (fun c => c ≠ '\x00')) then
      -- st.erase(std::remove(st.begin(), st.end(), ' '), st.end()); mode = st
      { mode := String.mk (st.filter (fun c => c ≠ ' ')), sInKey := "", nParamOffset := 1 }
    else
      { mode := "info", sInKey := s, nParamOffset := 1 }

/-- The eleven mode words of the claim on the first parameter of `extkey`. -/
def modeWords : List String :=
  ["info", "list", "gen", "account", "key", "import", "importaccount", "setmaster",
   "setdefaultaccount", "deriveaccount", "options"]

/-- Words each preceded by a space, with a closing space: the shape of `pmodes`. -/
def spaced : List (List Char) → List Char
  | [] => [' ']
  | w :: ws => ' ' :: w ++ spaced ws

/-! ## `extkeyaltversion` -/

/-- The four version bytes that `CExtKey58::IsValid(type)` compares with: the start of
the active network's prefix of `type`. -/
def versionOf (env : Env) (type : Base58Type) : Bytes :=
  (env.Base58Prefix env.NetworkID type).take 4

/-- The four kinds of extended-key version: Particl and Bitcoin, secret and public. -/
def extTypes : List Base58Type :=
  [.EXT_SECRET_KEY, .EXT_SECRET_KEY_BTC, .EXT_PUBLIC_KEY, .EXT_PUBLIC_KEY_BTC]

/-- `extkeyaltversion` from line 1740 on, for the key text `sKeyIn` read from the first
parameter: the text returned or the text of the exception thrown. `ToStringVersion k
type` stands for `eKey58.ToStringVersion(type)`, declared outside `rpchdwallet.cpp`. -/
def extkeyaltversion (env : Env) (wenv : WalletEnv)
    (ToStringVersion : CExtKey58 → Base58Type → String) (sKeyIn : String) :
    Except String String :=
  match wenv.Set58 sKeyIn with
  | (rv, eKey58) =>
    if rv ≠ 0 then .error "Invalid input key."
    else if eKey58.IsValid env .EXT_SECRET_KEY_BTC then
      .ok (ToStringVersion eKey58 .EXT_SECRET_KEY)
    else if eKey58.IsValid env .EXT_SECRET_KEY then
      .ok (ToStringVersion eKey58 .EXT_SECRET_KEY_BTC)
    else if eKey58.IsValid env .EXT_PUBLIC_KEY_BTC then
      .ok (ToStringVersion eKey58 .EXT_PUBLIC_KEY)
    else if eKey58.IsValid env .EXT_PUBLIC_KEY then
      .ok (ToStringVersion eKey58 .EXT_PUBLIC_KEY_BTC)
    else .error "Unknown input key version."

namespace Sample

/-- The text of a key under the version of `type`, in the hexadecimal text that the
sample `Set58` reads. -/
def ToStringVersion (k : CExtKey58) (type : Base58Type) : String :=
  HexStr (versionOf env type ++ k.vchKey)

/-- A key with the Bitcoin secret version of the main network and three bytes of key
data. -/
def key58Btc : CExtKey58 := { vchVersion := [0x04, 0x88, 0xad, 0xe4], vchKey := [1, 2, 3] }

end Sample

/-! ## SHA-256 (FIPS 180-4), for evaluating the prefix taken from the spend secret -/

/-- Rotation of a 32-bit word to the right. -/
def rotr32 (x n : Nat) : Nat := ((x >>> n) ||| (x <<< (32 - n))) % 2 ^ 32

/-- The round constants of SHA-256: the first 32 bits of the fractional parts of the cube
roots of the first 64 primes, in decimal. -/
def sha256K : List Nat :=
  [1116352408, 1899447441, 3049323471, 3921009573, 961987163, 1508970993,
   2453635748, 2870763221, 3624381080, 310598401, 607225278, 1426881987,
   1925078388, 2162078206, 2614888103, 3248222580, 3835390401, 4022224774,
   264347078, 604807628, 770255983, 1249150122, 1555081692, 1996064986,
   2554220882, 2821834349, 2952996808, 3210313671, 3336571891, 3584528711,
   113926993, 338241895, 666307205, 773529912, 1294757372, 1396182291,
   1695183700, 1986661051, 2177026350, 2456956037, 2730485921, 2820302411,
   3259730800, 3345764771, 3516065817, 3600352804, 4094571909, 275423344,
   430227734, 506948616, 659060556, 883997877, 958139571, 1322822218,
   1537002063, 1747873779, 1955562222, 2024104815, 2227730452, 2361852424,
   2428436474, 2756734187, 3204031479, 3329325298]

/-- The initial hash value of SHA-256: the first 32 bits of the fractional parts of the
square roots of the first 8 primes, in decimal. -/
def sha256H0 : List Nat :=
  [1779033703, 3144134277, 1013904242, 2773480762, 1359893119, 2600822924,
   528734635, 1541459225]

/-- The padded message: a `1` bit, zeros up to 56 modulo 64 bytes, the bit length in 8
bytes. -/
def sha256Pad (msg : Bytes) : Bytes :=
  msg ++ [0x80] ++ List.replicate ((119 - msg.length % 64) % 64) 0 ++
    (List.range 8).map (fun i => (msg.length * 8) >>> (8 * (7 - i)) % 256)

/-- Big-endian 32-bit words of a byte string, `n` of them. -/
def beWords : Nat → Bytes → List Nat
  | 0, _ => []
  | n + 1, v => beValue (v.take 4) :: beWords n (v.drop 4)

/-- The message schedule, latest word first: `n` further words after those in `w`. -/
def sha256Schedule : Nat → List Nat → List Nat
  | 0, w => w
  | n + 1, w =>
    let w2 := w.getD 1 0
    let w7 := w.getD 6 0
    let w15 := w.getD 14 0
    let w16 := w.getD 15 0
    let s0 := rotr32 w15 7 ^^^ rotr32 w15 18 ^^^ (w15 >>> 3)
    let s1 := rotr32 w2 17 ^^^ rotr32 w2 19 ^^^ (w2 >>> 10)
    sha256Schedule n (((s1 + w7 + s0 + w16) % 2 ^ 32) :: w)

/-- One round on the working variables `[a, b, c, d, e, f, g, h]`. -/
def sha256Round (s : List Nat) (kw : Nat × Nat) : List Nat :=
  match s with
  | [a, b, c, d, e, f, g, h] =>
    let S1 := rotr32 e 6 ^^^ rotr32 e 11 ^^^ rotr32 e 25
    let ch := (e &&& f) ^^^ ((e ^^^ (2 ^ 32 - 1)) &&& g)
    let t1 := (h + S1 + ch + kw.1 + kw.2) % 2 ^ 32
    let S0 := rotr32 a 2 ^^^ rotr32 a 13 ^^^ rotr32 a 22
    let maj := (a &&& b) ^^^ (a &&& c) ^^^ (b &&& c)
    let t2 := (S0 + maj) % 2 ^ 32
    [(t1 + t2) % 2 ^ 32, a, b, c, (d + t1) % 2 ^ 32, e, f, g]
  | _ => s

/-- The compression of one 64-byte block into the hash value `hs`. -/
def sha256Block (hs : List Nat) (block : Bytes) : List Nat :=
  let w := (sha256Schedule 48 (beWords 16 block).reverse).reverse
  let s := (sha256K.zip w).foldl sha256Round hs
  List.zipWith (fun x y => (x + y) % 2 ^ 32) hs s

/-- The blocks of a padded message, `n` of them, compressed in turn. -/
def sha256Blocks : Nat → List Nat → Bytes → List Nat
  | 0, hs, _ => hs
  | n + 1, hs, v => sha256Blocks n (sha256Block hs (v.take 64)) (v.drop 64)

/-- `CSHA256().Write(msg).Finalize(out)`: the 32 bytes of the digest. -/
def sha256 (msg : Bytes) : Bytes :=
  ((sha256Blocks ((sha256Pad msg).length / 64) sha256H0 (sha256Pad msg)).map be4).flatten

/-- The prefix of the claim: the leading `n` bits (`n ≤ 32`) of a byte string, the most
significant bit of the first byte first, read as a number. -/
def leadingBits (h : Bytes) (n : Nat) : Nat := beValue (h.take 4) >>> (32 - n)

namespace Sample

/-- The stealth collaborators with the hash of a key being the SHA-256 of its 32
bytes. -/
def senvSha : StealthEnv := { senv with Sha256Key := fun sk => sha256 sk.keydata }

/-- The secret `09 0a .. 28` in hexadecimal text. -/
def spendSecretB : String := HexStr ((List.range 32).map (fun i => i + 9))

end Sample

/-! ## `importstealthaddress`: the existing addresses (lines 1970-2014) -/

/-- Observed calls of `importstealthaddress` that change the wallet. -/
inductive SCall where
  | AddKeyPubKey (sk : CKey)
  | SetAddressBook (sxAddr : CStealthAddress) (sLabel : String)
  | ImportStealthAddress (sxAddr : CStealthAddress) (sk : CKey)
  deriving DecidableEq, Repr

/-- The wallet as `importstealthaddress` meets it: the loose stealth addresses in
iteration order, and the wallet methods defined outside `rpchdwallet.cpp`. -/
structure StealthWallet where
  /-- `pwallet->stealthAddresses`, from `begin()` to `end()`. -/
  stealthAddresses : List CStealthAddress
  /-- `sxAddrIt.GetSpendKeyID()`. -/
  GetSpendKeyID : CStealthAddress → CKeyID
  /-- `pwallet->HaveKey(sid)`. -/
  HaveKey : CKeyID → Bool
  /-- `pwallet->AddKeyPubKey(skSpend, skSpend.GetPubKey())`. -/
  AddKeyPubKey : CKey → Bool
  /-- `pwallet->HaveStealthAddress(sxAddr)`, at line 2000. -/
  HaveStealthAddress : CStealthAddress → Bool
  /-- `pwallet->ImportStealthAddress(sxAddr, skSpend)`. -/
  ImportStealthAddress : CStealthAddress → CKey → Bool
  /-- `sxAddr.Encoded()`. -/
  Encoded : CStealthAddress → String

/-- The loop of lines 1973-1993 over the remaining addresses: the value of `fFound`
when the loop ends, or the text of the exception thrown, and the calls made. -/
def importstealthaddress.find (w : StealthWallet) (sxAddr : CStealthAddress) (skSpend : CKey) :
    List CStealthAddress → Except String Bool × List SCall
  | [] => (.ok false, [])
  | sxAddrIt :: rest =>
    if sxAddrIt.scan_pubkey = sxAddr.scan_pubkey ∧
        sxAddrIt.spend_pubkey = sxAddr.spend_pubkey then
      if ¬ w.HaveKey (w.GetSpendKeyID sxAddrIt) then
        if ¬ w.AddKeyPubKey skSpend then
          (.error "Import failed - AddKeyPubKey failed.", [.AddKeyPubKey skSpend])
        else
          -- fFound = true; break
          (.ok true, [.AddKeyPubKey skSpend])
      else (.error "Import failed - stealth address exists.", [])
    else importstealthaddress.find w sxAddr skSpend rest

/-- Lines 1970-2014: the search for an existing address, the check of line 2000, the
address book entry and the import of a new address. -/
def importstealthaddress.store (w : StealthWallet) (sxAddr : CStealthAddress) (skSpend : CKey)
    (sLabel : String) : Except String UniObj × List SCall :=
  match importstealthaddress.find w sxAddr skSpend w.stealthAddresses with
  | (.error e, calls) => (.error e, calls)
  | (.ok fFound, calls) =>
    if w.HaveStealthAddress sxAddr then
      (.error "Import failed - stealth address exists.", calls)
    else if fFound then
      (.ok (push_back [] "result" (.str ("Success, updated " ++ w.Encoded sxAddr))),
       calls ++ [.SetAddressBook sxAddr sLabel])
    else if ¬ w.ImportStealthAddress sxAddr skSpend then
      (.error "Could not save to wallet.",
       calls ++ [.SetAddressBook sxAddr sLabel, .ImportStealthAddress sxAddr skSpend])
    else
      (.ok (push_back (push_back [] "result" (.str "Success"))
              "stealth_address" (.str (w.Encoded sxAddr))),
       calls ++ [.SetAddressBook sxAddr sLabel, .ImportStealthAddress sxAddr skSpend])

/-- The body of `importstealthaddress` after the help check, on the parameter strings. -/
def importstealthaddress (env : Env) (senv : StealthEnv) (w : StealthWallet)
    (params : List String) : Except String UniObj × List SCall :=
  match importstealthaddress.sxAddr env senv params with
  | .error e => (.error e, [])
  | .ok (sxAddr, skSpend) => importstealthaddress.store w sxAddr skSpend (params.getD 2 "")

namespace Sample

end Sample

/-! ## `deriverangekeys` -/

/-- Observed calls of the derivation loop. -/
inductive RCall where
  | DeriveKey (nChildIn : Nat) (fHardened : Bool)
  | ExtKeySaveKey (idk : CKeyID) (nChildOut : Nat)
  | SetAddressBook (idk : CKeyID) (vPath : List Nat)
  deriving DecidableEq, Repr

/-- The wallet and chain as `deriverangekeys` meets them; all of it is defined outside
`rpchdwallet.cpp`. -/
structure RangeEnv where
  /-- `EnsureWalletIsUnlocked(pwallet)`: the text of the exception, if it throws. -/
  EnsureWalletIsUnlocked : Option String
  /-- The search for the chain `sek`, lines 2278-2316: the text of the exception thrown,
  if any. -/
  findChain : Option String
  /-- `pwallet->ExtKeyGetIndex(sea, idIndex)`: `none` when it does not return 0. -/
  ExtKeyGetIndex : Option Nat
  /-- `sek->DeriveKey(newKey, nChildIn, nChildOut, fHardened)`: the key and `nChildOut`,
  `none` when it does not return 0. -/
  DeriveKey : Nat → Bool → Option (Bytes × Nat)
  /-- `sea->HaveKey(idk, false, ak)` for the key `ak` of child `nChildOut`. -/
  HaveKey : CKeyID → Nat → Int
  /-- `pwallet->ExtKeySaveKey(sea, idk, ak)`. -/
  ExtKeySaveKey : CKeyID → Nat → Int
  /-- `AppendChainPath(sek, vPath)`: the return code and the path as left. -/
  AppendChainPath : List Nat → Int × List Nat

/-- The largest `int`. -/
def INT_MAX : Int := 2147483647

/-- The value of an `int` after an operation whose mathematical result is `x`: two's
complement wrap-around to 32 bits. -/
def wrapInt32 (x : Int) : Int := (x + 2147483648) % 4294967296 - 2147483648

/-- The `if (fSave)` block of the loop body, lines 2344-2366: the calls it makes, or the
exception of a failed `ExtKeySaveKey` with the calls up to it. -/
def deriverangekeys.save (r : RangeEnv) (fAddToAddressBook : Bool) (idIndex : Nat)
    (idk : CKeyID) (nChildOut : Nat) : Except String Unit × List RCall :=
  let saved : Option (List RCall) :=
    if r.HaveKey idk nChildOut ≠ 1 then
      if r.ExtKeySaveKey idk nChildOut ≠ 0 then none
      else some [.ExtKeySaveKey idk nChildOut]
    else some []
  match saved with
  | none => (.error "ExtKeySaveKey failed.", [.ExtKeySaveKey idk nChildOut])
  | some calls =>
    if fAddToAddressBook then
      let vPath :=
        if (r.AppendChainPath [idIndex]).1 = 0 then (r.AppendChainPath [idIndex]).2 ++ [nChildOut]
        else []
      (.ok (), calls ++ [.SetAddressBook idk vPath])
    else (.ok (), calls)

/-- The loop of lines 2326-2367, `for (int i = nStart; i <= nEnd; ++i)`, from the
current `i`, result array and call log, for at most `fuel` evaluations of the loop
condition: `none` when the loop is still running after them. -/
def deriverangekeys.loop (env : Env) (r : RangeEnv) (fHardened fSave fAddToAddressBook : Bool)
    (idIndex : Nat) (nEnd : Int) :
    Nat → Int → List String → List RCall → Option (Except String (List String) × List RCall)
  | 0, _, _, _ => none
  | fuel + 1, i, result, calls =>
    if i ≤ nEnd then
      -- nChildIn = (uint32_t)i
      let nChildIn := (i % 4294967296).toNat
      match r.DeriveKey nChildIn fHardened with
      | none => some (.error "DeriveKey failed.", calls ++ [.DeriveKey nChildIn fHardened])
      | some (newKey, nChildOut) =>
        -- SetHardenedBit(nChildOut)
        let nChildOut := if fHardened then nChildOut ||| 2147483648 else nChildOut
        let idk := env.PubKeyID newKey
        let result := result ++ [env.AddressToString idk .PUBKEY_ADDRESS]
        let calls := calls ++ [.DeriveKey nChildIn fHardened]
        if fSave then
          match deriverangekeys.save r fAddToAddressBook idIndex idk nChildOut with
          | (.error e, cs) => some (.error e, calls ++ cs)
          | (.ok _, cs) =>
            deriverangekeys.loop env r fHardened fSave fAddToAddressBook idIndex nEnd fuel
              (wrapInt32 (i + 1)) result (calls ++ cs)
        else
          deriverangekeys.loop env r fHardened fSave fAddToAddressBook idIndex nEnd fuel
            (wrapInt32 (i + 1)) result calls
    else some (.ok result, calls)

/-- `deriverangekeys` from line 2221 on, for the parsed `start`, the parsed `end` when
it is given and the three flags as read from the parameters; the loop evaluates its
condition at most `fuel` times. -/
def deriverangekeys (env : Env) (r : RangeEnv) (fuel : Nat) (nStart : Int) (nEndParam : Option Int)
    (fHardened fSave fAddToAddressBook : Bool) :
    Option (Except String (List String) × List RCall) :=
  let nEnd := nEndParam.getD nStart
  if nEnd < nStart then some (.error "end can not be before start.", [])
  else if nStart < 0 then some (.error "start can not be negative.", [])
  else if nEnd < 0 then some (.error "end can not be positive.", [])
  else if ¬ fSave ∧ fAddToAddressBook then
    some (.error "add_to_addressbook can't be set without save", [])
  else
    match (if fSave ∨ fHardened then r.EnsureWalletIsUnlocked else none) with
    | some e => some (.error e, [])
    | none =>
      match r.findChain with
      | some e => some (.error e, [])
      | none =>
        match (if fAddToAddressBook then r.ExtKeyGetIndex else some 0) with
        | none => some (.error "ExtKeyGetIndex failed.", [])
        | some idIndex =>
          deriverangekeys.loop env r fHardened fSave fAddToAddressBook idIndex nEnd fuel nStart
            [] []

namespace Sample

/-- A chain on which every `DeriveKey` call succeeds without skipping a child: the key
of child `n` is the byte 2 followed by the four bytes of `n`. -/
def renv : RangeEnv :=
  { EnsureWalletIsUnlocked := none
    findChain := none
    ExtKeyGetIndex := some 0
    DeriveKey := fun n _ => some (2 :: be4 n, n)
    HaveKey := fun _ _ => 0
    ExtKeySaveKey := fun _ _ => 0
    AppendChainPath := fun p => (0, p ++ [0]) }

end Sample

/-! ## `filteraddresses` -/

/-- An element of `mapAddressBook`: the destination and the fields of its
`CAddressBookData` that `filteraddresses` reads. -/
structure BookEntry where
  dest : Bytes
  name : String
  nOwned : Int
  vPath : List Nat
  deriving DecidableEq, Repr

/-- Collaborators of `filteraddresses` defined outside `rpchdwallet.cpp`. -/
structure BookEnv where
  /-- `pwallet->HaveAddress(address)`. -/
  HaveAddress : Bytes → Bool
  /-- `part::stringsMatchI(name, sMatch, mode)`. -/
  stringsMatchI : String → String → Nat → Bool
  /-- `CBitcoinAddress(dest).ToString()`. -/
  DestToString : Bytes → String
  /-- `wdb.ReadExtKeyIndex(index, accId)`: `none` when it returns false. -/
  ReadExtKeyIndex : Nat → Option CKeyID
  /-- `PathToString(vPath, sPath, '\'', 1)`: the text, `none` when it does not return 0. -/
  PathToString : List Nat → Option String
  /-- `std::sort(first, last, comp)`: the elements arranged in the order of `comp`. -/
  stdSort : (BookEntry → BookEntry → Bool) → List BookEntry → List BookEntry

/-- `SRT_LABEL_ASC`. -/
def SRT_LABEL_ASC : Int := 0

/-- `SRT_LABEL_DESC`. -/
def SRT_LABEL_DESC : Int := 1

/-- `AddressComp(nSortCode)(a, b)`, lines 2513-2531; `std::string::compare` orders
strings as `<` does. -/
def AddressComp (nSortCode : Int) (a b : BookEntry) : Bool :=
  if nSortCode = SRT_LABEL_DESC then decide (b.name < a.name) else decide (a.name < b.name)

/-- Lines 2648-2652: the ownership of an entry is looked up once and kept. -/
def filteraddresses.owned (b : BookEnv) (e : BookEntry) : BookEntry :=
  if e.nOwned = 0 then { e with nOwned := if b.HaveAddress e.dest then 1 else 2 } else e

/-- Lines 2654-2661: an entry passes the owned filter and the label filter. -/
def filteraddresses.passes (b : BookEnv) (nMatchOwned : Int) (nMatchMode : Nat)
    (sMatch : String) (e : BookEntry) : Bool :=
  !(decide (nMatchOwned ≠ 0) && decide (e.nOwned ≠ nMatchOwned)) &&
    (decide (nMatchMode = 0) || b.stringsMatchI e.name sMatch (nMatchMode - 1))

/-- The root and path of an entry, lines 2682-2715, with the cache of root texts: the
pairs added to the entry and the cache as left. -/
def filteraddresses.path (env : Env) (b : BookEnv) (item : BookEntry)
    (cache : List (Nat × String)) : UniObj × List (Nat × String) :=
  let (root, cache) : UniObj × List (Nat × String) :=
    match item.vPath with
    | [] => ([], cache)
    | index :: _ =>
      match cache.find? (fun e => e.1 == index) with
      | some e => ([("root", .str e.2)], cache)
      | none =>
        match b.ReadExtKeyIndex index with
        | none => ([("root", .str "error")], cache)
        | some accId =>
          ([("root", .str (env.AddressToString accId .EXT_ACC_HASH))],
           cache ++ [(index, env.AddressToString accId .EXT_ACC_HASH)])
  let path : UniObj :=
    if item.vPath.length > 1 then
      match b.PathToString item.vPath with
      | some sPath => [("path", .str sPath)]
      | none => []
    else []
  (root ++ path, cache)

/-- The body of the loop of lines 2671-2719 over the entries it visits. -/
def filteraddresses.entries (env : Env) (b : BookEnv) (nShowPath : Int) :
    List BookEntry → List (Nat × String) → List UniObj
  | [], _ => []
  | item :: rest, cache =>
    let entry : UniObj :=
      [("address", .str (b.DestToString item.dest)), ("label", .str item.name),
       ("owned", .str (if item.nOwned = 1 then "true" else "false"))]
    if nShowPath > 0 then
      (entry ++ (filteraddresses.path env b item cache).1) ::
        filteraddresses.entries env b nShowPath rest (filteraddresses.path env b item cache).2
    else entry :: filteraddresses.entries env b nShowPath rest cache

/-- Outcome of `filteraddresses`: the address book as left, and the array returned or
the text of the exception; `none` when the loop starts from an iterator beyond the end
of the vector. -/
structure FilterOut where
  book : List BookEntry
  result : Option (Except String (List UniObj))
  deriving DecidableEq, Repr

/-- `filteraddresses` from line 2585 on, outside the counting mode: `nOffset` and
`nCount` as parsed (`nCount` is `0x7FFFFFFF` when absent), the text of the sort code
when given, the match string, and `nMatchOwned` and `nShowPath` as parsed. -/
def filteraddresses (env : Env) (b : BookEnv) (book : List BookEntry) (nOffset nCount : Int)
    (sCode : Option String) (sMatch : String) (nMatchOwned nShowPath : Int) : FilterOut :=
  if nOffset < 0 then
    { book := book, result := some (.error "offset must be 0 or greater.") }
  else if nCount < 1 then
    { book := book, result := some (.error "count must be 1 or greater.") }
  else if sCode ≠ none ∧ sCode ≠ some "0" ∧ sCode ≠ some "1" then
    { book := book, result := some (.error "Unknown sort_code.") }
  else
    let nSortCode := if sCode = some "1" then SRT_LABEL_DESC else SRT_LABEL_ASC
    let nMatchMode : Nat := if sMatch ≠ "" then 1 else 0
    -- nOffset >= (int)pwallet->mapAddressBook.size()
    if nOffset ≥ toInt32 book.length then
      { book := book,
        result := some (.error ("offset is beyond last address (" ++ toString nOffset ++ ").")) }
    else
      let book := book.map (filteraddresses.owned b)
      let vitMapAddressBook :=
        b.stdSort (AddressComp nSortCode)
          (book.filter (filteraddresses.passes b nMatchOwned nMatchMode sMatch))
      -- vit = vitMapAddressBook.begin() + nOffset
      if nOffset.toNat ≤ vitMapAddressBook.length then
        { book := book,
          result := some (.ok (filteraddresses.entries env b nShowPath
            ((vitMapAddressBook.drop nOffset.toNat).take nCount.toNat) [])) }
      else { book := book, result := none }

namespace Sample

/-- Insertion of an entry into a list in the order of `lt`. -/
def insertBy (lt : BookEntry → BookEntry → Bool) (x : BookEntry) : List BookEntry → List BookEntry
  | [] => [x]
  | y :: ys => if lt y x then y :: insertBy lt x ys else x :: y :: ys

/-- Collaborators of `filteraddresses`: an address with an even first byte is owned, a
label matches when it contains the match string, ignoring case, and the sort is an
insertion sort. -/
def benv : BookEnv :=
  { HaveAddress := fun d => d.getD 0 0 % 2 = 0
    stringsMatchI := fun name m _ =>
      strstr (name.toList.map Char.toLower) (m.toList.map Char.toLower)
    DestToString := HexStr
    ReadExtKeyIndex := fun i => if i = 0 then some [0xbb] else none
    PathToString := fun p => some (String.intercalate "/" (p.map toString))
    stdSort := fun lt l => l.foldr (insertBy lt) [] }

/-- An address book of three entries with the labels `alice`, `bob` and `carol`. -/
def book : List BookEntry :=
  [{ dest := [2], name := "bob", nOwned := 0, vPath := [] },
   { dest := [3], name := "alice", nOwned := 0, vPath := [0, 5] },
   { dest := [4], name := "carol", nOwned := 0, vPath := [] }]

end Sample

/-! # Theorems -/

/-! ## Path walking: lemmas -/

theorem hardened_shift (i : Nat) : ((i % 2 ^ 32) >>> 31 = 1) ↔ hardened i = true := by
  unfold hardened
  rw [Nat.shiftRight_eq_div_pow, Nat.testBit_to_div_mod]
  simp only [decide_eq_true_eq]
  omega

theorem hardened_zero_false {i : Nat} (h : i = 0) : hardened i = false := by
  subst h; rfl

theorem walkV_cons (env : Env) (k : CExtKey) (i : Nat) (p : List Nat) :
    walkV env k (i :: p) =
      (if i = 0 then some k else env.DeriveV k i).bind (fun c => walkV env c p) := by
  simp [walkV, List.foldlM_cons]

theorem walkP_cons (env : Env) (k : CExtPubKey) (i : Nat) (p : List Nat) :
    walkP env k (i :: p) =
      (if i = 0 then some k else env.DeriveP k i).bind (fun c => walkP env c p) := by
  simp [walkP, List.foldlM_cons]

theorem walkV_nil (env : Env) (k : CExtKey) : walkV env k [] = some k := rfl

theorem walkP_nil (env : Env) (k : CExtPubKey) : walkP env k [] = some k := rfl

/-- On a path of zeros the secret-key loop makes no call and ends on the working key. -/
theorem loopV_zeros (env : Env) (p : List Nat) (hz : ∀ i ∈ p, i = 0) (w o : CExtKey)
    (calls : List Call) :
    ExtKeyPathV.loop env p w o calls = (some (if p = [] then o else w), calls) := by
  induction p generalizing o with
  | nil => simp [ExtKeyPathV.loop]
  | cons it rest ih =>
    have h0 : it = 0 := hz it (List.mem_cons_self _ _)
    have hr : ∀ i ∈ rest, i = 0 := fun i hi => hz i (List.mem_cons_of_mem _ hi)
    rw [ExtKeyPathV.loop, if_pos h0, ih hr]
    simp

/-- On a path of zeros the public-key loop makes no call and ends on the working key. -/
theorem loopP_zeros (env : Env) (p : List Nat) (hz : ∀ i ∈ p, i = 0) (w o : CExtPubKey)
    (calls : List Call) :
    ExtKeyPathP.loop env p w o calls = (.ok (if p = [] then o else w), calls) := by
  induction p generalizing o with
  | nil => simp [ExtKeyPathP.loop]
  | cons it rest ih =>
    have h0 : it = 0 := hz it (List.mem_cons_self _ _)
    have hr : ∀ i ∈ rest, i = 0 := fun i hi => hz i (List.mem_cons_of_mem _ hi)
    rw [ExtKeyPathP.loop, if_pos h0, ih hr]
    simp

/-- When the walk of the specification succeeds, the secret-key loop ends on its key. -/
theorem loopV_walk (env : Env) (p : List Nat) (w o k : CExtKey) (calls : List Call)
    (hw : walkV env w p = some k) :
    (ExtKeyPathV.loop env p w o calls).1 = some (if p = [] then o else k) := by
  induction p generalizing w o calls with
  | nil => simp [ExtKeyPathV.loop]
  | cons it rest ih =>
    rw [walkV_cons] at hw
    rw [ExtKeyPathV.loop]
    by_cases h0 : it = 0
    · rw [if_pos h0] at hw ⊢
      simp only [Option.some_bind] at hw
      rw [ih w w calls hw]
      by_cases hr : rest = []
      · subst hr; simp [walkV_nil] at hw; simp [hw]
      · simp [hr]
    · rw [if_neg h0] at hw ⊢
      cases hd : env.DeriveV w it with
      | none => rw [hd] at hw; simp at hw
      | some out =>
        rw [hd] at hw
        simp only [Option.some_bind] at hw
        simp only []
        rw [ih out out _ hw]
        by_cases hr : rest = []
        · subst hr; simp [walkV_nil] at hw; simp [hw]
        · simp [hr]

/-- When the walk of the specification succeeds on a path without hardened index, the
public-key loop ends on its key. -/
theorem loopP_walk (env : Env) (p : List Nat) (w o k : CExtPubKey) (calls : List Call)
    (hh : ∀ i ∈ p, hardened i = false) (hw : walkP env w p = some k) :
    (ExtKeyPathP.loop env p w o calls).1 = .ok (if p = [] then o else k) := by
  induction p generalizing w o calls with
  | nil => simp [ExtKeyPathP.loop]
  | cons it rest ih =>
    have hr0 : ∀ i ∈ rest, hardened i = false := fun i hi => hh i (List.mem_cons_of_mem _ hi)
    have hit : ¬ ((it % 2 ^ 32) >>> 31 = 1) := by
      rw [hardened_shift, hh it (List.mem_cons_self _ _)]; simp
    rw [walkP_cons] at hw
    rw [ExtKeyPathP.loop]
    by_cases h0 : it = 0
    · rw [if_pos h0] at hw ⊢
      simp only [Option.some_bind] at hw
      rw [ih w w calls hr0 hw]
      by_cases hr : rest = []
      · subst hr; simp [walkP_nil] at hw; simp [hw]
      · simp [hr]
    · rw [if_neg h0] at hw ⊢
      rw [if_neg hit]
      cases hd : env.DeriveP w it with
      | none => rw [hd] at hw; simp at hw
      | some out =>
        rw [hd] at hw
        simp only [Option.some_bind] at hw
        simp only []
        rw [ih out out _ hr0 hw]
        by_cases hr : rest = []
        · subst hr; simp [walkP_nil] at hw; simp [hw]
        · simp [hr]

/-- The secret-key loop up to the first failing derivation: after one `Derive` call for
each non-zero segment of `pre`, the failing call is the last one made. -/
theorem loopV_fail (env : Env) (pre post : List Nat) (x : Nat) (w o k : CExtKey)
    (calls : List Call) (hw : walkV env w pre = some k) (hx : x ≠ 0)
    (hd : env.DeriveV k x = none) :
    ∃ cs : List Call,
      ExtKeyPathV.loop env (pre ++ x :: post) w o calls
        = (none, calls ++ cs ++ [Call.DeriveV k x]) ∧
      cs.length = (pre.filter (fun i => decide (i ≠ 0))).length ∧
      ∀ c ∈ cs, ∃ k0 i, c = Call.DeriveV k0 i ∧ i ∈ pre ∧ i ≠ 0 := by
  induction pre generalizing w o calls with
  | nil =>
    refine ⟨[], ?_, by simp, by simp⟩
    simp only [walkV_nil, Option.some.injEq] at hw
    subst hw
    simp [ExtKeyPathV.loop, hx, hd]
  | cons it rest ih =>
    rw [walkV_cons] at hw
    by_cases h0 : it = 0
    · rw [if_pos h0] at hw
      simp only [Option.some_bind] at hw
      obtain ⟨cs, h1, h2, h3⟩ := ih w w calls hw
      refine ⟨cs, ?_, ?_, ?_⟩
      · rw [List.cons_append, ExtKeyPathV.loop, if_pos h0, h1]
      · simp [h0, h2]
      · intro c hc
        obtain ⟨k0, i, e1, e2, e3⟩ := h3 c hc
        exact ⟨k0, i, e1, List.mem_cons_of_mem _ e2, e3⟩
    · rw [if_neg h0] at hw
      cases hdv : env.DeriveV w it with
      | none => rw [hdv] at hw; simp at hw
      | some out =>
        rw [hdv] at hw
        simp only [Option.some_bind] at hw
        obtain ⟨cs, h1, h2, h3⟩ := ih out out (calls ++ [Call.DeriveV w it]) hw
        refine ⟨Call.DeriveV w it :: cs, ?_, ?_, ?_⟩
        · rw [List.cons_append, ExtKeyPathV.loop, if_neg h0]
          simp only [hdv]
          rw [h1]
          simp
        · simp [h0, h2]
        · intro c hc
          rcases List.mem_cons.mp hc with rfl | hc
          · exact ⟨w, it, rfl, List.mem_cons_self _ _, h0⟩
          · obtain ⟨k0, i, e1, e2, e3⟩ := h3 c hc
            exact ⟨k0, i, e1, List.mem_cons_of_mem _ e2, e3⟩

/-- The public-key loop on a path with a hardened index: it ends in an error, and every
`Derive` call it makes is for a non-zero, non-hardened segment that precedes the first
hardened one; when the walk over those segments succeeds, the error is the
hardened-from-public one. -/
theorem loopP_hardened (env : Env) (p : List Nat) (w o : CExtPubKey) (calls : List Call)
    (hh : ∃ h ∈ p, hardened h = true) :
    ∃ (e : String) (cs : List Call),
      ExtKeyPathP.loop env p w o calls = (.error e, calls ++ cs) ∧
      (e = "Can't derive hardened keys from public ext key." ∨ e = "CExtKey Derive failed.") ∧
      (∀ c ∈ cs, ∃ k0 i, c = Call.DeriveP k0 i ∧
          i ∈ p.takeWhile (fun j => !hardened j) ∧ i ≠ 0 ∧ hardened i = false) ∧
      (walkP env w (p.takeWhile (fun j => !hardened j)) ≠ none →
          e = "Can't derive hardened keys from public ext key.") := by
  induction p generalizing w o calls with
  | nil => obtain ⟨h, hm, _⟩ := hh; simp at hm
  | cons it rest ih =>
    by_cases h0 : it = 0
    · have hnh : hardened it = false := hardened_zero_false h0
      have hh2 : ∃ h ∈ rest, hardened h = true := by
        obtain ⟨h, hm, hhd⟩ := hh
        rcases List.mem_cons.mp hm with rfl | hm
        · rw [hnh] at hhd; simp at hhd
        · exact ⟨h, hm, hhd⟩
      obtain ⟨e, cs, h1, h2, h3, h4⟩ := ih w w calls hh2
      refine ⟨e, cs, ?_, h2, ?_, ?_⟩
      · rw [ExtKeyPathP.loop, if_pos h0, h1]
      · intro c hc
        obtain ⟨k0, i, e1, e2, e3, e4⟩ := h3 c hc
        refine ⟨k0, i, e1, ?_, e3, e4⟩
        simp [List.takeWhile_cons, hnh, e2]
      · intro hwk
        apply h4
        simpa [List.takeWhile_cons, hnh, walkP_cons, h0] using hwk
    · by_cases hit : hardened it = true
      · refine ⟨_, [], ?_, Or.inl rfl, by simp, fun _ => rfl⟩
        rw [ExtKeyPathP.loop, if_neg h0, if_pos ((hardened_shift it).mpr hit)]
        simp
      · have hnh : hardened it = false := by simpa using hit
        have hsh : ¬ ((it % 2 ^ 32) >>> 31 = 1) := fun h => hit ((hardened_shift it).mp h)
        have hh2 : ∃ h ∈ rest, hardened h = true := by
          obtain ⟨h, hm, hhd⟩ := hh
          rcases List.mem_cons.mp hm with rfl | hm
          · exact absurd hhd hit
          · exact ⟨h, hm, hhd⟩
        cases hdv : env.DeriveP w it with
        | none =>
          refine ⟨_, [Call.DeriveP w it], ?_, Or.inr rfl, ?_, ?_⟩
          · rw [ExtKeyPathP.loop, if_neg h0, if_neg hsh]
            simp only [hdv]
          · intro c hc
            simp only [List.mem_singleton] at hc
            subst hc
            exact ⟨w, it, rfl, by simp [List.takeWhile_cons, hnh], h0, hnh⟩
          · intro hwk
            exfalso
            apply hwk
            simp [List.takeWhile_cons, hnh, walkP_cons, h0, hdv]
        | some out =>
          obtain ⟨e, cs, h1, h2, h3, h4⟩ := ih out out (calls ++ [Call.DeriveP w it]) hh2
          refine ⟨e, Call.DeriveP w it :: cs, ?_, h2, ?_, ?_⟩
          · rw [ExtKeyPathP.loop, if_neg h0, if_neg hsh]
            simp only [hdv]
            rw [h1]
            simp
          · intro c hc
            rcases List.mem_cons.mp hc with rfl | hc
            · exact ⟨w, it, rfl, by simp [List.takeWhile_cons, hnh], h0, hnh⟩
            · obtain ⟨k0, i, e1, e2, e3, e4⟩ := h3 c hc
              refine ⟨k0, i, e1, ?_, e3, e4⟩
              simp [List.takeWhile_cons, hnh, e2]
          · intro hwk
            apply h4
            simpa [List.takeWhile_cons, hnh, walkP_cons, h0, hdv] using hwk

/-! ## `ExtKeyPathV` / `ExtKeyPathP` on a parsed path -/

theorem readBytes_ok (v : Bytes) (off n : Nat) (h : off + n ≤ v.length) :
    readBytes v off n = some ((v.drop off).take n) := by
  simp [readBytes, h]

theorem readBytes_none (v : Bytes) (off n : Nat) (h : v.length < off + n) :
    readBytes v off n = none := by
  simp [readBytes, Nat.not_le.mpr h]

/-- The calls made by the secret-key loop are appended to the log it starts from. -/
theorem loopV_calls (env : Env) (p : List Nat) (w o : CExtKey) (calls : List Call) :
    ∃ cs, (ExtKeyPathV.loop env p w o calls).2 = calls ++ cs := by
  induction p generalizing w o calls with
  | nil => exact ⟨[], by simp [ExtKeyPathV.loop]⟩
  | cons it rest ih =>
    rw [ExtKeyPathV.loop]
    by_cases h0 : it = 0
    · rw [if_pos h0]; exact ih w w calls
    · rw [if_neg h0]
      cases hd : env.DeriveV w it with
      | none => exact ⟨[Call.DeriveV w it], rfl⟩
      | some out =>
        obtain ⟨cs, h⟩ := ih out out (calls ++ [Call.DeriveV w it])
        exact ⟨Call.DeriveV w it :: cs, by simp [h]⟩

/-- The calls made by the public-key loop are appended to the log it starts from. -/
theorem loopP_calls (env : Env) (p : List Nat) (w o : CExtPubKey) (calls : List Call) :
    ∃ cs, (ExtKeyPathP.loop env p w o calls).2 = calls ++ cs := by
  induction p generalizing w o calls with
  | nil => exact ⟨[], by simp [ExtKeyPathP.loop]⟩
  | cons it rest ih =>
    rw [ExtKeyPathP.loop]
    by_cases h0 : it = 0
    · rw [if_pos h0]; exact ih w w calls
    · rw [if_neg h0]
      by_cases hs : (it % 2 ^ 32) >>> 31 = 1
      · rw [if_pos hs]; exact ⟨[], by simp⟩
      · rw [if_neg hs]
        cases hd : env.DeriveP w it with
        | none => exact ⟨[Call.DeriveP w it], rfl⟩
        | some out =>
          obtain ⟨cs, h⟩ := ih out out (calls ++ [Call.DeriveP w it])
          exact ⟨Call.DeriveP w it :: cs, by simp [h]⟩

theorem ExtKeyPathV_parsed (env : Env) (sPath : String) (vchKey : Bytes) (keyInfo : UniObj)
    (sError : String) (p : List Nat) (hlen : vchKey.length = BIP32_KEY_LEN)
    (hs : sPath ≠ "info") (hp : env.ExtractExtKeyPath sPath = (0, p)) :
    ExtKeyPathV env sPath vchKey keyInfo sError =
      some (ExtKeyPathV.finish env keyInfo sError
        (ExtKeyPathV.loop env p (CExtKey.Decode ((vchKey.drop 4).take 74)) env.vkDefault
          [Call.ExtractExtKeyPath sPath])) := by
  have hr : readBytes vchKey 4 74 = some ((vchKey.drop 4).take 74) :=
    readBytes_ok _ _ _ (by rw [hlen]; decide)
  unfold ExtKeyPathV
  rw [if_neg hs, hr]
  simp only [Option.bind_eq_bind, Option.some_bind, hp]
  simp only [ne_eq, not_true_eq_false, if_false]
  generalize ExtKeyPathV.loop env p _ _ _ = r
  rcases r with ⟨_ | _, _⟩ <;> rfl

theorem ExtKeyPathP_parsed (env : Env) (sPath : String) (vchKey : Bytes) (keyInfo : UniObj)
    (sError : String) (p : List Nat) (hlen : vchKey.length = BIP32_KEY_LEN)
    (hs : sPath ≠ "info") (hp : env.ExtractExtKeyPath sPath = (0, p)) :
    ExtKeyPathP env sPath vchKey keyInfo sError =
      some (ExtKeyPathP.finish env keyInfo sError
        (ExtKeyPathP.loop env p (CExtPubKey.Decode ((vchKey.drop 4).take 74)) env.pkDefault
          [Call.ExtractExtKeyPath sPath])) := by
  have hr : readBytes vchKey 4 74 = some ((vchKey.drop 4).take 74) :=
    readBytes_ok _ _ _ (by rw [hlen]; decide)
  unfold ExtKeyPathP
  rw [if_neg hs, hr]
  simp only [Option.bind_eq_bind, Option.some_bind, hp]
  simp only [ne_eq, not_true_eq_false, if_false]
  generalize ExtKeyPathP.loop env p _ _ _ = r
  rcases r with ⟨_ | _, _⟩ <;> rfl

theorem ExtKeyPathV_parse_error (env : Env) (sPath : String) (vchKey : Bytes)
    (keyInfo : UniObj) (sError : String) (rv : Int) (vPath : List Nat)
    (hlen : vchKey.length = BIP32_KEY_LEN) (hs : sPath ≠ "info")
    (hp : env.ExtractExtKeyPath sPath = (rv, vPath)) (h0 : rv ≠ 0) :
    ExtKeyPathV env sPath vchKey keyInfo sError =
      some { rv := 1, keyInfo := keyInfo, sError := env.ExtKeyGetString rv,
             calls := [Call.ExtractExtKeyPath sPath] } := by
  have hr : readBytes vchKey 4 74 = some ((vchKey.drop 4).take 74) :=
    readBytes_ok _ _ _ (by rw [hlen]; decide)
  unfold ExtKeyPathV
  rw [if_neg hs, hr]
  simp only [Option.bind_eq_bind, Option.some_bind, hp]
  simp only [ne_eq, h0, not_false_eq_true, if_true]
  rfl

theorem ExtKeyPathP_parse_error (env : Env) (sPath : String) (vchKey : Bytes)
    (keyInfo : UniObj) (sError : String) (rv : Int) (vPath : List Nat)
    (hlen : vchKey.length = BIP32_KEY_LEN) (hs : sPath ≠ "info")
    (hp : env.ExtractExtKeyPath sPath = (rv, vPath)) (h0 : rv ≠ 0) :
    ExtKeyPathP env sPath vchKey keyInfo sError =
      some { rv := 1, keyInfo := keyInfo, sError := env.ExtKeyGetString rv,
             calls := [Call.ExtractExtKeyPath sPath] } := by
  have hr : readBytes vchKey 4 74 = some ((vchKey.drop 4).take 74) :=
    readBytes_ok _ _ _ (by rw [hlen]; decide)
  unfold ExtKeyPathP
  rw [if_neg hs, hr]
  simp only [Option.bind_eq_bind, Option.some_bind, hp]
  simp only [ne_eq, h0, not_false_eq_true, if_true]
  rfl

/-! ## Claims on the path walk -/

set_option maxRecDepth 100000 in
/-- C1, as stated, fails: on the parsed path `[1, 2^31 + 2]` the public-key walk calls
`Derive` for the segment 1 before it rejects the hardened segment, and on
`[999, 2^31 + 2]`, where that earlier derivation fails, the error is the derive-failed
one and not the hardened-from-public one. -/
theorem c1_hardened_after_derive_counterexample :
    Sample.env.ExtractExtKeyPath "1/2h" = (0, [1, 2 ^ 31 + 2]) ∧
    hardened (2 ^ 31 + 2) = true ∧
    ExtKeyPathP Sample.env "1/2h" Sample.pkBlob [] "" =
      some { rv := 1, keyInfo := [],
             sError := "Can't derive hardened keys from public ext key.",
             calls := [Call.ExtractExtKeyPath "1/2h",
                       Call.DeriveP (CExtPubKey.Decode ((Sample.pkBlob.drop 4).take 74)) 1] } ∧
    Sample.env.ExtractExtKeyPath "999/2h" = (0, [999, 2 ^ 31 + 2]) ∧
    (ExtKeyPathP Sample.env "999/2h" Sample.pkBlob [] "").map (fun o => (o.rv, o.sError)) =
      some (1, "CExtKey Derive failed.") := by
  decide

/-- C1, amended: for every public key blob and every parsed path that contains a
hardened index, `ExtKeyPathP` fails (returns 1 and adds no result entry) with the
hardened-from-public or the derive-failed error; every `Derive` call it makes is for a
non-zero, non-hardened segment that precedes the first hardened one, so no hardened
index reaches the primitive; and when the derivations over those preceding segments
succeed the error is the hardened-from-public one. -/
theorem c1_hardened_from_public_rejected (env : Env) (sPath : String) (vchKey : Bytes)
    (keyInfo : UniObj) (sError : String) (p : List Nat)
    (hlen : vchKey.length = BIP32_KEY_LEN) (hs : sPath ≠ "info")
    (hp : env.ExtractExtKeyPath sPath = (0, p)) (hh : ∃ h ∈ p, hardened h = true) :
    ∃ (e : String) (cs : List Call),
      ExtKeyPathP env sPath vchKey keyInfo sError =
        some { rv := 1, keyInfo := keyInfo, sError := e,
               calls := Call.ExtractExtKeyPath sPath :: cs } ∧
      (e = "Can't derive hardened keys from public ext key." ∨ e = "CExtKey Derive failed.") ∧
      (∀ c ∈ cs, ∃ k0 i, c = Call.DeriveP k0 i ∧
          i ∈ p.takeWhile (fun j => !hardened j) ∧ i ≠ 0 ∧ hardened i = false) ∧
      (walkP env (CExtPubKey.Decode ((vchKey.drop 4).take 74))
          (p.takeWhile (fun j => !hardened j)) ≠ none →
        e = "Can't derive hardened keys from public ext key.") := by
  obtain ⟨e, cs, h1, h2, h3, h4⟩ :=
    loopP_hardened env p (CExtPubKey.Decode ((vchKey.drop 4).take 74)) env.pkDefault
      [Call.ExtractExtKeyPath sPath] hh
  refine ⟨e, cs, ?_, h2, h3, h4⟩
  rw [ExtKeyPathP_parsed env sPath vchKey keyInfo sError p hlen hs hp, h1]
  rfl

set_option maxRecDepth 100000 in
/-- C1, amended, at the path `[1, 2^31 + 2]` of the sample instance. -/
theorem c1_hardened_from_public_rejected_witness :
    ∃ (e : String) (cs : List Call),
      ExtKeyPathP Sample.env "1/2h" Sample.pkBlob [] "" =
        some { rv := 1, keyInfo := [], sError := e,
               calls := Call.ExtractExtKeyPath "1/2h" :: cs } ∧
      (e = "Can't derive hardened keys from public ext key." ∨ e = "CExtKey Derive failed.") ∧
      (∀ c ∈ cs, ∃ k0 i, c = Call.DeriveP k0 i ∧
          i ∈ [1, 2 ^ 31 + 2].takeWhile (fun j => !hardened j) ∧ i ≠ 0 ∧ hardened i = false) ∧
      (walkP Sample.env (CExtPubKey.Decode ((Sample.pkBlob.drop 4).take 74))
          ([1, 2 ^ 31 + 2].takeWhile (fun j => !hardened j)) ≠ none →
        e = "Can't derive hardened keys from public ext key.") :=
  c1_hardened_from_public_rejected Sample.env "1/2h" Sample.pkBlob [] "" [1, 2 ^ 31 + 2]
    (by decide) (by decide) (by decide) ⟨2 ^ 31 + 2, by decide, by decide⟩

/-- C2: for every key blob and every non-empty parsed path of zeros, `ExtKeyPathV` and
`ExtKeyPathP` return 0, call the parser and nothing else (no `Derive`), and add as
result the encoding of the key decoded from the blob. -/
theorem c2_zero_path_keeps_start_key (env : Env) (sPath : String) (vchKey : Bytes)
    (keyInfo : UniObj) (sError : String) (p : List Nat)
    (hlen : vchKey.length = BIP32_KEY_LEN) (hs : sPath ≠ "info")
    (hp : env.ExtractExtKeyPath sPath = (0, p)) (hne : p ≠ []) (hz : ∀ i ∈ p, i = 0) :
    ExtKeyPathV env sPath vchKey keyInfo sError =
      some { rv := 0,
             keyInfo := push_back keyInfo "result"
               (.str (CBitcoinExtKey.ToString env (CExtKey.Decode ((vchKey.drop 4).take 74)))),
             sError := sError, calls := [Call.ExtractExtKeyPath sPath] } ∧
    ExtKeyPathP env sPath vchKey keyInfo sError =
      some { rv := 0,
             keyInfo := push_back keyInfo "result"
               (.str (CBitcoinExtPubKey.ToString env
                 (CExtPubKey.Decode ((vchKey.drop 4).take 74)))),
             sError := sError, calls := [Call.ExtractExtKeyPath sPath] } := by
  constructor
  · rw [ExtKeyPathV_parsed env sPath vchKey keyInfo sError p hlen hs hp, loopV_zeros env p hz]
    simp [ExtKeyPathV.finish, hne]
  · rw [ExtKeyPathP_parsed env sPath vchKey keyInfo sError p hlen hs hp, loopP_zeros env p hz]
    simp [ExtKeyPathP.finish, hne]

set_option maxRecDepth 100000 in
/-- C2 at the path `[0, 0]` of the sample instance. -/
theorem c2_zero_path_keeps_start_key_witness :
    ExtKeyPathV Sample.env "0/0" Sample.vkBlob [] "" =
      some { rv := 0,
             keyInfo := push_back [] "result"
               (.str (CBitcoinExtKey.ToString Sample.env
                 (CExtKey.Decode ((Sample.vkBlob.drop 4).take 74)))),
             sError := "", calls := [Call.ExtractExtKeyPath "0/0"] } ∧
    ExtKeyPathP Sample.env "0/0" Sample.vkBlob [] "" =
      some { rv := 0,
             keyInfo := push_back [] "result"
               (.str (CBitcoinExtPubKey.ToString Sample.env
                 (CExtPubKey.Decode ((Sample.vkBlob.drop 4).take 74)))),
             sError := "", calls := [Call.ExtractExtKeyPath "0/0"] } :=
  c2_zero_path_keeps_start_key Sample.env "0/0" Sample.vkBlob [] "" [0, 0]
    (by decide) (by decide) (by decide) (by decide) (by decide)

/-- C4: for every key blob and every non-empty parsed path on which the walk of the
specification (the left fold of `step(c, 0) = c`, `step(c, i) = Derive(c, i)`) succeeds
with key `k`, `ExtKeyPathV` returns 0 and its result entry is the encoding of `k`; the
same holds for `ExtKeyPathP` on paths without hardened index. -/
theorem c4_result_is_left_fold (env : Env) (sPath : String) (vchKey : Bytes)
    (keyInfo : UniObj) (sError : String) (p : List Nat)
    (hlen : vchKey.length = BIP32_KEY_LEN) (hs : sPath ≠ "info")
    (hp : env.ExtractExtKeyPath sPath = (0, p)) (hne : p ≠ []) :
    (∀ k, walkV env (CExtKey.Decode ((vchKey.drop 4).take 74)) p = some k →
      ∃ calls, ExtKeyPathV env sPath vchKey keyInfo sError =
        some { rv := 0,
               keyInfo := push_back keyInfo "result" (.str (CBitcoinExtKey.ToString env k)),
               sError := sError, calls := calls }) ∧
    (∀ k, (∀ i ∈ p, hardened i = false) →
      walkP env (CExtPubKey.Decode ((vchKey.drop 4).take 74)) p = some k →
      ∃ calls, ExtKeyPathP env sPath vchKey keyInfo sError =
        some { rv := 0,
               keyInfo := push_back keyInfo "result" (.str (CBitcoinExtPubKey.ToString env k)),
               sError := sError, calls := calls }) := by
  constructor
  · intro k hw
    have h := loopV_walk env p (CExtKey.Decode ((vchKey.drop 4).take 74)) env.vkDefault k
      [Call.ExtractExtKeyPath sPath] hw
    rw [if_neg hne] at h
    rw [ExtKeyPathV_parsed env sPath vchKey keyInfo sError p hlen hs hp]
    generalize ExtKeyPathV.loop env p _ _ _ = r at h
    obtain ⟨r1, r2⟩ := r
    simp only at h
    subst h
    exact ⟨r2, rfl⟩
  · intro k hh hw
    have h := loopP_walk env p (CExtPubKey.Decode ((vchKey.drop 4).take 74)) env.pkDefault k
      [Call.ExtractExtKeyPath sPath] hh hw
    rw [if_neg hne] at h
    rw [ExtKeyPathP_parsed env sPath vchKey keyInfo sError p hlen hs hp]
    generalize ExtKeyPathP.loop env p _ _ _ = r at h
    obtain ⟨r1, r2⟩ := r
    simp only at h
    subst h
    exact ⟨r2, rfl⟩

set_option maxRecDepth 100000 in
/-- C4 at the path `[0, 1, 2]` of the sample instance: both walks succeed. -/
theorem c4_result_is_left_fold_witness :
    (∃ k, walkV Sample.env (CExtKey.Decode ((Sample.vkBlob.drop 4).take 74)) [0, 1, 2] = some k ∧
      ∃ calls, ExtKeyPathV Sample.env "0/1/2" Sample.vkBlob [] "" =
        some { rv := 0,
               keyInfo := push_back [] "result" (.str (CBitcoinExtKey.ToString Sample.env k)),
               sError := "", calls := calls }) ∧
    (∃ k, walkP Sample.env (CExtPubKey.Decode ((Sample.pkBlob.drop 4).take 74)) [0, 1, 2] = some k ∧
      ∃ calls, ExtKeyPathP Sample.env "0/1/2" Sample.pkBlob [] "" =
        some { rv := 0,
               keyInfo := push_back [] "result" (.str (CBitcoinExtPubKey.ToString Sample.env k)),
               sError := "", calls := calls }) :=
  ⟨⟨(walkV Sample.env (CExtKey.Decode ((Sample.vkBlob.drop 4).take 74)) [0, 1, 2]).getD
      Sample.env.vkDefault, by decide,
    (c4_result_is_left_fold Sample.env "0/1/2" Sample.vkBlob [] "" [0, 1, 2]
      (by decide) (by decide) (by decide) (by decide)).1 _ (by decide)⟩,
   ⟨(walkP Sample.env (CExtPubKey.Decode ((Sample.pkBlob.drop 4).take 74)) [0, 1, 2]).getD
      Sample.env.pkDefault, by decide,
    (c4_result_is_left_fold Sample.env "0/1/2" Sample.pkBlob [] "" [0, 1, 2]
      (by decide) (by decide) (by decide) (by decide)).2 _ (by decide) (by decide)⟩⟩

set_option maxRecDepth 100000 in
/-- C5, as stated, fails in its last part: the walks of `[999]` and of `[1999]` both stop
on a failed derivation, at different indices, and return the same code, the same object
and the same error text, so the error does not identify the failing index. -/
theorem c5_error_hides_index_counterexample :
    Sample.env.ExtractExtKeyPath "999" = (0, [999]) ∧
    Sample.env.ExtractExtKeyPath "1999" = (0, [1999]) ∧
    Sample.env.DeriveV (CExtKey.Decode ((Sample.vkBlob.drop 4).take 74)) 999 = none ∧
    Sample.env.DeriveV (CExtKey.Decode ((Sample.vkBlob.drop 4).take 74)) 1999 = none ∧
    (ExtKeyPathV Sample.env "999" Sample.vkBlob [] "").map (fun o => (o.rv, o.keyInfo, o.sError)) =
      some (1, [], "CExtKey Derive failed.") ∧
    (ExtKeyPathV Sample.env "1999" Sample.vkBlob [] "").map (fun o => (o.rv, o.keyInfo, o.sError)) =
      some (1, [], "CExtKey Derive failed.") := by
  decide

/-- C5, amended: for every secret key blob and parsed path `pre ++ x :: post` whose
first failing derivation is the one for `x` (the walk over `pre` succeeds with key `k`
and `Derive(k, x)` fails), `ExtKeyPathV` stops there: it returns 1, adds no result
entry, sets the fixed error text `CExtKey Derive failed.`, and its call log is the
parser call, one `Derive` call for each non-zero segment of `pre`, and last the failing
call; no derivation is requested for a segment of `post`. -/
theorem c5_stops_at_first_failure (env : Env) (sPath : String) (vchKey : Bytes)
    (keyInfo : UniObj) (sError : String) (pre post : List Nat) (x : Nat) (k : CExtKey)
    (hlen : vchKey.length = BIP32_KEY_LEN) (hs : sPath ≠ "info")
    (hp : env.ExtractExtKeyPath sPath = (0, pre ++ x :: post))
    (hw : walkV env (CExtKey.Decode ((vchKey.drop 4).take 74)) pre = some k)
    (hx : x ≠ 0) (hd : env.DeriveV k x = none) :
    ∃ cs : List Call,
      ExtKeyPathV env sPath vchKey keyInfo sError =
        some { rv := 1, keyInfo := keyInfo, sError := "CExtKey Derive failed.",
               calls := Call.ExtractExtKeyPath sPath :: (cs ++ [Call.DeriveV k x]) } ∧
      cs.length = (pre.filter (fun i => decide (i ≠ 0))).length ∧
      ∀ c ∈ cs, ∃ k0 i, c = Call.DeriveV k0 i ∧ i ∈ pre ∧ i ≠ 0 := by
  obtain ⟨cs, h1, h2, h3⟩ :=
    loopV_fail env pre post x (CExtKey.Decode ((vchKey.drop 4).take 74)) env.vkDefault k
      [Call.ExtractExtKeyPath sPath] hw hx hd
  refine ⟨cs, ?_, h2, h3⟩
  rw [ExtKeyPathV_parsed env sPath vchKey keyInfo sError _ hlen hs hp, h1]
  simp [ExtKeyPathV.finish]

set_option maxRecDepth 100000 in
/-- C5, amended, at the path `[0, 1, 999, 5]` of the sample instance, which fails at
its third segment. -/
theorem c5_stops_at_first_failure_witness :
    ∃ k, walkV Sample.env (CExtKey.Decode ((Sample.vkBlob.drop 4).take 74)) [0, 1] = some k ∧
    ∃ cs : List Call,
      ExtKeyPathV Sample.env "0/1/999/5" Sample.vkBlob [] "" =
        some { rv := 1, keyInfo := [], sError := "CExtKey Derive failed.",
               calls := Call.ExtractExtKeyPath "0/1/999/5" :: (cs ++ [Call.DeriveV k 999]) } ∧
      cs.length = ([0, 1].filter (fun i => decide (i ≠ 0))).length ∧
      ∀ c ∈ cs, ∃ k0 i, c = Call.DeriveV k0 i ∧ i ∈ [0, 1] ∧ i ≠ 0 :=
  ⟨(walkV Sample.env (CExtKey.Decode ((Sample.vkBlob.drop 4).take 74)) [0, 1]).getD
      Sample.env.vkDefault, by decide,
    c5_stops_at_first_failure Sample.env "0/1/999/5" Sample.vkBlob [] "" [0, 1] [5] 999 _
      (by decide) (by decide) (by decide) (by decide) (by decide) (by decide)⟩

/-! ## Field extraction -/

theorem shl_or_eq_add (a b i : Nat) (h : b < 2 ^ i) : a * 2 ^ i ||| b = a * 2 ^ i + b := by
  rw [Nat.mul_comm, Nat.mul_add_lt_is_or h]

theorem reversePlace_four (a b c d : Nat) (ha : a < 256) (hb : b < 256) (hc : c < 256)
    (hd : d < 256) : reversePlace [a, b, c, d] = beValue [a, b, c, d] := by
  have e : List.range 4 = [0, 1, 2, 3] := by decide
  simp only [reversePlace, beValue, e, List.foldl, List.getD_cons_zero, List.getD_cons_succ]
  have h1 : a % 2 ^ 32 = a := Nat.mod_eq_of_lt (by omega)
  have h2 : b % 2 ^ 32 = b := Nat.mod_eq_of_lt (by omega)
  have h3 : c % 2 ^ 32 = c := Nat.mod_eq_of_lt (by omega)
  have h4 : d % 2 ^ 32 = d := Nat.mod_eq_of_lt (by omega)
  simp only [h1, h2, h3, h4, Nat.shiftLeft_eq]
  have g1 : a * 2 ^ (8 * (3 - 0)) % 2 ^ 32 = a * 2 ^ 24 := Nat.mod_eq_of_lt (by omega)
  have g2 : b * 2 ^ (8 * (3 - 1)) % 2 ^ 32 = b * 2 ^ 16 := Nat.mod_eq_of_lt (by omega)
  have g3 : c * 2 ^ (8 * (3 - 2)) % 2 ^ 32 = c * 2 ^ 8 := Nat.mod_eq_of_lt (by omega)
  have g4 : d * 2 ^ (8 * (3 - 3)) % 2 ^ 32 = d := by
    simp only [Nat.sub_self, Nat.mul_zero, Nat.pow_zero, Nat.mul_one]
    exact Nat.mod_eq_of_lt (by omega)
  rw [g1, g2, g3, g4, Nat.zero_or, Nat.or_assoc, Nat.or_assoc,
    shl_or_eq_add c d 8 (by omega), shl_or_eq_add b _ 16 (by omega),
    shl_or_eq_add a _ 24 (by omega)]
  omega

/-- On four bytes `reversePlace` is the big-endian value. -/
theorem reversePlace_eq_beValue (p : Bytes) (hl : p.length = 4) (hb : IsBytes p) :
    reversePlace p = beValue p := by
  match p, hl with
  | [a, b, c, d], _ =>
    exact reversePlace_four a b c d (hb a (by simp)) (hb b (by simp)) (hb c (by simp))
      (hb d (by simp))

theorem IsBytes_slice (v : Bytes) (h : IsBytes v) (off n : Nat) :
    IsBytes ((v.drop off).take n) :=
  fun x hx => h x (List.mem_of_mem_drop (List.mem_of_mem_take hx))

theorem reversePlace_slice (v : Bytes) (h : IsBytes v) (off : Nat) (hl : off + 4 ≤ v.length) :
    reversePlace ((v.drop off).take 4) = beValue ((v.drop off).take 4) :=
  reversePlace_eq_beValue _ (by simp; omega) (IsBytes_slice v h off 4)

/-- The value of `ExtractBip32InfoV` on a blob of `BIP32_KEY_LEN` bytes: every read is
inside the blob. -/
theorem ExtractBip32InfoV_full (env : Env) (b : Bytes) (keyInfo : UniObj) (sError : String)
    (hlen : b.length = BIP32_KEY_LEN) :
    ∃ (typeName : String) (typePk : Base58Type) (cmps : List Call),
      (∀ c ∈ cmps, ∃ net t, c = Call.Base58Prefix net t) ∧
      ExtractBip32InfoV env b keyInfo sError =
        some { rv := 0,
               keyInfo := keyInfo ++
                 [("type", .str typeName),
                  ("version", .str (fmtX 2 (reversePlace ((b.drop 0).take 4)))),
                  ("depth", .str (fmtU (((b.drop 4).take 1).getD 0 0))),
                  ("parent_fingerprint", .str (fmtX 8 (reversePlace ((b.drop 5).take 4)))),
                  ("child_index", .str (fmtU (reversePlace ((b.drop 9).take 4)))),
                  ("chain_code", .str (HexStr ((b.drop 13).take 32))),
                  ("key", .str (HexStr ((b.drop 46).take 32))),
                  ("privkey", .str (env.SecretToString ((b.drop 46).take 32))),
                  ("id", .str (env.AddressToString (env.SecretKeyID ((b.drop 46).take 32))
                    .EXT_KEY_HASH)),
                  ("address", .str (env.AddressToString (env.SecretKeyID ((b.drop 46).take 32))
                    .PUBKEY_ADDRESS)),
                  ("checksum", .str (fmtX 2 (reversePlace ((b.drop 78).take 4)))),
                  ("ext_public_key", .str (env.ExtKey58ToString ((b.drop 4).take 74) typePk))],
               sError := sError, calls := Call.ExtractBip32InfoV :: cmps } := by
  refine ⟨if memcmp4 ((b.drop 0).take 4) (env.Base58Prefix env.NetworkID .EXT_SECRET_KEY) = true
      then "Particl extended secret key"
      else if memcmp4 ((b.drop 0).take 4) (env.Base58Prefix env.NetworkID .EXT_SECRET_KEY_BTC) = true
      then "Bitcoin extended secret key" else "Unknown extended secret key",
    if memcmp4 ((b.drop 0).take 4) (env.Base58Prefix env.NetworkID .EXT_SECRET_KEY) = true
      then .EXT_PUBLIC_KEY
      else if memcmp4 ((b.drop 0).take 4) (env.Base58Prefix env.NetworkID .EXT_SECRET_KEY_BTC) = true
      then .EXT_PUBLIC_KEY_BTC else .EXT_PUBLIC_KEY,
    if memcmp4 ((b.drop 0).take 4) (env.Base58Prefix env.NetworkID .EXT_SECRET_KEY) = true
      then [.Base58Prefix env.NetworkID .EXT_SECRET_KEY]
      else [.Base58Prefix env.NetworkID .EXT_SECRET_KEY,
            .Base58Prefix env.NetworkID .EXT_SECRET_KEY_BTC], ?_, ?_⟩
  rotate_left
  · unfold ExtractBip32InfoV
    rw [readBytes_ok b 4 74 (by rw [hlen]; decide), readBytes_ok b 0 4 (by rw [hlen]; decide),
      readBytes_ok b 4 1 (by rw [hlen]; decide), readBytes_ok b 5 4 (by rw [hlen]; decide),
      readBytes_ok b 9 4 (by rw [hlen]; decide), readBytes_ok b 13 32 (by rw [hlen]; decide),
      readBytes_ok b 46 32 (by rw [hlen]; decide), readBytes_ok b 78 4 (by rw [hlen]; decide)]
    simp only [Option.bind_eq_bind, Option.some_bind, Option.pure_def, push_back,
      List.append_assoc, List.singleton_append, List.cons_append, List.nil_append]
  · intro c hc
    split at hc
    · simp only [List.mem_singleton] at hc; exact ⟨_, _, hc⟩
    · simp only [List.mem_cons, List.mem_singleton, List.not_mem_nil, or_false] at hc
      rcases hc with hc | hc <;> exact ⟨_, _, hc⟩

/-- The value of `ExtractBip32InfoP` on a blob of `BIP32_KEY_LEN` bytes: every read is
inside the blob. -/
theorem ExtractBip32InfoP_full (env : Env) (b : Bytes) (keyInfo : UniObj) (sError : String)
    (hlen : b.length = BIP32_KEY_LEN) :
    ∃ (typeName : String) (cmps : List Call),
      (∀ c ∈ cmps, ∃ net t, c = Call.Base58Prefix net t) ∧
      ExtractBip32InfoP env b keyInfo sError =
        some { rv := 0,
               keyInfo := keyInfo ++
                 [("type", .str typeName),
                  ("version", .str (fmtX 2 (reversePlace ((b.drop 0).take 4)))),
                  ("depth", .str (fmtU (((b.drop 4).take 1).getD 0 0))),
                  ("parent_fingerprint", .str (fmtX 8 (reversePlace ((b.drop 5).take 4)))),
                  ("child_index", .str (fmtU (reversePlace ((b.drop 9).take 4)))),
                  ("chain_code", .str (HexStr ((b.drop 13).take 32))),
                  ("key", .str (HexStr ((b.drop 45).take 33))),
                  ("id", .str (env.AddressToString (env.PubKeyID ((b.drop 45).take 33))
                    .EXT_KEY_HASH)),
                  ("address", .str (env.AddressToString (env.PubKeyID ((b.drop 45).take 33))
                    .PUBKEY_ADDRESS)),
                  ("checksum", .str (fmtX 2 (reversePlace ((b.drop 78).take 4))))],
               sError := sError, calls := Call.ExtractBip32InfoP :: cmps } := by
  refine ⟨if memcmp4 ((b.drop 0).take 4) (env.Base58Prefix env.NetworkID .EXT_PUBLIC_KEY) = true
      then "Particl extended public key"
      else if memcmp4 ((b.drop 0).take 4) (env.Base58Prefix env.NetworkID .EXT_PUBLIC_KEY_BTC) = true
      then "Bitcoin extended public key" else "Unknown extended public key",
    if memcmp4 ((b.drop 0).take 4) (env.Base58Prefix env.NetworkID .EXT_PUBLIC_KEY) = true
      then [.Base58Prefix env.NetworkID .EXT_PUBLIC_KEY]
      else [.Base58Prefix env.NetworkID .EXT_PUBLIC_KEY,
            .Base58Prefix env.NetworkID .EXT_PUBLIC_KEY_BTC], ?_, ?_⟩
  rotate_left
  · unfold ExtractBip32InfoP
    rw [readBytes_ok b 0 4 (by rw [hlen]; decide),
      readBytes_ok b 4 1 (by rw [hlen]; decide), readBytes_ok b 5 4 (by rw [hlen]; decide),
      readBytes_ok b 9 4 (by rw [hlen]; decide), readBytes_ok b 13 32 (by rw [hlen]; decide),
      readBytes_ok b 45 33 (by rw [hlen]; decide), readBytes_ok b 78 4 (by rw [hlen]; decide)]
    simp only [Option.bind_eq_bind, Option.some_bind, Option.pure_def, push_back,
      List.append_assoc, List.singleton_append, List.cons_append, List.nil_append]
  · intro c hc
    split at hc
    · simp only [List.mem_singleton] at hc; exact ⟨_, _, hc⟩
    · simp only [List.mem_cons, List.mem_singleton, List.not_mem_nil, or_false] at hc
      rcases hc with hc | hc <;> exact ⟨_, _, hc⟩

/-- A blob shorter than `BIP32_KEY_LEN` makes both extraction functions read outside
it: the checksum read reaches byte 81. -/
theorem ExtractBip32Info_short (env : Env) (b : Bytes) (keyInfo : UniObj) (sError : String)
    (hlen : b.length < BIP32_KEY_LEN) :
    ExtractBip32InfoV env b keyInfo sError = none ∧
    ExtractBip32InfoP env b keyInfo sError = none := by
  have h78 : readBytes b 78 4 = none := readBytes_none b 78 4 hlen
  constructor
  · unfold ExtractBip32InfoV
    rw [h78]
    simp only [Option.bind_eq_bind, Option.none_bind, Option.bind_eq_none]
    intros; trivial
  · unfold ExtractBip32InfoP
    rw [h78]
    simp only [Option.bind_eq_bind, Option.none_bind, Option.bind_eq_none]
    intros; trivial

theorem getD_slice_one (b : Bytes) (off : Nat) : ((b.drop off).take 1).getD 0 0 = b.getD off 0 := by
  simp [List.getD_eq_getElem?_getD, List.getElem?_take, List.getElem?_drop]

/-! ## Claims on the `info` path and on field extraction -/

/-- C6: for every key blob, with the path argument `"info"` `ExtKeyPathV` returns what
`ExtractBip32InfoV` returns and `ExtKeyPathP` what `ExtractBip32InfoP` returns, and the
calls made are the extraction and its prefix comparisons, neither the path parser nor
`Derive`; for every other path string the parser is called with that string. -/
theorem c6_info_skips_path_parsing (env : Env) (vchKey : Bytes) (keyInfo : UniObj)
    (sError : String) (hlen : vchKey.length = BIP32_KEY_LEN) :
    (∃ out cmps, ExtractBip32InfoV env vchKey keyInfo sError = some out ∧
      ExtKeyPathV env "info" vchKey keyInfo sError = some out ∧
      out.calls = Call.ExtractBip32InfoV :: cmps ∧
      ∀ c ∈ cmps, ∃ net t, c = Call.Base58Prefix net t) ∧
    (∃ out cmps, ExtractBip32InfoP env vchKey keyInfo sError = some out ∧
      ExtKeyPathP env "info" vchKey keyInfo sError = some out ∧
      out.calls = Call.ExtractBip32InfoP :: cmps ∧
      ∀ c ∈ cmps, ∃ net t, c = Call.Base58Prefix net t) ∧
    (∀ sPath, sPath ≠ "info" →
      (∃ out cs, ExtKeyPathV env sPath vchKey keyInfo sError = some out ∧
        out.calls = Call.ExtractExtKeyPath sPath :: cs) ∧
      (∃ out cs, ExtKeyPathP env sPath vchKey keyInfo sError = some out ∧
        out.calls = Call.ExtractExtKeyPath sPath :: cs)) := by
  refine ⟨?_, ?_, ?_⟩
  · obtain ⟨tn, tp, cmps, hc, he⟩ := ExtractBip32InfoV_full env vchKey keyInfo sError hlen
    exact ⟨_, cmps, he, by rw [ExtKeyPathV, if_pos rfl, he], rfl, hc⟩
  · obtain ⟨tn, cmps, hc, he⟩ := ExtractBip32InfoP_full env vchKey keyInfo sError hlen
    exact ⟨_, cmps, he, by rw [ExtKeyPathP, if_pos rfl, he], rfl, hc⟩
  · intro sPath hs
    rcases hpe : env.ExtractExtKeyPath sPath with ⟨rv, vPath⟩
    by_cases h0 : rv = 0
    · subst h0
      constructor
      · obtain ⟨cs, hcs⟩ := loopV_calls env vPath (CExtKey.Decode ((vchKey.drop 4).take 74))
          env.vkDefault [Call.ExtractExtKeyPath sPath]
        rw [ExtKeyPathV_parsed env sPath vchKey keyInfo sError vPath hlen hs hpe]
        generalize ExtKeyPathV.loop env vPath _ _ _ = r at hcs
        rcases r with ⟨_ | _, r2⟩ <;> exact ⟨_, cs, rfl, by simpa [ExtKeyPathV.finish] using hcs⟩
      · obtain ⟨cs, hcs⟩ := loopP_calls env vPath (CExtPubKey.Decode ((vchKey.drop 4).take 74))
          env.pkDefault [Call.ExtractExtKeyPath sPath]
        rw [ExtKeyPathP_parsed env sPath vchKey keyInfo sError vPath hlen hs hpe]
        generalize ExtKeyPathP.loop env vPath _ _ _ = r at hcs
        rcases r with ⟨_ | _, r2⟩ <;> exact ⟨_, cs, rfl, by simpa [ExtKeyPathP.finish] using hcs⟩
    · constructor
      · rw [ExtKeyPathV_parse_error env sPath vchKey keyInfo sError rv vPath hlen hs hpe h0]
        exact ⟨_, [], rfl, rfl⟩
      · rw [ExtKeyPathP_parse_error env sPath vchKey keyInfo sError rv vPath hlen hs hpe h0]
        exact ⟨_, [], rfl, rfl⟩

set_option maxRecDepth 100000 in
/-- C6 on the secret key blob of the sample instance. -/
theorem c6_info_skips_path_parsing_witness :
    (∃ out cmps, ExtractBip32InfoV Sample.env Sample.vkBlob [] "" = some out ∧
      ExtKeyPathV Sample.env "info" Sample.vkBlob [] "" = some out ∧
      out.calls = Call.ExtractBip32InfoV :: cmps ∧
      ∀ c ∈ cmps, ∃ net t, c = Call.Base58Prefix net t) ∧
    (∃ out cmps, ExtractBip32InfoP Sample.env Sample.vkBlob [] "" = some out ∧
      ExtKeyPathP Sample.env "info" Sample.vkBlob [] "" = some out ∧
      out.calls = Call.ExtractBip32InfoP :: cmps ∧
      ∀ c ∈ cmps, ∃ net t, c = Call.Base58Prefix net t) ∧
    (∀ sPath, sPath ≠ "info" →
      (∃ out cs, ExtKeyPathV Sample.env sPath Sample.vkBlob [] "" = some out ∧
        out.calls = Call.ExtractExtKeyPath sPath :: cs) ∧
      (∃ out cs, ExtKeyPathP Sample.env sPath Sample.vkBlob [] "" = some out ∧
        out.calls = Call.ExtractExtKeyPath sPath :: cs)) :=
  c6_info_skips_path_parsing Sample.env Sample.vkBlob [] "" (by decide)

/-- C9: for every 82-byte blob `b` of bytes, both extraction functions read only inside
the blob and report the fields at the layout of the specification: depth `b[4]`,
parent fingerprint `b[5..8]` and child index `b[9..12]` as big-endian numbers, chain
code `b[13..44]`, and as key `b[46..77]` (`ExtractBip32InfoV`) or `b[45..77]`
(`ExtractBip32InfoP`). -/
theorem c9_fields_at_spec_layout (env : Env) (b : Bytes) (keyInfo : UniObj) (sError : String)
    (hlen : b.length = BIP32_KEY_LEN) (hb : IsBytes b) :
    (∃ (typeName : String) (typePk : Base58Type) (calls : List Call),
      ExtractBip32InfoV env b keyInfo sError =
        some { rv := 0,
               keyInfo := keyInfo ++
                 [("type", .str typeName),
                  ("version", .str (fmtX 2 (beValue (b.take 4)))),
                  ("depth", .str (fmtU (b.getD 4 0))),
                  ("parent_fingerprint", .str (fmtX 8 (beValue ((b.drop 5).take 4)))),
                  ("child_index", .str (fmtU (beValue ((b.drop 9).take 4)))),
                  ("chain_code", .str (HexStr ((b.drop 13).take 32))),
                  ("key", .str (HexStr ((b.drop 46).take 32))),
                  ("privkey", .str (env.SecretToString ((b.drop 46).take 32))),
                  ("id", .str (env.AddressToString (env.SecretKeyID ((b.drop 46).take 32))
                    .EXT_KEY_HASH)),
                  ("address", .str (env.AddressToString (env.SecretKeyID ((b.drop 46).take 32))
                    .PUBKEY_ADDRESS)),
                  ("checksum", .str (fmtX 2 (beValue ((b.drop 78).take 4)))),
                  ("ext_public_key", .str (env.ExtKey58ToString ((b.drop 4).take 74) typePk))],
               sError := sError, calls := calls }) ∧
    (∃ (typeName : String) (calls : List Call),
      ExtractBip32InfoP env b keyInfo sError =
        some { rv := 0,
               keyInfo := keyInfo ++
                 [("type", .str typeName),
                  ("version", .str (fmtX 2 (beValue (b.take 4)))),
                  ("depth", .str (fmtU (b.getD 4 0))),
                  ("parent_fingerprint", .str (fmtX 8 (beValue ((b.drop 5).take 4)))),
                  ("child_index", .str (fmtU (beValue ((b.drop 9).take 4)))),
                  ("chain_code", .str (HexStr ((b.drop 13).take 32))),
                  ("key", .str (HexStr ((b.drop 45).take 33))),
                  ("id", .str (env.AddressToString (env.PubKeyID ((b.drop 45).take 33))
                    .EXT_KEY_HASH)),
                  ("address", .str (env.AddressToString (env.PubKeyID ((b.drop 45).take 33))
                    .PUBKEY_ADDRESS)),
                  ("checksum", .str (fmtX 2 (beValue ((b.drop 78).take 4))))],
               sError := sError, calls := calls }) := by
  have r0 := reversePlace_slice b hb 0 (by rw [hlen]; decide)
  have r5 := reversePlace_slice b hb 5 (by rw [hlen]; decide)
  have r9 := reversePlace_slice b hb 9 (by rw [hlen]; decide)
  have r78 := reversePlace_slice b hb 78 (by rw [hlen]; decide)
  have d4 := getD_slice_one b 4
  rw [List.drop_zero] at r0
  constructor
  · obtain ⟨tn, tp, cmps, _, he⟩ := ExtractBip32InfoV_full env b keyInfo sError hlen
    rw [List.drop_zero, r0, r5, r9, r78, d4] at he
    exact ⟨tn, tp, _, he⟩
  · obtain ⟨tn, cmps, _, he⟩ := ExtractBip32InfoP_full env b keyInfo sError hlen
    rw [List.drop_zero, r0, r5, r9, r78, d4] at he
    exact ⟨tn, _, he⟩

set_option maxRecDepth 100000 in
/-- C9 on the secret key blob of the sample instance. -/
theorem c9_fields_at_spec_layout_witness :
    (∃ (typeName : String) (typePk : Base58Type) (calls : List Call),
      ExtractBip32InfoV Sample.env Sample.vkBlob [] "" =
        some { rv := 0,
               keyInfo := [] ++
                 [("type", .str typeName),
                  ("version", .str (fmtX 2 (beValue (Sample.vkBlob.take 4)))),
                  ("depth", .str (fmtU (Sample.vkBlob.getD 4 0))),
                  ("parent_fingerprint", .str (fmtX 8 (beValue ((Sample.vkBlob.drop 5).take 4)))),
                  ("child_index", .str (fmtU (beValue ((Sample.vkBlob.drop 9).take 4)))),
                  ("chain_code", .str (HexStr ((Sample.vkBlob.drop 13).take 32))),
                  ("key", .str (HexStr ((Sample.vkBlob.drop 46).take 32))),
                  ("privkey", .str (Sample.env.SecretToString ((Sample.vkBlob.drop 46).take 32))),
                  ("id", .str (Sample.env.AddressToString
                    (Sample.env.SecretKeyID ((Sample.vkBlob.drop 46).take 32)) .EXT_KEY_HASH)),
                  ("address", .str (Sample.env.AddressToString
                    (Sample.env.SecretKeyID ((Sample.vkBlob.drop 46).take 32)) .PUBKEY_ADDRESS)),
                  ("checksum", .str (fmtX 2 (beValue ((Sample.vkBlob.drop 78).take 4)))),
                  ("ext_public_key",
                    .str (Sample.env.ExtKey58ToString ((Sample.vkBlob.drop 4).take 74) typePk))],
               sError := "", calls := calls }) ∧
    (∃ (typeName : String) (calls : List Call),
      ExtractBip32InfoP Sample.env Sample.vkBlob [] "" =
        some { rv := 0,
               keyInfo := [] ++
                 [("type", .str typeName),
                  ("version", .str (fmtX 2 (beValue (Sample.vkBlob.take 4)))),
                  ("depth", .str (fmtU (Sample.vkBlob.getD 4 0))),
                  ("parent_fingerprint", .str (fmtX 8 (beValue ((Sample.vkBlob.drop 5).take 4)))),
                  ("child_index", .str (fmtU (beValue ((Sample.vkBlob.drop 9).take 4)))),
                  ("chain_code", .str (HexStr ((Sample.vkBlob.drop 13).take 32))),
                  ("key", .str (HexStr ((Sample.vkBlob.drop 45).take 33))),
                  ("id", .str (Sample.env.AddressToString
                    (Sample.env.PubKeyID ((Sample.vkBlob.drop 45).take 33)) .EXT_KEY_HASH)),
                  ("address", .str (Sample.env.AddressToString
                    (Sample.env.PubKeyID ((Sample.vkBlob.drop 45).take 33)) .PUBKEY_ADDRESS)),
                  ("checksum", .str (fmtX 2 (beValue ((Sample.vkBlob.drop 78).take 4))))],
               sError := "", calls := calls }) :=
  c9_fields_at_spec_layout Sample.env Sample.vkBlob [] "" (by decide) (by decide)

/-! ## Claims on the `info` mode of `extkey` -/

theorem wrongNet_ne_unknown (x y : String) :
    "Prefix is for " ++ x ++ "-net bip32 key." ≠ "Unknown prefix '" ++ y ++ "'" := by
  intro h
  have h2 := congrArg (fun s => s.data.head?) h
  simp [String.data_append] at h2

theorem prefixAny_iff (env : Env) (ver : Bytes) (l : List (Network × Base58Type)) :
    (prefixAny env ver l).1 = true ↔
      ∃ e ∈ l, ver = (env.Base58Prefix e.1 e.2).take 4 := by
  induction l with
  | nil => simp [prefixAny]
  | cons e rest ih =>
    obtain ⟨net, type⟩ := e
    rw [prefixAny]
    by_cases h : memcmp4 ver (env.Base58Prefix net type) = true
    · rw [if_pos h]
      have h2 : ver = (env.Base58Prefix net type).take 4 := by simpa [memcmp4] using h
      exact ⟨fun _ => ⟨(net, type), List.mem_cons_self _ _, h2⟩, fun _ => rfl⟩
    · rw [if_neg h]
      have h2 : ¬ ver = (env.Base58Prefix net type).take 4 := by simpa [memcmp4] using h
      simp only [ih, List.mem_cons, exists_eq_or_imp, h2, false_or]

theorem prefixAny_two (env : Env) (ver : Bytes) (n1 n2 : Network) (t1 t2 : Base58Type) :
    (prefixAny env ver [(n1, t1), (n2, t2)]).1 = true ↔
      (ver = (env.Base58Prefix n1 t1).take 4 ∨ ver = (env.Base58Prefix n2 t2).take 4) := by
  rw [prefixAny_iff]
  simp

theorem prefixAny_four (env : Env) (ver : Bytes) (net : Network) :
    (prefixAny env ver [(net, .EXT_SECRET_KEY), (net, .EXT_SECRET_KEY_BTC),
        (net, .EXT_PUBLIC_KEY), (net, .EXT_PUBLIC_KEY_BTC)]).1 = true ↔
      isExtPrefixOf env net ver := by
  rw [prefixAny_iff]
  simp [isExtPrefixOf]

/-- C7: in the `info` mode, for every input text that Base58-decodes: when the checksum
does not verify the call throws the checksum error; otherwise, when the decoded length
is not `BIP32_KEY_LEN`, it throws the unknown-length error; in both cases the call log
is empty: no prefix comparison, no field extraction, no parsing, no derivation. -/
theorem c7_checksum_then_length (env : Env) (sInKey sMode : String) (vchOut : Bytes)
    (hd : env.DecodeBase58 sInKey = some vchOut) :
    (VerifyChecksum env vchOut = false →
      extkey_info env sInKey sMode =
        some { result := .error "VerifyChecksum failed.", calls := [] }) ∧
    (VerifyChecksum env vchOut = true → vchOut.length ≠ BIP32_KEY_LEN →
      extkey_info env sInKey sMode =
        some { result := .error ("Unknown ext key length '" ++ toString vchOut.length ++ "'"),
               calls := [] }) := by
  constructor
  · intro hv
    simp [extkey_info, hd, hv]
  · intro hv hl
    simp [extkey_info, hd, hv, hl]

set_option maxRecDepth 100000 in
/-- C7 on a blob with a wrong checksum byte and on a checksummed blob of 81 bytes. -/
theorem c7_checksum_then_length_witness :
    extkey_info Sample.env (HexStr Sample.badBlob) "info" =
      some { result := .error "VerifyChecksum failed.", calls := [] } ∧
    extkey_info Sample.env (HexStr Sample.shortBlob) "info" =
      some { result := .error ("Unknown ext key length '" ++
               toString Sample.shortBlob.length ++ "'"),
             calls := [] } :=
  ⟨(c7_checksum_then_length Sample.env (HexStr Sample.badBlob) "info" Sample.badBlob
      (by decide)).1 (by decide),
   (c7_checksum_then_length Sample.env (HexStr Sample.shortBlob) "info" Sample.shortBlob
      (by decide)).2 (by decide) (by decide)⟩

/-- C8: in the `info` mode, for every decoded blob of `BIP32_KEY_LEN` bytes with a valid
checksum whose version bytes equal none of the active network's four extended-key
prefixes: the call throws the wrong-network error naming the other network exactly when
the version bytes equal one of the other network's four prefixes, and the
unknown-prefix error exactly when they do not; the other network is main for testnet
and regtest, and testnet for main. -/
theorem c8_wrong_network_or_unknown (env : Env) (sInKey sMode : String) (vchOut : Bytes)
    (hd : env.DecodeBase58 sInKey = some vchOut) (hv : VerifyChecksum env vchOut = true)
    (hlen : vchOut.length = BIP32_KEY_LEN)
    (hn : ¬ isExtPrefixOf env env.NetworkID (vchOut.take 4)) :
    ∃ r, extkey_info env sInKey sMode = some r ∧
      (r.result = .error ("Prefix is for " ++ env.NetworkIDString (otherNet env) ++
          "-net bip32 key.") ↔ isExtPrefixOf env (otherNet env) (vchOut.take 4)) ∧
      (r.result = .error ("Unknown prefix '" ++ substr04 sInKey ++ "'") ↔
        ¬ isExtPrefixOf env (otherNet env) (vchOut.take 4)) ∧
      ((env.NetworkID = .TESTNET ∨ env.NetworkID = .REGTEST) → otherNet env = .MAIN) ∧
      (env.NetworkID = .MAIN → otherNet env = .TESTNET) := by
  have hr : readBytes vchOut 0 4 = some (vchOut.take 4) := by
    rw [readBytes_ok vchOut 0 4 (by rw [hlen]; decide), List.drop_zero]
  have hV : (prefixAny env (vchOut.take 4)
      [(env.NetworkID, .EXT_SECRET_KEY), (env.NetworkID, .EXT_SECRET_KEY_BTC)]).1 = false := by
    rw [Bool.eq_false_iff]
    intro h
    rw [prefixAny_two] at h
    exact hn (by unfold isExtPrefixOf; tauto)
  have hP : (prefixAny env (vchOut.take 4)
      [(env.NetworkID, .EXT_PUBLIC_KEY), (env.NetworkID, .EXT_PUBLIC_KEY_BTC)]).1 = false := by
    rw [Bool.eq_false_iff]
    intro h
    rw [prefixAny_two] at h
    exact hn (by unfold isExtPrefixOf; tauto)
  have hO := prefixAny_four env (vchOut.take 4) (otherNet env)
  rcases hpv : prefixAny env (vchOut.take 4)
      [(env.NetworkID, .EXT_SECRET_KEY), (env.NetworkID, .EXT_SECRET_KEY_BTC)] with ⟨isV, c1⟩
  rcases hpp : prefixAny env (vchOut.take 4)
      [(env.NetworkID, .EXT_PUBLIC_KEY), (env.NetworkID, .EXT_PUBLIC_KEY_BTC)] with ⟨isP, c2⟩
  rcases hpo : prefixAny env (vchOut.take 4)
      [(otherNet env, .EXT_SECRET_KEY), (otherNet env, .EXT_SECRET_KEY_BTC),
       (otherNet env, .EXT_PUBLIC_KEY), (otherNet env, .EXT_PUBLIC_KEY_BTC)] with ⟨isO, c3⟩
  rw [hpv] at hV
  rw [hpp] at hP
  rw [hpo] at hO
  simp only at hV hP hO
  subst hV hP
  have hnet : ((env.NetworkID = .TESTNET ∨ env.NetworkID = .REGTEST) → otherNet env = .MAIN) ∧
      (env.NetworkID = .MAIN → otherNet env = .TESTNET) := by
    unfold otherNet
    constructor
    · intro h; rw [if_pos h]
    · intro h; rw [h]; decide
  unfold extkey_info
  simp only [hd, hv, hlen, hr, hpv, hpp, hpo, not_true_eq_false, if_false, ne_eq,
    Option.bind_eq_bind, Option.some_bind, Bool.false_eq_true]
  cases isO with
  | true =>
    have ho : isExtPrefixOf env (otherNet env) (vchOut.take 4) := hO.mp rfl
    refine ⟨_, rfl, ?_, ?_, hnet⟩
    · simp [ho]
    · simp only [ho, not_true_eq_false, iff_false]
      intro h
      injection h with h
      exact wrongNet_ne_unknown _ _ h
  | false =>
    have ho : ¬ isExtPrefixOf env (otherNet env) (vchOut.take 4) := fun h => by
      have := hO.mpr h; simp at this
    refine ⟨_, rfl, ?_, ?_, hnet⟩
    · simp only [ho, iff_false]
      intro h
      injection h with h
      exact wrongNet_ne_unknown _ _ h.symm
    · simp [ho]

set_option maxRecDepth 100000 in
/-- C8 on a blob with the test network's public prefix (wrong network) and on a blob
with the version bytes `01 02 03 04` (unknown prefix), the main network being active. -/
theorem c8_wrong_network_or_unknown_witness :
    (∃ r, extkey_info Sample.env (HexStr Sample.pkBlobTest) "info" = some r ∧
      (r.result = .error ("Prefix is for " ++ Sample.env.NetworkIDString (otherNet Sample.env) ++
          "-net bip32 key.") ↔
        isExtPrefixOf Sample.env (otherNet Sample.env) (Sample.pkBlobTest.take 4)) ∧
      (r.result = .error ("Unknown prefix '" ++ substr04 (HexStr Sample.pkBlobTest) ++ "'") ↔
        ¬ isExtPrefixOf Sample.env (otherNet Sample.env) (Sample.pkBlobTest.take 4)) ∧
      ((Sample.env.NetworkID = .TESTNET ∨ Sample.env.NetworkID = .REGTEST) →
        otherNet Sample.env = .MAIN) ∧
      (Sample.env.NetworkID = .MAIN → otherNet Sample.env = .TESTNET)) ∧
    (∃ r, extkey_info Sample.env (HexStr Sample.unknownBlob) "info" = some r ∧
      (r.result = .error ("Prefix is for " ++ Sample.env.NetworkIDString (otherNet Sample.env) ++
          "-net bip32 key.") ↔
        isExtPrefixOf Sample.env (otherNet Sample.env) (Sample.unknownBlob.take 4)) ∧
      (r.result = .error ("Unknown prefix '" ++ substr04 (HexStr Sample.unknownBlob) ++ "'") ↔
        ¬ isExtPrefixOf Sample.env (otherNet Sample.env) (Sample.unknownBlob.take 4)) ∧
      ((Sample.env.NetworkID = .TESTNET ∨ Sample.env.NetworkID = .REGTEST) →
        otherNet Sample.env = .MAIN) ∧
      (Sample.env.NetworkID = .MAIN → otherNet Sample.env = .TESTNET)) :=
  ⟨c8_wrong_network_or_unknown Sample.env (HexStr Sample.pkBlobTest) "info" Sample.pkBlobTest
      (by decide) (by decide) (by decide) (by unfold isExtPrefixOf; decide),
   c8_wrong_network_or_unknown Sample.env (HexStr Sample.unknownBlob) "info" Sample.unknownBlob
      (by decide) (by decide) (by decide) (by unfold isExtPrefixOf; decide)⟩

/-! ## `ManageExtKey`, option `look_ahead` -/

theorem decFold_ge (ds : List Char) (acc : Nat) :
    acc ≤ ds.foldl (fun a c => a * 10 + (c.toNat - 48)) acc := by
  induction ds generalizing acc with
  | nil => exact Nat.le_refl _
  | cons c cs ih =>
    simp only [List.foldl_cons]
    exact Nat.le_trans (by omega) (ih _)

/-- On decimal digits whose value fits, `strtoul` consumes everything and returns the
value. -/
theorem strtoulDigits_digits (ds : List Char) (acc : Nat)
    (hdig : ∀ c ∈ ds, c.isDigit = true)
    (hfit : ds.foldl (fun a c => a * 10 + (c.toNat - 48)) acc ≤ ULONG_MAX) :
    strtoulDigits ds acc = (ds.foldl (fun a c => a * 10 + (c.toNat - 48)) acc, []) := by
  induction ds generalizing acc with
  | nil => rfl
  | cons c cs ih =>
    have hc : c.isDigit = true := hdig c (List.mem_cons_self _ _)
    have hcs : ∀ d ∈ cs, d.isDigit = true := fun d hd => hdig d (List.mem_cons_of_mem _ hd)
    simp only [List.foldl_cons] at hfit ⊢
    have hstep : ¬ ULONG_MAX < acc * 10 + (c.toNat - 48) :=
      Nat.not_lt.mpr (Nat.le_trans (decFold_ge cs _) hfit)
    rw [strtoulDigits, if_pos hc, if_neg hstep]
    exact ih _ hcs hfit

theorem isDigit_not_space (c : Char) (h : c.isDigit = true) : isspace c = false := by
  cases hs : isspace c with
  | false => rfl
  | true =>
    exfalso
    simp only [isspace, Bool.or_eq_true, decide_eq_true_eq] at hs
    rcases hs with ((((hs | hs) | hs) | hs) | hs) | hs <;> subst hs <;> revert h <;> decide

theorem strtoulSign_digit (c : Char) (cs : List Char) (hc : c.isDigit = true) :
    strtoulSign (c :: cs) = (false, c :: cs) := by
  have hm : c ≠ '-' := by intro h; subst h; revert hc; decide
  have hp : c ≠ '+' := by intro h; subst h; revert hc; decide
  unfold strtoulSign
  split
  · rename_i heq; simp only [List.cons.injEq] at heq; exact absurd heq.1 hm
  · rename_i heq; simp only [List.cons.injEq] at heq; exact absurd heq.1 hp
  · rfl

theorem strtoul10_digits (ds : List Char) (hne : ds ≠ [])
    (hdig : ∀ c ∈ ds, c.isDigit = true) (hfit : decValue ds ≤ ULONG_MAX) :
    strtoul10 ds = { value := decValue ds, pend := [], errnoSet := false } := by
  match ds, hne with
  | c :: cs, _ =>
    have hc : c.isDigit = true := hdig c (List.mem_cons_self _ _)
    have hsp : isspace c = false := isDigit_not_space c hc
    have hd : (c :: cs).dropWhile isspace = c :: cs := by
      simp [List.dropWhile_cons, hsp]
    have hdg := strtoulDigits_digits (c :: cs) 0 hdig hfit
    have hnov : ¬ ULONG_MAX < decValue (c :: cs) := Nat.not_lt.mpr hfit
    unfold strtoul10
    rw [hd, strtoulSign_digit c cs hc]
    simp only [hc, not_true_eq_false, if_false, hdg]
    simp only [decValue] at hnov ⊢
    simp at hnov ⊢
    exact hnov

theorem c_str_digits (ds : List Char) (hdig : ∀ c ∈ ds, c.isDigit = true) :
    c_str (String.mk ds) = ds := by
  unfold c_str
  show ds.takeWhile (fun c => decide (c ≠ '\x00')) = ds
  rw [List.takeWhile_eq_self_iff]
  intro c hc
  have h := hdig c hc
  simp only [ne_eq, decide_not, Bool.not_eq_true', decide_eq_false_iff_not]
  intro h0
  subst h0
  revert h
  decide

theorem mapFind_mapSet (m : List (Nat × Bytes)) (k : Nat) (v : Bytes) :
    mapFind (mapSet m k v) k = some v := by
  induction m with
  | nil => simp [mapSet, mapFind]
  | cons e rest ih =>
    rw [mapSet]
    by_cases h : e.1 = k
    · rw [if_pos h]; simp [mapFind]
    · rw [if_neg h]
      simp only [mapFind, List.find?_cons] at ih ⊢
      have : (e.1 == k) = false := by simpa using h
      rw [this]
      exact ih

theorem toInt32_small (n : Nat) (h : n ≤ 1000) : toInt32 n = (n : Int) := by
  unfold toInt32
  have h1 : n % 2 ^ 32 = n := Nat.mod_eq_of_lt (by omega)
  rw [h1, if_pos (by omega)]

/-- The `look_ahead` branch of `ManageExtKey` on a string of decimal digits whose value
fits an `unsigned long`. -/
theorem ManageExtKey_look_ahead_digits (env : Env) (sek : CStoredExtKey) (result : UniObj)
    (ds : List Char) (hne : ds ≠ []) (hdig : ∀ c ∈ ds, c.isDigit = true)
    (hfit : decValue ds ≤ ULONG_MAX) :
    ManageExtKey env sek "look_ahead" (String.mk ds) result =
      if decValue ds < 1 ∨ decValue ds > 1000 then
        { sek := sek, result := result,
          thrown := some "Failed: look_ahead number out of range." }
      else
        { sek := { sek with mapValue := (mapSet sek.mapValue env.EKVT_N_LOOKAHEAD
                              (env.SetCompressedInt64 (decValue ds))) },
          result := push_back
            (push_back result "note" (.str "Wallet must be restarted to reload lookahead pool."))
            "look_ahead"
            (.num (toInt32 (env.GetCompressedInt64 (env.SetCompressedInt64 (decValue ds))))),
          thrown := none } := by
  have hlen : (String.mk ds).length > 0 := by
    show ds.length > 0
    exact List.length_pos.mpr hne
  have h1 : ¬ ("look_ahead" = "label") := by decide
  have h2 : ¬ ("look_ahead" = "active") := by decide
  have h3 : ¬ ("look_ahead" = "receive_on") := by decide
  unfold ManageExtKey
  rw [if_neg h1, if_neg h2, if_neg h3, if_pos rfl, if_pos hlen, c_str_digits ds hdig,
    strtoul10_digits ds hne hdig hfit]
  simp only [Bool.false_eq_true, ne_eq, not_true_eq_false, or_self, if_false]
  by_cases hr : decValue ds < 1 ∨ decValue ds > 1000
  · rw [if_pos hr, if_pos hr]
  · rw [if_neg hr, if_neg hr]
    simp only [reportLookAhead, mapFind_mapSet]

/-- C10: for every chain and every non-empty string of decimal digits denoting a number
`n` below `2^64`, `ManageExtKey` with option `look_ahead` throws the out-of-range error
exactly when `n < 1` or `n > 1000`; for `n` in `[1, 1000]` it throws nothing, stores the
compressed `n` under `EKVT_N_LOOKAHEAD` and, the stored bytes reading back as `n`,
reports `look_ahead` as `n`. -/
theorem c10_look_ahead_bounds (env : Env) (sek : CStoredExtKey) (result : UniObj)
    (ds : List Char) (hne : ds ≠ []) (hdig : ∀ c ∈ ds, c.isDigit = true)
    (hlt : decValue ds < 2 ^ 64) :
    ((ManageExtKey env sek "look_ahead" (String.mk ds) result).thrown =
        some "Failed: look_ahead number out of range." ↔
      (decValue ds < 1 ∨ decValue ds > 1000)) ∧
    (1 ≤ decValue ds → decValue ds ≤ 1000 →
      env.GetCompressedInt64 (env.SetCompressedInt64 (decValue ds)) = decValue ds →
      ManageExtKey env sek "look_ahead" (String.mk ds) result =
        { sek := { sek with mapValue := (mapSet sek.mapValue env.EKVT_N_LOOKAHEAD
                              (env.SetCompressedInt64 (decValue ds))) },
          result := result ++
            [("note", .str "Wallet must be restarted to reload lookahead pool."),
             ("look_ahead", .num (decValue ds))],
          thrown := none }) := by
  have hfit : decValue ds ≤ ULONG_MAX := by
    have : ULONG_MAX = 2 ^ 64 - 1 := rfl
    omega
  rw [ManageExtKey_look_ahead_digits env sek result ds hne hdig hfit]
  constructor
  · by_cases hr : decValue ds < 1 ∨ decValue ds > 1000
    · rw [if_pos hr]; simp only [true_iff]; exact hr
    · rw [if_neg hr]; simp only [hr, iff_false]; intro h; cases h
  · intro h1 h2 hg
    have hr : ¬ (decValue ds < 1 ∨ decValue ds > 1000) := by omega
    rw [if_neg hr, hg, toInt32_small _ h2]
    simp [push_back]

set_option maxRecDepth 100000 in
/-- C10 at the values 0, 1001, 1 and 1000 on the chain of the sample instance. -/
theorem c10_look_ahead_bounds_witness :
    (ManageExtKey Sample.env Sample.chain "look_ahead" "0" []).thrown =
      some "Failed: look_ahead number out of range." ∧
    (ManageExtKey Sample.env Sample.chain "look_ahead" "1001" []).thrown =
      some "Failed: look_ahead number out of range." ∧
    ManageExtKey Sample.env Sample.chain "look_ahead" "1" [] =
      { sek := { Sample.chain with mapValue := (mapSet Sample.chain.mapValue
                   Sample.env.EKVT_N_LOOKAHEAD (Sample.env.SetCompressedInt64 1)) },
        result := [] ++ [("note", .str "Wallet must be restarted to reload lookahead pool."),
                   ("look_ahead", .num 1)],
        thrown := none } ∧
    ManageExtKey Sample.env Sample.chain "look_ahead" "1000" [] =
      { sek := { Sample.chain with mapValue := (mapSet Sample.chain.mapValue
                   Sample.env.EKVT_N_LOOKAHEAD (Sample.env.SetCompressedInt64 1000)) },
        result := [] ++ [("note", .str "Wallet must be restarted to reload lookahead pool."),
                   ("look_ahead", .num 1000)],
        thrown := none } :=
  ⟨(c10_look_ahead_bounds Sample.env Sample.chain [] ['0'] (by decide) (by decide)
      (by decide)).1.mpr (by decide),
   (c10_look_ahead_bounds Sample.env Sample.chain [] ['1', '0', '0', '1'] (by decide)
      (by decide) (by decide)).1.mpr (by decide),
   (c10_look_ahead_bounds Sample.env Sample.chain [] ['1'] (by decide) (by decide)
      (by decide)).2 (by decide) (by decide) (by decide),
   (c10_look_ahead_bounds Sample.env Sample.chain [] ['1', '0', '0', '0'] (by decide)
      (by decide) (by decide)).2 (by decide) (by decide) (by decide)⟩

/-! ## Round trip of the key codec -/

theorem be4_beValue (x : Bytes) (hl : x.length = 4) (hb : IsBytes x) : be4 (beValue x) = x := by
  match x, hl with
  | [a, b, c, d], _ =>
    have ha : a < 256 := hb a (by simp)
    have hb2 : b < 256 := hb b (by simp)
    have hc : c < 256 := hb c (by simp)
    have hd : d < 256 := hb d (by simp)
    simp only [beValue, be4, List.foldl]
    congr 1
    · omega
    · congr 1
      · omega
      · congr 1
        · omega
        · congr 1
          omega

theorem drop_split (l : Bytes) (a k : Nat) : l.drop a = (l.drop a).take k ++ l.drop (a + k) := by
  have h := (List.take_append_drop k (l.drop a)).symm
  rw [List.drop_drop] at h
  exact h

theorem take_one_getD (l : Bytes) (a : Nat) (h : a < l.length) :
    (l.drop a).take 1 = [l.getD a 0] := by
  rw [List.getD_eq_getElem?_getD, List.getElem?_eq_getElem h]
  simp only [Option.getD_some]
  rw [List.drop_eq_getElem_cons h]
  rfl

/-- Modelled codec: encoding a decoded secret payload gives the payload back when its
padding byte is zero. -/
theorem CExtKey_Encode_Decode (code : Bytes) (hl : code.length = 74) (hb : IsBytes code)
    (hpad : code.getD 41 0 = 0) : (CExtKey.Decode code).Encode = code := by
  have e0 : code = code.drop 0 := rfl
  have s1 := drop_split code 0 1
  have s2 := drop_split code 1 4
  have s3 := drop_split code 5 4
  have s4 := drop_split code 9 32
  have s5 := drop_split code 41 1
  have s6 : code.drop 42 = (code.drop 42).take 32 := by
    rw [List.take_of_length_le]
    simp [hl]
  have t1 := take_one_getD code 0 (by omega)
  have t5 := take_one_getD code 41 (by omega)
  have hbe := be4_beValue ((code.drop 5).take 4) (by simp; omega) (IsBytes_slice code hb 5 4)
  simp only [CExtKey.Encode, CExtKey.Decode, hbe]
  rw [hpad] at t5
  rw [← t1, ← t5]
  conv_rhs => rw [e0, s1, s2, s3, s4, s5, s6]
  simp only [List.append_assoc, Nat.zero_add, Nat.reduceAdd]

/-- Modelled codec: encoding a decoded public payload gives the payload back. -/
theorem CExtPubKey_Encode_Decode (code : Bytes) (hl : code.length = 74) (hb : IsBytes code) :
    (CExtPubKey.Decode code).Encode = code := by
  have e0 : code = code.drop 0 := rfl
  have s1 := drop_split code 0 1
  have s2 := drop_split code 1 4
  have s3 := drop_split code 5 4
  have s4 := drop_split code 9 32
  have s6 : code.drop 41 = (code.drop 41).take 33 := by
    rw [List.take_of_length_le]
    simp [hl]
  have t1 := take_one_getD code 0 (by omega)
  have hbe := be4_beValue ((code.drop 5).take 4) (by simp; omega) (IsBytes_slice code hb 5 4)
  simp only [CExtPubKey.Encode, CExtPubKey.Decode, hbe]
  rw [← t1]
  conv_rhs => rw [e0, s1, s2, s3, s4, s6]
  simp only [List.append_assoc, Nat.zero_add, Nat.reduceAdd]

theorem prefixAny_head (env : Env) (ver : Bytes) (net : Network) (type : Base58Type)
    (rest : List (Network × Base58Type)) (h : ver = (env.Base58Prefix net type).take 4) :
    prefixAny env ver ((net, type) :: rest) = (true, [Call.Base58Prefix net type]) := by
  rw [prefixAny, if_pos (by simpa [memcmp4] using h)]

theorem checksum_rebuild (env : Env) (b : Bytes) (hv : VerifyChecksum env b = true)
    (hlen : b.length = BIP32_KEY_LEN) :
    b.take 4 ++ (b.drop 4).take 74 ++ env.Hash4 (b.take 4 ++ (b.drop 4).take 74) = b := by
  have h78 : b.take 4 ++ (b.drop 4).take 74 = b.take 78 := by
    have h := drop_split (b.take 78) 0 4
    simp only [List.drop_zero, Nat.zero_add] at h
    rw [h, List.take_take, List.drop_take]
    rfl
  simp only [VerifyChecksum, hlen, BIP32_KEY_LEN, Bool.and_eq_true, decide_eq_true_eq] at hv
  rw [h78, hv.2]
  exact List.take_append_drop 78 b

set_option maxRecDepth 100000 in
/-- C3, as stated, fails: the text of a key blob with the Bitcoin secret prefix
(`04 88 ad e4`) is accepted by the `info` mode, and with the path `"0"` the result is
the text of the same payload under the native secret prefix (`8f 1d ae b8`), a
different text. -/
theorem c3_foreign_prefix_counterexample :
    HexStr Sample.vkBlobBtc =
      "0488ade40000000000000000001111111111111111111111111111111111111111111111111111111111111111002222222222222222222222222222222222222222222222222222222222222222654f09e2" ∧
    Sample.env.DecodeBase58 (HexStr Sample.vkBlobBtc) = some Sample.vkBlobBtc ∧
    VerifyChecksum Sample.env Sample.vkBlobBtc = true ∧
    Sample.vkBlobBtc.take 4 = Sample.env.Base58Prefix Sample.env.NetworkID .EXT_SECRET_KEY_BTC ∧
    (extkey_info Sample.env (HexStr Sample.vkBlobBtc) "0").map (fun r => r.result) =
      some (.ok [("result", .str
        "8f1daeb8000000000000000000111111111111111111111111111111111111111111111111111111111111111100222222222222222222222222222222222222222222222222222222222222222202df4f7f")]) := by
  decide

/-- The `info` mode on the text of a secret key blob, of either secret prefix, with the
path `"0"`: the result is the payload of the blob, bytes 4 to 77, under the native
secret prefix, with its checksum. -/
theorem extkey_info_zero_secret (env : Env) (t : String) (b : Bytes)
    (hd : env.DecodeBase58 t = some b) (hv : VerifyChecksum env b = true)
    (hlen : b.length = BIP32_KEY_LEN) (hb : IsBytes b)
    (hp : env.ExtractExtKeyPath "0" = (0, [0]))
    (hpre : b.take 4 = (env.Base58Prefix env.NetworkID .EXT_SECRET_KEY).take 4 ∨
      b.take 4 = (env.Base58Prefix env.NetworkID .EXT_SECRET_KEY_BTC).take 4)
    (hpad : b.getD 45 0 = 0) :
    ∃ calls, extkey_info env t "0" =
      some { result := .ok [("result", .str (EncodeBase58Check env
               ((env.Base58Prefix env.NetworkID .EXT_SECRET_KEY).take 4 ++ (b.drop 4).take 74)))],
             calls := calls } := by
  have hr : readBytes b 0 4 = some (b.take 4) := by
    rw [readBytes_ok b 0 4 (by rw [hlen]; decide), List.drop_zero]
  have hs : ("0" : String) ≠ "info" := by decide
  have hcl : ((b.drop 4).take 74).length = 74 := by
    simp only [List.length_take, List.length_drop, hlen, BIP32_KEY_LEN]; rfl
  have hcb : IsBytes ((b.drop 4).take 74) := IsBytes_slice b hb 4 74
  have hz : ∀ i ∈ [0], i = 0 := by simp
  have hget : ((b.drop 4).take 74).getD 41 0 = b.getD 45 0 := by
    simp [List.getD_eq_getElem?_getD, List.getElem?_take, List.getElem?_drop]
  have hpad2 : ((b.drop 4).take 74).getD 41 0 = 0 := hget.trans hpad
  have hV := ExtKeyPathV_parsed env "0" b [] "" [0] hlen hs hp
  rw [loopV_zeros env [0] hz] at hV
  simp only [ExtKeyPathV.finish, List.cons_ne_self, if_false, push_back, List.nil_append,
    CBitcoinExtKey.ToString, CExtKey_Encode_Decode _ hcl hcb hpad2] at hV
  have hVt : (prefixAny env (b.take 4)
      [(env.NetworkID, .EXT_SECRET_KEY), (env.NetworkID, .EXT_SECRET_KEY_BTC)]).1 = true :=
    (prefixAny_two env _ _ _ _ _).mpr hpre
  rcases hpv : prefixAny env (b.take 4)
      [(env.NetworkID, .EXT_SECRET_KEY), (env.NetworkID, .EXT_SECRET_KEY_BTC)] with ⟨isV, c1⟩
  rw [hpv] at hVt
  simp only at hVt
  subst hVt
  unfold extkey_info
  simp only [hd, hv, hlen, hr, not_true_eq_false, if_false, ne_eq,
    Option.bind_eq_bind, Option.some_bind, hpv, hV, if_true]
  exact ⟨_, rfl⟩

/-- The `info` mode on the text of a public key blob, of either public prefix, with the
path `"0"`: the result is the payload of the blob under the native public prefix, with
its checksum. -/
theorem extkey_info_zero_public (env : Env) (t : String) (b : Bytes)
    (hd : env.DecodeBase58 t = some b) (hv : VerifyChecksum env b = true)
    (hlen : b.length = BIP32_KEY_LEN) (hb : IsBytes b)
    (hp : env.ExtractExtKeyPath "0" = (0, [0]))
    (hpre : b.take 4 = (env.Base58Prefix env.NetworkID .EXT_PUBLIC_KEY).take 4 ∨
      b.take 4 = (env.Base58Prefix env.NetworkID .EXT_PUBLIC_KEY_BTC).take 4)
    (hn1 : b.take 4 ≠ (env.Base58Prefix env.NetworkID .EXT_SECRET_KEY).take 4)
    (hn2 : b.take 4 ≠ (env.Base58Prefix env.NetworkID .EXT_SECRET_KEY_BTC).take 4) :
    ∃ calls, extkey_info env t "0" =
      some { result := .ok [("result", .str (EncodeBase58Check env
               ((env.Base58Prefix env.NetworkID .EXT_PUBLIC_KEY).take 4 ++ (b.drop 4).take 74)))],
             calls := calls } := by
  have hr : readBytes b 0 4 = some (b.take 4) := by
    rw [readBytes_ok b 0 4 (by rw [hlen]; decide), List.drop_zero]
  have hs : ("0" : String) ≠ "info" := by decide
  have hcl : ((b.drop 4).take 74).length = 74 := by
    simp only [List.length_take, List.length_drop, hlen, BIP32_KEY_LEN]; rfl
  have hcb : IsBytes ((b.drop 4).take 74) := IsBytes_slice b hb 4 74
  have hz : ∀ i ∈ [0], i = 0 := by simp
  have hP := ExtKeyPathP_parsed env "0" b [] "" [0] hlen hs hp
  rw [loopP_zeros env [0] hz] at hP
  simp only [ExtKeyPathP.finish, List.cons_ne_self, if_false, push_back, List.nil_append,
    CBitcoinExtPubKey.ToString, CExtPubKey_Encode_Decode _ hcl hcb] at hP
  have hVf : (prefixAny env (b.take 4)
      [(env.NetworkID, .EXT_SECRET_KEY), (env.NetworkID, .EXT_SECRET_KEY_BTC)]).1 = false := by
    rw [Bool.eq_false_iff]
    intro h
    rw [prefixAny_two] at h
    rcases h with h | h
    · exact hn1 h
    · exact hn2 h
  have hPt : (prefixAny env (b.take 4)
      [(env.NetworkID, .EXT_PUBLIC_KEY), (env.NetworkID, .EXT_PUBLIC_KEY_BTC)]).1 = true :=
    (prefixAny_two env _ _ _ _ _).mpr hpre
  rcases hpv : prefixAny env (b.take 4)
      [(env.NetworkID, .EXT_SECRET_KEY), (env.NetworkID, .EXT_SECRET_KEY_BTC)] with ⟨isV, c1⟩
  rcases hpp : prefixAny env (b.take 4)
      [(env.NetworkID, .EXT_PUBLIC_KEY), (env.NetworkID, .EXT_PUBLIC_KEY_BTC)] with ⟨isP, c2⟩
  rw [hpv] at hVf
  rw [hpp] at hPt
  simp only at hVf hPt
  subst hVf hPt
  unfold extkey_info
  simp only [hd, hv, hlen, hr, not_true_eq_false, if_false, ne_eq, Bool.false_eq_true,
    Option.bind_eq_bind, Option.some_bind, hpv, hpp, hP, if_true]
  exact ⟨_, rfl⟩

/-- A blob with a valid checksum is its first 78 bytes followed by their checksum: the
Base58Check text of those bytes is the Base58 text of the blob. -/
theorem EncodeBase58Check_rebuild (env : Env) (b : Bytes) (hv : VerifyChecksum env b = true)
    (hlen : b.length = BIP32_KEY_LEN) :
    EncodeBase58Check env (b.take 4 ++ (b.drop 4).take 74) = env.EncodeBase58 b := by
  rw [EncodeBase58Check, checksum_rebuild env b hv hlen]

/-- C3, amended: for every valid extended-key text `t` accepted by the `info` mode, with
the path `"0"` (parsed as the single segment 0): when `t` carries the active network's
native secret prefix (through `ExtKeyPathV`) or native public prefix (through
`ExtKeyPathP`) the result is exactly `t`; when it carries the Bitcoin secret prefix or
the Bitcoin public prefix the result is the text of the same payload, bytes 4 to 77 of
the decoded blob, under the native prefix of its kind. A valid text is the Base58 text
of its decoded blob of 82 bytes with a valid checksum, and a secret payload has the
padding byte 0 of the key layout. -/
theorem c3_native_text_round_trip (env : Env) (t : String) (b : Bytes)
    (hd : env.DecodeBase58 t = some b) (ht : env.EncodeBase58 b = t)
    (hv : VerifyChecksum env b = true) (hlen : b.length = BIP32_KEY_LEN) (hb : IsBytes b)
    (hp : env.ExtractExtKeyPath "0" = (0, [0])) :
    (b.take 4 = (env.Base58Prefix env.NetworkID .EXT_SECRET_KEY).take 4 → b.getD 45 0 = 0 →
      ∃ calls, extkey_info env t "0" =
        some { result := .ok [("result", .str t)], calls := calls }) ∧
    (b.take 4 = (env.Base58Prefix env.NetworkID .EXT_PUBLIC_KEY).take 4 →
      b.take 4 ≠ (env.Base58Prefix env.NetworkID .EXT_SECRET_KEY).take 4 →
      b.take 4 ≠ (env.Base58Prefix env.NetworkID .EXT_SECRET_KEY_BTC).take 4 →
      ∃ calls, extkey_info env t "0" =
        some { result := .ok [("result", .str t)], calls := calls }) ∧
    (b.take 4 = (env.Base58Prefix env.NetworkID .EXT_SECRET_KEY_BTC).take 4 →
      b.getD 45 0 = 0 →
      ∃ calls, extkey_info env t "0" =
        some { result := .ok [("result", .str (EncodeBase58Check env
                 ((env.Base58Prefix env.NetworkID .EXT_SECRET_KEY).take 4 ++
                   (b.drop 4).take 74)))],
               calls := calls }) ∧
    (b.take 4 = (env.Base58Prefix env.NetworkID .EXT_PUBLIC_KEY_BTC).take 4 →
      b.take 4 ≠ (env.Base58Prefix env.NetworkID .EXT_SECRET_KEY).take 4 →
      b.take 4 ≠ (env.Base58Prefix env.NetworkID .EXT_SECRET_KEY_BTC).take 4 →
      ∃ calls, extkey_info env t "0" =
        some { result := .ok [("result", .str (EncodeBase58Check env
                 ((env.Base58Prefix env.NetworkID .EXT_PUBLIC_KEY).take 4 ++
                   (b.drop 4).take 74)))],
               calls := calls }) := by
  have hreb := EncodeBase58Check_rebuild env b hv hlen
  refine ⟨fun hpre hpad => ?_, fun hpre hn1 hn2 => ?_, fun hpre hpad => ?_,
    fun hpre hn1 hn2 => ?_⟩
  · obtain ⟨calls, h⟩ := extkey_info_zero_secret env t b hd hv hlen hb hp (Or.inl hpre) hpad
    rw [← hpre, hreb, ht] at h
    exact ⟨calls, h⟩
  · obtain ⟨calls, h⟩ :=
      extkey_info_zero_public env t b hd hv hlen hb hp (Or.inl hpre) hn1 hn2
    rw [← hpre, hreb, ht] at h
    exact ⟨calls, h⟩
  · exact extkey_info_zero_secret env t b hd hv hlen hb hp (Or.inr hpre) hpad
  · exact extkey_info_zero_public env t b hd hv hlen hb hp (Or.inr hpre) hn1 hn2

set_option maxRecDepth 100000 in
/-- C3, amended, on the texts of the native secret and public blobs of the sample
instance, and on the texts of the blobs with the Bitcoin secret and public prefixes,
which come back as the texts of the native blobs of the same payload. -/
theorem c3_native_text_round_trip_witness :
    (∃ calls, extkey_info Sample.env (HexStr Sample.vkBlob) "0" =
      some { result := .ok [("result", .str (HexStr Sample.vkBlob))], calls := calls }) ∧
    (∃ calls, extkey_info Sample.env (HexStr Sample.pkBlob) "0" =
      some { result := .ok [("result", .str (HexStr Sample.pkBlob))], calls := calls }) ∧
    (∃ calls, extkey_info Sample.env (HexStr Sample.vkBlobBtc) "0" =
      some { result := .ok [("result", .str (EncodeBase58Check Sample.env
               ((Sample.env.Base58Prefix Sample.env.NetworkID .EXT_SECRET_KEY).take 4 ++
                 (Sample.vkBlobBtc.drop 4).take 74)))],
             calls := calls }) ∧
    EncodeBase58Check Sample.env
        ((Sample.env.Base58Prefix Sample.env.NetworkID .EXT_SECRET_KEY).take 4 ++
          (Sample.vkBlobBtc.drop 4).take 74) = HexStr Sample.vkBlob ∧
    (∃ calls, extkey_info Sample.env (HexStr Sample.pkBlobBtc) "0" =
      some { result := .ok [("result", .str (EncodeBase58Check Sample.env
               ((Sample.env.Base58Prefix Sample.env.NetworkID .EXT_PUBLIC_KEY).take 4 ++
                 (Sample.pkBlobBtc.drop 4).take 74)))],
             calls := calls }) ∧
    EncodeBase58Check Sample.env
        ((Sample.env.Base58Prefix Sample.env.NetworkID .EXT_PUBLIC_KEY).take 4 ++
          (Sample.pkBlobBtc.drop 4).take 74) = HexStr Sample.pkBlob :=
  ⟨(c3_native_text_round_trip Sample.env (HexStr Sample.vkBlob) Sample.vkBlob
      (by decide) (by decide) (by decide) (by decide) (by decide) (by decide)).1
      (by decide) (by decide),
   (c3_native_text_round_trip Sample.env (HexStr Sample.pkBlob) Sample.pkBlob
      (by decide) (by decide) (by decide) (by decide) (by decide) (by decide)).2.1
      (by decide) (by decide) (by decide),
   (c3_native_text_round_trip Sample.env (HexStr Sample.vkBlobBtc) Sample.vkBlobBtc
      (by decide) (by decide) (by decide) (by decide) (by decide) (by decide)).2.2.1
      (by decide) (by decide),
   by decide,
   (c3_native_text_round_trip Sample.env (HexStr Sample.pkBlobBtc) Sample.pkBlobBtc
      (by decide) (by decide) (by decide) (by decide) (by decide) (by decide)).2.2.2
      (by decide) (by decide) (by decide),
   by decide⟩

/-- Beyond the sample instance: whenever the Bitcoin and the native secret prefix
differ and `DecodeBase58` inverts `EncodeBase58`, an accepted text with the Bitcoin
secret prefix is answered, for the path `"0"`, with a different text. -/
theorem foreign_secret_text_not_reproduced (env : Env) (t : String) (b : Bytes)
    (hd : env.DecodeBase58 t = some b) (hv : VerifyChecksum env b = true)
    (hlen : b.length = BIP32_KEY_LEN) (hp : env.ExtractExtKeyPath "0" = (0, [0]))
    (hpre : b.take 4 = (env.Base58Prefix env.NetworkID .EXT_SECRET_KEY_BTC).take 4)
    (hne : b.take 4 ≠ (env.Base58Prefix env.NetworkID .EXT_SECRET_KEY).take 4)
    (hpl : 4 ≤ (env.Base58Prefix env.NetworkID .EXT_SECRET_KEY).length)
    (hinv : ∀ x, env.DecodeBase58 (env.EncodeBase58 x) = some x) :
    ∃ t2 calls, extkey_info env t "0" =
        some { result := .ok [("result", .str t2)], calls := calls } ∧ t2 ≠ t := by
  have hr : readBytes b 0 4 = some (b.take 4) := by
    rw [readBytes_ok b 0 4 (by rw [hlen]; decide), List.drop_zero]
  have hs : ("0" : String) ≠ "info" := by decide
  have hz : ∀ i ∈ [0], i = 0 := by simp
  have hV := ExtKeyPathV_parsed env "0" b [] "" [0] hlen hs hp
  rw [loopV_zeros env [0] hz] at hV
  simp only [ExtKeyPathV.finish, List.cons_ne_self, if_false, push_back, List.nil_append,
    CBitcoinExtKey.ToString, EncodeBase58Check] at hV
  have hpa : prefixAny env (b.take 4)
      [(env.NetworkID, .EXT_SECRET_KEY), (env.NetworkID, .EXT_SECRET_KEY_BTC)] =
      (true, [Call.Base58Prefix env.NetworkID .EXT_SECRET_KEY,
              Call.Base58Prefix env.NetworkID .EXT_SECRET_KEY_BTC]) := by
    have h1 : memcmp4 (b.take 4) (env.Base58Prefix env.NetworkID .EXT_SECRET_KEY) = false := by
      simpa [memcmp4] using hne
    rw [prefixAny, h1, prefixAny_head env _ _ _ _ hpre]
    simp
  unfold extkey_info
  simp only [hd, hv, hlen, hr, not_true_eq_false, if_false, ne_eq,
    Option.bind_eq_bind, Option.some_bind, hpa, hV, if_true]
  refine ⟨_, _, rfl, ?_⟩
  intro heq
  have h1 := hinv ((env.Base58Prefix env.NetworkID .EXT_SECRET_KEY).take 4 ++
    (CExtKey.Decode ((b.drop 4).take 74)).Encode ++
    env.Hash4 ((env.Base58Prefix env.NetworkID .EXT_SECRET_KEY).take 4 ++
      (CExtKey.Decode ((b.drop 4).take 74)).Encode))
  rw [heq, hd] at h1
  have h2 : b.take 4 = (env.Base58Prefix env.NetworkID .EXT_SECRET_KEY).take 4 := by
    rw [Option.some.inj h1, List.append_assoc, List.take_append_of_le_length (by simp [hpl])]
    simp
  exact hne h2

/-! ## Claims on `ManageExtKey` and `ManageExtAccount` -/

theorem String_length_pos_iff (s : String) : s.length > 0 ↔ s ≠ "" := by
  constructor
  · intro h e
    subst e
    exact absurd h (by decide)
  · intro h
    apply Nat.pos_of_ne_zero
    intro h0
    apply h
    have hd : s.data = [] := List.length_eq_zero.mp h0
    exact String.ext hd

/-- The `label` branch of `ManageExtKey` for a non-empty value: the test of line 567 is
`length() == 0`, so nothing is written and the old label is reported. -/
theorem ManageExtKey_label_nonempty (env : Env) (sek : CStoredExtKey) (v : String)
    (result : UniObj) (hv : v ≠ "") :
    ManageExtKey env sek "label" v result =
      { sek := sek, result := push_back result "set_label" (.str sek.sLabel),
        thrown := none } := by
  have hl : ¬ v.length = 0 := Nat.pos_iff_ne_zero.mp ((String_length_pos_iff v).mpr hv)
  unfold ManageExtKey
  rw [if_pos rfl]
  simp only [hl, if_false]

set_option maxRecDepth 100000 in
/-- C11, at the failing input: on the chain labelled `savings`, option `label` with the
value `x` leaves the label `savings` and reports `savings` as `set_label`; the claim
asks for `x` in both places. -/
theorem c11_label_value_not_written :
    ManageExtKey Sample.env Sample.chain "label" "x" [] =
      { sek := { sLabel := "savings", nFlags := 1, mapValue := [] },
        result := [("set_label", .str "savings")], thrown := none } := by
  decide

/-- With an empty value every option other than `label` leaves the chain as it is. -/
theorem ManageExtKey_empty_value_other (env : Env) (sek : CStoredExtKey) (sOptName : String)
    (result : UniObj) (hn : sOptName ≠ "label") :
    (ManageExtKey env sek sOptName "" result).sek = sek ∧
    (ManageExtKey env sek sOptName "" result).thrown = none := by
  have h0 : ¬ ("".length > 0) := by decide
  unfold ManageExtKey
  rw [if_neg hn]
  simp only [h0, if_false]
  split_ifs <;> exact ⟨rfl, rfl⟩

set_option maxRecDepth 100000 in
/-- C12, at the failing input: on the chain labelled `savings`, option `label` with an
empty value writes the empty label; the claim asks for an unchanged chain. -/
theorem c12_empty_label_value_clears_label :
    ManageExtKey Sample.env Sample.chain "label" "" [] =
      { sek := { sLabel := "", nFlags := 1, mapValue := [] },
        result := [("set_label", .str "")], thrown := none } ∧
    Sample.chain.sLabel = "savings" := by
  decide

/-- C13: for every account, option name and value `v`, after `ManageExtAccount` the
label is `v` when the option is `label` and `v` is not empty, and the previous label in
every other case; the flags are the previous flags unless the option is `active` and
`v` is not empty, in which case the active bit is set for a positive `v` and cleared
otherwise. -/
theorem c13_account_label_and_flags (env : Env) (sea : CExtKeyAccount)
    (sOptName v : String) (result : UniObj) :
    (ManageExtAccount env sea sOptName v result).sea.sLabel =
      (if sOptName = "label" ∧ v ≠ "" then v else sea.sLabel) ∧
    (ManageExtAccount env sea sOptName v result).sea.nFlags =
      (if sOptName = "active" ∧ v ≠ "" then
        (if env.IsStringBoolPositive v = true then sea.nFlags ||| env.EAF_ACTIVE
         else clearBits sea.nFlags env.EAF_ACTIVE)
       else sea.nFlags) := by
  have hv := String_length_pos_iff v
  unfold ManageExtAccount
  by_cases h1 : sOptName = "label"
  · have h2 : ¬ (sOptName = "active") := by rw [h1]; decide
    by_cases hl : v.length > 0
    · have hne := hv.mp hl
      simp [h1, hl, hne]
    · have hne : v = "" := by
        by_contra h; exact hl (hv.mpr h)
      simp [h1, hne]
  · by_cases h2 : sOptName = "active"
    · by_cases hl : v.length > 0
      · have hne := hv.mp hl
        by_cases hp : env.IsStringBoolPositive v = true
        · simp [h2, hl, hne, hp]
        · simp [h2, hl, hne, hp]
      · have hne : v = "" := by
          by_contra h; exact hl (hv.mpr h)
        simp [h2, hne]
    · simp [h1, h2]

/-- C14: for every chain and every value, when `ManageExtKey` with option `look_ahead`
throws (the value is not a complete decimal number, or lies outside `[1, 1000]`), the
chain, with its label, flags and metadata map, and the result object are as before the
call. -/
theorem c14_rejected_look_ahead_leaves_chain (env : Env) (sek : CStoredExtKey)
    (v : String) (result : UniObj)
    (ht : (ManageExtKey env sek "look_ahead" v result).thrown ≠ none) :
    (ManageExtKey env sek "look_ahead" v result).sek = sek ∧
    (ManageExtKey env sek "look_ahead" v result).result = result := by
  have h1 : ¬ ("look_ahead" = "label") := by decide
  have h2 : ¬ ("look_ahead" = "active") := by decide
  have h3 : ¬ ("look_ahead" = "receive_on") := by decide
  unfold ManageExtKey at ht ⊢
  rw [if_neg h1, if_neg h2, if_neg h3, if_pos rfl] at ht ⊢
  by_cases hl : v.length > 0
  · rw [if_pos hl] at ht ⊢
    by_cases hi : (strtoul10 (c_str v)).errnoSet = true ∨ (strtoul10 (c_str v)).pend ≠ []
    · simp only [hi, if_true, and_self]
    · by_cases hr : (strtoul10 (c_str v)).value < 1 ∨ (strtoul10 (c_str v)).value > 1000
      · simp only [hi, hr, if_true, if_false, and_self]
      · simp only [hi, hr, if_false] at ht
        exact absurd rfl ht
  · rw [if_neg hl] at ht
    exact absurd rfl ht

set_option maxRecDepth 100000 in
/-- C14 on a chain with a stored lookahead entry, for the values `1001` and `12abc`. -/
theorem c14_rejected_look_ahead_leaves_chain_witness :
    ((ManageExtKey Sample.env Sample.chainLookAhead "look_ahead" "1001" []).sek =
        Sample.chainLookAhead ∧
      (ManageExtKey Sample.env Sample.chainLookAhead "look_ahead" "1001" []).result = []) ∧
    ((ManageExtKey Sample.env Sample.chainLookAhead "look_ahead" "12abc" []).sek =
        Sample.chainLookAhead ∧
      (ManageExtKey Sample.env Sample.chainLookAhead "look_ahead" "12abc" []).result = []) :=
  ⟨c14_rejected_look_ahead_leaves_chain Sample.env Sample.chainLookAhead "1001" [] (by decide),
   c14_rejected_look_ahead_leaves_chain Sample.env Sample.chainLookAhead "12abc" [] (by decide)⟩

/-! ## Claims on the transactional modes of `extkey` -/

/-- The `options` mode on a chain held in memory, with a non-empty value that
`ManageExtKey` accepts, when the store write fails: the call throws after the object in
memory has been changed, and nothing puts the old object back. -/
theorem extkey_options_failed_write (env : Env) (wenv : WalletEnv) (wallet : CHDWallet)
    (id : CKeyID) (pSek : CStoredExtKey) (sOptName sOptValue : String) (result : UniObj)
    (hb : wenv.TxnBegin = true) (hm : mapLookup wallet.mapExtKeys id = some pSek)
    (hv : sOptValue.length > 0)
    (ht : (ManageExtKey env pSek sOptName sOptValue result).thrown = none)
    (hw : wenv.WriteExtKey id (ManageExtKey env pSek sOptName sOptValue result).sek = false) :
    extkey_options env wenv wallet true false id sOptName sOptValue result =
      { wallet := { wallet with mapExtKeys := (mapStore wallet.mapExtKeys id
                      (ManageExtKey env pSek sOptName sOptValue result).sek) },
        result := .error "WriteExtKey failed.",
        calls := [.TxnBegin,
                  .WriteExtKey id (ManageExtKey env pSek sOptName sOptValue result).sek,
                  .TxnAbort] } := by
  unfold extkey_options
  simp only [hb, not_true_eq_false, if_false, if_true, extkey_options.key, hm,
    extkey_options.manageKey, ht, hv, hw, Bool.false_eq_true, not_false_eq_true,
    List.cons_append, List.nil_append]

set_option maxRecDepth 100000 in
/-- C15, at two failing inputs. On the chain `aa` held in memory with the active flag,
option `active` with the value `false` and a failing `WriteExtKey`: the call throws
`WriteExtKey failed.` and the chain in memory has lost the flag. On the account `bb`
held in memory, option `label` with the value `renamed` and a failing `TxnCommit`: the
call throws `TxnCommit failed.` and the account in memory carries the new label. The
claim asks for the objects in memory to be as before the call. -/
theorem c15_failed_persistence_keeps_memory_change :
    Sample.wallet.mapExtKeys = [([0xaa], { sLabel := "savings", nFlags := 1, mapValue := [] })] ∧
    extkey_options Sample.env (Sample.wenv true false true 0) Sample.wallet true false [0xaa]
        "active" "false" [] =
      { wallet := { Sample.wallet with
                    mapExtKeys := [([0xaa], { sLabel := "savings", nFlags := 0, mapValue := [] })] },
        result := .error "WriteExtKey failed.",
        calls := [.TxnBegin,
                  .WriteExtKey [0xaa] { sLabel := "savings", nFlags := 0, mapValue := [] },
                  .TxnAbort] } ∧
    Sample.wallet.mapExtAccounts = [([0xbb], { sLabel := "main account", nFlags := 1 })] ∧
    extkey_options Sample.env (Sample.wenv true true false 0) Sample.wallet false true [0xbb]
        "label" "renamed" [] =
      { wallet := { Sample.wallet with
                    mapExtAccounts := [([0xbb], { sLabel := "renamed", nFlags := 1 })] },
        result := .error "TxnCommit failed.",
        calls := [.TxnBegin, .WriteExtAccount [0xbb] { sLabel := "renamed", nFlags := 1 },
                  .TxnCommit] } := by
  decide

/-- C16: in the `setdefaultaccount` mode, whenever the transaction begins,
`ExtKeySetDefaultAccount` reports success and the commit fails, the call throws
`TxnCommit failed.` and the wallet's default account id is the one it had before the
call, whatever `ExtKeySetDefaultAccount` had set it to. -/
theorem c16_commit_failure_restores_default (env : Env) (wenv : WalletEnv)
    (wallet : CHDWallet) (idNewDefault : CKeyID) (result : UniObj)
    (hb : wenv.TxnBegin = true)
    (hrv : (wenv.ExtKeySetDefaultAccount wallet idNewDefault).1 = 0)
    (hc : wenv.TxnCommit = false) :
    (extkey_setdefaultaccount env wenv wallet idNewDefault result).result =
      .error "TxnCommit failed." ∧
    (extkey_setdefaultaccount env wenv wallet idNewDefault result).wallet.idDefaultAccount =
      wallet.idDefaultAccount := by
  unfold extkey_setdefaultaccount
  rcases hs : wenv.ExtKeySetDefaultAccount wallet idNewDefault with ⟨rv, w1⟩
  rw [hs] at hrv
  simp only at hrv
  subst hrv
  simp [hb, hc]

set_option maxRecDepth 100000 in
/-- C16 on the sample wallet whose default id is `01`, asked to make the account `bb`
the default while the commit fails. -/
theorem c16_commit_failure_restores_default_witness :
    (extkey_setdefaultaccount Sample.env (Sample.wenv true true false 0)
        { Sample.wallet with idDefaultAccount := [1] } [0xbb] []).result =
      .error "TxnCommit failed." ∧
    (extkey_setdefaultaccount Sample.env (Sample.wenv true true false 0)
        { Sample.wallet with idDefaultAccount := [1] } [0xbb] []).wallet.idDefaultAccount =
      ({ Sample.wallet with idDefaultAccount := [1] } : CHDWallet).idDefaultAccount :=
  c16_commit_failure_restores_default Sample.env (Sample.wenv true true false 0)
    { Sample.wallet with idDefaultAccount := [1] } [0xbb] [] (by decide) (by decide) (by decide)

/-- The `deriveaccount` mode never touches the wallet after `ExtKeyDeriveNewAccount`:
once the transaction has begun, the wallet it leaves is the one that call left. -/
theorem extkey_deriveaccount_wallet (env : Env) (wenv : WalletEnv) (wallet : CHDWallet)
    (sLabel sPath : String) (result : UniObj) (hb : wenv.TxnBegin = true) :
    (extkey_deriveaccount env wenv wallet sLabel sPath result).wallet =
      (wenv.ExtKeyDeriveNewAccount wallet sLabel sPath).2.1 := by
  unfold extkey_deriveaccount
  rcases hs : wenv.ExtKeyDeriveNewAccount wallet sLabel sPath with ⟨rv, w1, sea⟩
  simp only [hb, not_true_eq_false, if_false]
  split_ifs <;> rfl

set_option maxRecDepth 100000 in
/-- C17, at two failing inputs on the sample wallet, whose `ExtKeyDeriveNewAccount`
links the new account `cc` into the account map. When the commit then fails the call
throws `TxnCommit failed.`, and when `ExtKeyDeriveNewAccount` itself reports failure
(code 4) the call answers `Failed.`; in both cases the account map still holds the
new account. The claim asks for the map of before the call. -/
theorem c17_failed_derive_keeps_new_account :
    Sample.wallet.mapExtAccounts = [([0xbb], { sLabel := "main account", nFlags := 1 })] ∧
    extkey_deriveaccount Sample.env (Sample.wenv true true false 0) Sample.wallet "new" "" [] =
      { wallet := { Sample.wallet with
                    mapExtAccounts := [([0xbb], { sLabel := "main account", nFlags := 1 }),
                                       ([0xcc], { sLabel := "new", nFlags := 3 })] },
        result := .error "TxnCommit failed.",
        calls := [.TxnBegin, .ExtKeyDeriveNewAccount "new" "", .TxnCommit] } ∧
    extkey_deriveaccount Sample.env (Sample.wenv true true true 4) Sample.wallet "new" "" [] =
      { wallet := { Sample.wallet with
                    mapExtAccounts := [([0xbb], { sLabel := "main account", nFlags := 1 }),
                                       ([0xcc], { sLabel := "new", nFlags := 3 })] },
        result := .ok [("result", .str "Failed."), ("reason", .str "error 4")],
        calls := [.TxnBegin, .ExtKeyDeriveNewAccount "new" "", .TxnAbort] } := by
  decide

theorem CExtKey58_IsValid_iff (env : Env) (k : CExtKey58) (type : Base58Type) :
    k.IsValid env type = true ↔
      k.vchVersion = (env.Base58Prefix env.NetworkID type).take 4 := by
  simp [CExtKey58.IsValid, memcmp4]

/-- Past the prefix validation the `import` mode starts with `TxnBegin`. -/
theorem extkey_import_proceeds (env : Env) (wenv : WalletEnv) (wallet : CHDWallet)
    (sek : CStoredExtKey) (sInKey : String) (fBip44 fSaveBip44 : Bool) (result : UniObj)
    (k : CExtKey58) (hk : wenv.Set58 sInKey = (0, k))
    (h1 : ¬ (fBip44 = true ∧ ¬ k.IsValid env .EXT_SECRET_KEY_BTC = true))
    (h2 : ¬ (fBip44 = false ∧
      (¬ k.IsValid env .EXT_SECRET_KEY = true ∧ ¬ k.IsValid env .EXT_PUBLIC_KEY_BTC = true))) :
    ∃ rest, (extkey_import env wenv wallet sek sInKey fBip44 fSaveBip44 result).calls =
      WCall.TxnBegin :: rest := by
  unfold extkey_import
  rw [hk]
  simp only [ne_eq, not_true_eq_false, if_false]
  rw [if_neg h1, if_neg h2]
  by_cases hb : wenv.TxnBegin = true
  · rw [if_neg (by simp [hb])]
    rcases wenv.ExtKeyImportLoose wallet sek k fBip44 fSaveBip44 with ⟨rv, w1⟩
    split_ifs <;> exact ⟨_, rfl⟩
  · rw [if_pos hb]
    exact ⟨_, rfl⟩

/-- C18: in the `import` mode, for every key that `Set58` decodes: with `bip44` set the
call goes on to `TxnBegin` exactly when the version prefix is the Bitcoin secret prefix,
and with `bip44` unset exactly when it is the native secret prefix or the Bitcoin public
prefix; every rejected call throws its prefix error with an empty call log (no
`TxnBegin`, no `ExtKeyImportLoose`) and an unchanged wallet. -/
theorem c18_import_validates_version_first (env : Env) (wenv : WalletEnv)
    (wallet : CHDWallet) (sek : CStoredExtKey) (sInKey : String) (fSaveBip44 : Bool)
    (result : UniObj) (k : CExtKey58) (hk : wenv.Set58 sInKey = (0, k)) :
    ((k.vchVersion = (env.Base58Prefix env.NetworkID .EXT_SECRET_KEY_BTC).take 4 ↔
        ∃ rest, (extkey_import env wenv wallet sek sInKey true fSaveBip44 result).calls =
          WCall.TxnBegin :: rest) ∧
      (k.vchVersion ≠ (env.Base58Prefix env.NetworkID .EXT_SECRET_KEY_BTC).take 4 →
        extkey_import env wenv wallet sek sInKey true fSaveBip44 result =
          { wallet := wallet,
            result := .error
              "Import failed - BIP44 key must begin with a bitcoin secret key prefix.",
            calls := [] })) ∧
    (((k.vchVersion = (env.Base58Prefix env.NetworkID .EXT_SECRET_KEY).take 4 ∨
          k.vchVersion = (env.Base58Prefix env.NetworkID .EXT_PUBLIC_KEY_BTC).take 4) ↔
        ∃ rest, (extkey_import env wenv wallet sek sInKey false fSaveBip44 result).calls =
          WCall.TxnBegin :: rest) ∧
      (¬ (k.vchVersion = (env.Base58Prefix env.NetworkID .EXT_SECRET_KEY).take 4 ∨
          k.vchVersion = (env.Base58Prefix env.NetworkID .EXT_PUBLIC_KEY_BTC).take 4) →
        extkey_import env wenv wallet sek sInKey false fSaveBip44 result =
          { wallet := wallet,
            result := .error "Import failed - Key must begin with a particl prefix.",
            calls := [] })) := by
  have rej1 : k.vchVersion ≠ (env.Base58Prefix env.NetworkID .EXT_SECRET_KEY_BTC).take 4 →
      extkey_import env wenv wallet sek sInKey true fSaveBip44 result =
        { wallet := wallet,
          result := .error
            "Import failed - BIP44 key must begin with a bitcoin secret key prefix.",
          calls := [] } := by
    intro hne
    have hv : ¬ k.IsValid env .EXT_SECRET_KEY_BTC = true :=
      fun h => hne ((CExtKey58_IsValid_iff env k _).mp h)
    unfold extkey_import
    rw [hk]
    simp only [ne_eq, not_true_eq_false, if_false]
    rw [if_pos ⟨trivial, hv⟩]
  have rej2 : ¬ (k.vchVersion = (env.Base58Prefix env.NetworkID .EXT_SECRET_KEY).take 4 ∨
        k.vchVersion = (env.Base58Prefix env.NetworkID .EXT_PUBLIC_KEY_BTC).take 4) →
      extkey_import env wenv wallet sek sInKey false fSaveBip44 result =
        { wallet := wallet,
          result := .error "Import failed - Key must begin with a particl prefix.",
          calls := [] } := by
    intro hne
    have hv1 : ¬ k.IsValid env .EXT_SECRET_KEY = true :=
      fun h => hne (Or.inl ((CExtKey58_IsValid_iff env k _).mp h))
    have hv2 : ¬ k.IsValid env .EXT_PUBLIC_KEY_BTC = true :=
      fun h => hne (Or.inr ((CExtKey58_IsValid_iff env k _).mp h))
    unfold extkey_import
    rw [hk]
    simp only [ne_eq, not_true_eq_false, if_false]
    rw [if_neg (by simp), if_pos ⟨trivial, hv1, hv2⟩]
  refine ⟨⟨⟨?_, ?_⟩, rej1⟩, ⟨⟨?_, ?_⟩, rej2⟩⟩
  · intro hv
    have hv2 := (CExtKey58_IsValid_iff env k _).mpr hv
    exact extkey_import_proceeds env wenv wallet sek sInKey true fSaveBip44 result k hk
      (by simp [hv2]) (by simp)
  · rintro ⟨rest, hr⟩
    by_contra hne
    rw [rej1 hne] at hr
    cases hr
  · intro hv
    have hv2 : k.IsValid env .EXT_SECRET_KEY = true ∨ k.IsValid env .EXT_PUBLIC_KEY_BTC = true :=
      hv.imp (CExtKey58_IsValid_iff env k _).mpr (CExtKey58_IsValid_iff env k _).mpr
    exact extkey_import_proceeds env wenv wallet sek sInKey false fSaveBip44 result k hk
      (by simp) (by rcases hv2 with h | h <;> simp [h])
  · rintro ⟨rest, hr⟩
    by_contra hne
    rw [rej2 hne] at hr
    cases hr

set_option maxRecDepth 100000 in
/-- C18 on the text of the sample blob with the Bitcoin secret prefix. -/
theorem c18_import_validates_version_first_witness :
    (((Sample.wenv true true true 0).Set58 (HexStr Sample.vkBlobBtc)).2.vchVersion =
          (Sample.env.Base58Prefix Sample.env.NetworkID .EXT_SECRET_KEY_BTC).take 4 ↔
        ∃ rest, (extkey_import Sample.env (Sample.wenv true true true 0) Sample.wallet
            Sample.chain (HexStr Sample.vkBlobBtc) true false []).calls =
          WCall.TxnBegin :: rest) ∧
    extkey_import Sample.env (Sample.wenv true true true 0) Sample.wallet Sample.chain
        (HexStr Sample.vkBlobBtc) false false [] =
      { wallet := Sample.wallet,
        result := .error "Import failed - Key must begin with a particl prefix.",
        calls := [] } :=
  ⟨(c18_import_validates_version_first Sample.env (Sample.wenv true true true 0) Sample.wallet
      Sample.chain (HexStr Sample.vkBlobBtc) false []
      ((Sample.wenv true true true 0).Set58 (HexStr Sample.vkBlobBtc)).2 (by decide)).1.1,
   (c18_import_validates_version_first Sample.env (Sample.wenv true true true 0) Sample.wallet
      Sample.chain (HexStr Sample.vkBlobBtc) false []
      ((Sample.wenv true true true 0).Set58 (HexStr Sample.vkBlobBtc)).2 (by decide)).2.2
      (by decide)⟩

/-! ## Claims on the stealth prefix -/

theorem setPrefix_number_bits (senv : StealthEnv) (sxAddr : CStealthAddress)
    (bits nPrefix : Nat) (sPrefix_num : String) (skSpend : CKey) :
    (importstealthaddress.setPrefix senv sxAddr bits nPrefix sPrefix_num skSpend).number_bits =
      bits := by
  by_cases hb : bits > 0 <;> simp [importstealthaddress.setPrefix, hb]

/-- The value stored by lines 1949-1963: with a positive number of bits the prefix
number masked by `SetStealthMask`, else the value the address already had. -/
theorem setPrefix_bitfield (senv : StealthEnv) (sxAddr : CStealthAddress)
    (bits nPrefix : Nat) (sPrefix_num : String) (skSpend : CKey) :
    (importstealthaddress.setPrefix senv sxAddr bits nPrefix sPrefix_num skSpend).bitfield =
      if bits > 0 then
        (if sPrefix_num = "" then leValue ((senv.Sha256Key skSpend).take 4) % 2 ^ 32
          else nPrefix) &&& SetStealthMask bits
      else sxAddr.bitfield := by
  by_cases hb : bits > 0 <;> simp [importstealthaddress.setPrefix, hb]

/-- What `importstealthaddress` builds: the prefix fields are those that lines
1949-1963 set, on a default-constructed address, for the number of bits read from the
fourth parameter and the number extracted from the fifth, 0 without one. -/
theorem importstealthaddress_sxAddr_ok (env : Env) (senv : StealthEnv) (params : List String)
    (sx : CStealthAddress) (sk : CKey)
    (h : importstealthaddress.sxAddr env senv params = .ok (sx, sk)) :
    ∃ (bits nPrefix : Nat) (sx0 : CStealthAddress),
      num_prefix_bits params[3]? = .ok bits ∧
      (match params[4]? with
        | none => some 0
        | some s => (senv.ExtractStealthPrefix (String.mk (c_str s))).map
                      (fun n => n % 2 ^ 32)) = some nPrefix ∧
      sx0.bitfield = senv.SxAddrDefault.bitfield ∧
      sx.number_bits =
        (importstealthaddress.setPrefix senv sx0 bits nPrefix (params.getD 4 "") sk).number_bits ∧
      sx.bitfield =
        (importstealthaddress.setPrefix senv sx0 bits nPrefix (params.getD 4 "") sk).bitfield := by
  unfold importstealthaddress.sxAddr at h
  dsimp only at h
  cases hbits : num_prefix_bits params[3]? with
  | error e => rw [hbits] at h; cases h
  | ok bits =>
    rw [hbits] at h
    dsimp only at h
    generalize hnp : (match params[4]? with
      | none => some 0
      | some s => (senv.ExtractStealthPrefix (String.mk (c_str s))).map
                    (fun n => n % 2 ^ 32)) = np at h
    cases np with
    | none => cases h
    | some nPrefix =>
      dsimp only at h
      cases hscan : importstealthaddress.secret env senv (params.getD 0 "")
          "Could not decode scan secret as wif, hex or base58." "Scan secret is not 32 bytes." with
      | error e => rw [hscan] at h; cases h
      | ok skScan =>
        rw [hscan] at h
        dsimp only at h
        cases hspend : importstealthaddress.secret env senv (params.getD 1 "")
            "Could not decode spend secret as hex or base58." "Spend secret is not 32 bytes." with
        | error e => rw [hspend] at h; cases h
        | ok skSpend =>
          rw [hspend] at h
          dsimp only at h
          cases hp1 : senv.SecretToPublicKey skScan with
          | none => rw [hp1] at h; cases h
          | some p1 =>
            rw [hp1] at h
            dsimp only at h
            cases hp2 : senv.SecretToPublicKey skSpend with
            | none => rw [hp2] at h; cases h
            | some p2 =>
              rw [hp2] at h
              dsimp only at h
              injection h with h
              injection h with h1 h2
              subst h1 h2
              exact ⟨bits, nPrefix,
                { senv.SxAddrDefault with
                  label := params.getD 2 "", scan_secret := skScan,
                  spend_secret_id := senv.SpendKeyID skSpend },
                rfl, rfl, rfl, rfl, rfl⟩

/-- With no prefix bits the code does not write the prefix value (line 1950): the
address keeps the value its constructor gave it. -/
theorem importstealthaddress_zero_bits (env : Env) (senv : StealthEnv) (params : List String)
    (sx : CStealthAddress) (sk : CKey)
    (h : importstealthaddress.sxAddr env senv params = .ok (sx, sk))
    (hbits : num_prefix_bits params[3]? = .ok 0) :
    sx.number_bits = 0 ∧ sx.bitfield = senv.SxAddrDefault.bitfield := by
  obtain ⟨bits, nPrefix, sx0, hb, _, h0, hn, hf⟩ :=
    importstealthaddress_sxAddr_ok env senv params sx sk h
  rw [hbits] at hb
  cases hb
  rw [setPrefix_number_bits] at hn
  rw [setPrefix_bitfield, if_neg (by decide), h0] at hf
  exact ⟨hn, hf⟩

/-- Where the value that `strtoul` returns fits in 32 bits, the bit count used is that
value and a value above 32 is rejected. -/
theorem num_prefix_bits_of_lt (s : String)
    (hok : ¬ ((strtoul10 (c_str s)).errnoSet ∨ (strtoul10 (c_str s)).pend ≠ []))
    (hlt : (strtoul10 (c_str s)).value < 2 ^ 32) :
    num_prefix_bits (some s) =
      if (strtoul10 (c_str s)).value > 32 then .error "Failed: num_prefix_bits must be <= 32."
      else .ok (strtoul10 (c_str s)).value := by
  unfold num_prefix_bits
  simp only [if_neg hok, Nat.mod_eq_of_lt hlt]

set_option maxRecDepth 100000 in
/-- C20: the text "4294967301" is a complete decimal number that `strtoul` reads without
error as 2^32 + 5, above 32; stored in the 32-bit `num_prefix_bits` it becomes 5, so
neither function rejects it: `getnewstealthaddress` asks the wallet for a key with 5
prefix bits and `importstealthaddress` builds an address with 5 prefix bits. -/
theorem c20_bit_count_wraps_at_32_bits :
    (strtoul10 (c_str "4294967301")).errnoSet = false ∧
    (strtoul10 (c_str "4294967301")).pend = [] ∧
    (strtoul10 (c_str "4294967301")).value = 2 ^ 32 + 5 ∧
    num_prefix_bits (some "4294967301") = .ok 5 ∧
    getnewstealthaddress (Sample.wenv true true true 0) ["lbl", "4294967301"] =
      (.ok "stealth lbl 5", [.NewStealthKeyFromAccount "lbl" 5 none]) ∧
    importstealthaddress.sxAddr Sample.env Sample.senv
        [Sample.scanSecret, Sample.spendSecret, "lbl", "4294967301", "255"] =
      .ok (Sample.importedAddress 5 31, Sample.spendKey) := by
  decide

/-! ## Claims on the flag options of `ManageExtKey` -/

theorem or_and_self_mask (f m : Nat) : (f ||| m) &&& m = m := by
  apply Nat.eq_of_testBit_eq
  intro i
  rw [Nat.testBit_and, Nat.testBit_or]
  cases f.testBit i <;> cases m.testBit i <;> rfl

theorem clearBits_and_mask (f m : Nat) : clearBits f m &&& m = 0 := by
  apply Nat.eq_of_testBit_eq
  intro i
  rw [clearBits, Nat.testBit_and, Nat.testBit_xor, Nat.testBit_and, Nat.zero_testBit]
  cases f.testBit i <;> cases m.testBit i <;> rfl

theorem or_testBit_outside (f m i : Nat) (h : m.testBit i = false) :
    (f ||| m).testBit i = f.testBit i := by
  rw [Nat.testBit_or, h, Bool.or_false]

theorem clearBits_testBit_outside (f m i : Nat) (h : m.testBit i = false) :
    (clearBits f m).testBit i = f.testBit i := by
  rw [clearBits, Nat.testBit_xor, Nat.testBit_and, h]
  cases f.testBit i <;> rfl

theorem and_eq_of_testBit_outside (f g m n : Nat) (hd : m &&& n = 0)
    (h : ∀ i, m.testBit i = false → g.testBit i = f.testBit i) : g &&& n = f &&& n := by
  apply Nat.eq_of_testBit_eq
  intro i
  rw [Nat.testBit_and, Nat.testBit_and]
  have hi : (m &&& n).testBit i = false := by rw [hd, Nat.zero_testBit]
  rw [Nat.testBit_and] at hi
  cases hn : n.testBit i
  · simp
  · rw [hn, Bool.and_true] at hi
    rw [h i hi]

/-- C28: for every chain and every non-empty value `v`, `ManageExtKey` with option
`active` returns 0 and leaves the active flag set exactly when `v` is a positive
boolean string, and with option `receive_on` does the same for the receive-on flag; in
both cases every flag bit outside the option's flag, the other of the two flags among
them, the label and the metadata map are as before. The two flag constants are
non-zero and share no bit. -/
theorem c28_flag_options_set_one_flag (env : Env) (sek : CStoredExtKey) (v : String)
    (result : UniObj) (hv : v ≠ "") (hA : env.EAF_ACTIVE ≠ 0) (hR : env.EAF_RECEIVE_ON ≠ 0)
    (hd : env.EAF_ACTIVE &&& env.EAF_RECEIVE_ON = 0) :
    ((ManageExtKey env sek "active" v result).thrown = none ∧
     ((ManageExtKey env sek "active" v result).sek.nFlags &&& env.EAF_ACTIVE ≠ 0 ↔
        env.IsStringBoolPositive v = true) ∧
     (∀ i, env.EAF_ACTIVE.testBit i = false →
        (ManageExtKey env sek "active" v result).sek.nFlags.testBit i = sek.nFlags.testBit i) ∧
     (ManageExtKey env sek "active" v result).sek.nFlags &&& env.EAF_RECEIVE_ON =
        sek.nFlags &&& env.EAF_RECEIVE_ON ∧
     (ManageExtKey env sek "active" v result).sek.sLabel = sek.sLabel ∧
     (ManageExtKey env sek "active" v result).sek.mapValue = sek.mapValue) ∧
    ((ManageExtKey env sek "receive_on" v result).thrown = none ∧
     ((ManageExtKey env sek "receive_on" v result).sek.nFlags &&& env.EAF_RECEIVE_ON ≠ 0 ↔
        env.IsStringBoolPositive v = true) ∧
     (∀ i, env.EAF_RECEIVE_ON.testBit i = false →
        (ManageExtKey env sek "receive_on" v result).sek.nFlags.testBit i =
          sek.nFlags.testBit i) ∧
     (ManageExtKey env sek "receive_on" v result).sek.nFlags &&& env.EAF_ACTIVE =
        sek.nFlags &&& env.EAF_ACTIVE ∧
     (ManageExtKey env sek "receive_on" v result).sek.sLabel = sek.sLabel ∧
     (ManageExtKey env sek "receive_on" v result).sek.mapValue = sek.mapValue) := by
  have hlen : v.length > 0 := (String_length_pos_iff v).mpr hv
  have hd2 : env.EAF_RECEIVE_ON &&& env.EAF_ACTIVE = 0 := by rw [Nat.and_comm]; exact hd
  constructor
  · have hout : ∀ i, env.EAF_ACTIVE.testBit i = false →
        (ManageExtKey env sek "active" v result).sek.nFlags.testBit i =
          sek.nFlags.testBit i := by
      intro i hi
      unfold ManageExtKey
      by_cases hp : env.IsStringBoolPositive v = true
      · simp [hlen, hp, or_testBit_outside _ _ _ hi]
      · simp [hlen, hp, clearBits_testBit_outside _ _ _ hi]
    refine ⟨?_, ?_, hout, and_eq_of_testBit_outside _ _ _ _ hd hout, ?_, ?_⟩
    · unfold ManageExtKey; simp
    · unfold ManageExtKey
      by_cases hp : env.IsStringBoolPositive v = true
      · simp [hlen, hp, or_and_self_mask, hA]
      · simp [hlen, hp, clearBits_and_mask]
    · unfold ManageExtKey
      by_cases hp : env.IsStringBoolPositive v = true <;> simp [hlen, hp]
    · unfold ManageExtKey
      by_cases hp : env.IsStringBoolPositive v = true <;> simp [hlen, hp]
  · have hout : ∀ i, env.EAF_RECEIVE_ON.testBit i = false →
        (ManageExtKey env sek "receive_on" v result).sek.nFlags.testBit i =
          sek.nFlags.testBit i := by
      intro i hi
      unfold ManageExtKey
      by_cases hp : env.IsStringBoolPositive v = true
      · simp [hlen, hp, or_testBit_outside _ _ _ hi]
      · simp [hlen, hp, clearBits_testBit_outside _ _ _ hi]
    refine ⟨?_, ?_, hout, and_eq_of_testBit_outside _ _ _ _ hd2 hout, ?_, ?_⟩
    · unfold ManageExtKey; simp
    · unfold ManageExtKey
      by_cases hp : env.IsStringBoolPositive v = true
      · simp [hlen, hp, or_and_self_mask, hR]
      · simp [hlen, hp, clearBits_and_mask]
    · unfold ManageExtKey
      by_cases hp : env.IsStringBoolPositive v = true <;> simp [hlen, hp]
    · unfold ManageExtKey
      by_cases hp : env.IsStringBoolPositive v = true <;> simp [hlen, hp]

set_option maxRecDepth 100000 in
/-- C28 on the sample chain (flags 1: active) with the value `false`, flag constants 1
and 8. -/
theorem c28_flag_options_set_one_flag_witness :
    ((ManageExtKey Sample.env Sample.chain "active" "false" []).thrown = none ∧
     ((ManageExtKey Sample.env Sample.chain "active" "false" []).sek.nFlags &&&
          Sample.env.EAF_ACTIVE ≠ 0 ↔
        Sample.env.IsStringBoolPositive "false" = true) ∧
     (∀ i, Sample.env.EAF_ACTIVE.testBit i = false →
        (ManageExtKey Sample.env Sample.chain "active" "false" []).sek.nFlags.testBit i =
          Sample.chain.nFlags.testBit i) ∧
     (ManageExtKey Sample.env Sample.chain "active" "false" []).sek.nFlags &&&
          Sample.env.EAF_RECEIVE_ON =
        Sample.chain.nFlags &&& Sample.env.EAF_RECEIVE_ON ∧
     (ManageExtKey Sample.env Sample.chain "active" "false" []).sek.sLabel =
        Sample.chain.sLabel ∧
     (ManageExtKey Sample.env Sample.chain "active" "false" []).sek.mapValue =
        Sample.chain.mapValue) ∧
    ((ManageExtKey Sample.env Sample.chain "receive_on" "false" []).thrown = none ∧
     ((ManageExtKey Sample.env Sample.chain "receive_on" "false" []).sek.nFlags &&&
          Sample.env.EAF_RECEIVE_ON ≠ 0 ↔
        Sample.env.IsStringBoolPositive "false" = true) ∧
     (∀ i, Sample.env.EAF_RECEIVE_ON.testBit i = false →
        (ManageExtKey Sample.env Sample.chain "receive_on" "false" []).sek.nFlags.testBit i =
          Sample.chain.nFlags.testBit i) ∧
     (ManageExtKey Sample.env Sample.chain "receive_on" "false" []).sek.nFlags &&&
          Sample.env.EAF_ACTIVE =
        Sample.chain.nFlags &&& Sample.env.EAF_ACTIVE ∧
     (ManageExtKey Sample.env Sample.chain "receive_on" "false" []).sek.sLabel =
        Sample.chain.sLabel ∧
     (ManageExtKey Sample.env Sample.chain "receive_on" "false" []).sek.mapValue =
        Sample.chain.mapValue) :=
  c28_flag_options_set_one_flag Sample.env Sample.chain "false" [] (by decide) (by decide)
    (by decide) (by decide)

/-! ## The path without segments -/

/-- With a parsed path without segments the loops of `ExtKeyPathV` and `ExtKeyPathP` do
not run and `vkOut` and `pkOut` are never assigned: the result added is the encoding
of a default-constructed key. -/
theorem ExtKeyPath_no_segments (env : Env) (sPath : String) (vchKey : Bytes)
    (keyInfo : UniObj) (sError : String) (hlen : vchKey.length = BIP32_KEY_LEN)
    (hs : sPath ≠ "info") (hp : env.ExtractExtKeyPath sPath = (0, [])) :
    ExtKeyPathV env sPath vchKey keyInfo sError =
      some { rv := 0,
             keyInfo := push_back keyInfo "result"
               (.str (CBitcoinExtKey.ToString env env.vkDefault)),
             sError := sError, calls := [Call.ExtractExtKeyPath sPath] } ∧
    ExtKeyPathP env sPath vchKey keyInfo sError =
      some { rv := 0,
             keyInfo := push_back keyInfo "result"
               (.str (CBitcoinExtPubKey.ToString env env.pkDefault)),
             sError := sError, calls := [Call.ExtractExtKeyPath sPath] } := by
  constructor
  · rw [ExtKeyPathV_parsed env sPath vchKey keyInfo sError [] hlen hs hp]
    rfl
  · rw [ExtKeyPathP_parsed env sPath vchKey keyInfo sError [] hlen hs hp]
    rfl

/-! ## Claims on the mode selection of `extkey` -/

theorem pmodes_spaced : c_str pmodes = spaced (modeWords.map String.toList) := by decide

theorem strstr_cons (c : Char) (cs needle : List Char) :
    strstr (c :: cs) needle = (needle.isPrefixOf (c :: cs) || strstr cs needle) := rfl

theorem strstr_nil (needle : List Char) (hn : needle ≠ []) : strstr [] needle = false := by
  cases needle with
  | nil => exact absurd rfl hn
  | cons c cs => rfl

/-- A needle that starts with a space is not found inside a word without spaces. -/
theorem strstr_skip_word (w t n : List Char) (hw : ∀ c ∈ w, c ≠ ' ') :
    strstr (w ++ t) (' ' :: n) = strstr t (' ' :: n) := by
  induction w with
  | nil => rfl
  | cons c w ih =>
    have hc : c ≠ ' ' := hw c (List.mem_cons_self _ _)
    have hne : (' ' == c) = false := by
      rw [beq_eq_false_iff_ne]; exact fun h => hc h.symm
    rw [List.cons_append, strstr_cons, List.isPrefixOf, hne, Bool.false_and, Bool.false_or]
    exact ih (fun d hd => hw d (List.mem_cons_of_mem _ hd))

/-- Two words without spaces, each followed by a space, one text a start of the
other: the words are equal. -/
theorem word_eq_of_isPrefixOf (v w x y : List Char) (hv : ∀ c ∈ v, c ≠ ' ')
    (hw : ∀ c ∈ w, c ≠ ' ') (h : (v ++ ' ' :: x).isPrefixOf (w ++ ' ' :: y) = true) :
    v = w := by
  induction v generalizing w with
  | nil =>
    cases w with
    | nil => rfl
    | cons d w =>
      have hd : d ≠ ' ' := hw d (List.mem_cons_self _ _)
      simp only [List.nil_append, List.cons_append, List.isPrefixOf, Bool.and_eq_true,
        beq_iff_eq] at h
      exact absurd h.1.symm hd
  | cons c v ih =>
    have hc : c ≠ ' ' := hv c (List.mem_cons_self _ _)
    cases w with
    | nil =>
      simp only [List.nil_append, List.cons_append, List.isPrefixOf, Bool.and_eq_true,
        beq_iff_eq] at h
      exact absurd h.1 hc
    | cons d w =>
      simp only [List.cons_append, List.isPrefixOf, Bool.and_eq_true, beq_iff_eq] at h
      rw [h.1, ih w (fun e he => hv e (List.mem_cons_of_mem _ he))
        (fun e he => hw e (List.mem_cons_of_mem _ he)) h.2]

theorem spaced_head (ws : List (List Char)) : ∃ t, spaced ws = ' ' :: t := by
  cases ws with
  | nil => exact ⟨[], rfl⟩
  | cons w ws => exact ⟨w ++ spaced ws, rfl⟩

/-- In a text of spaced words without spaces, a word without spaces that is found
between two spaces is one of the words. -/
theorem strstr_spaced (ws : List (List Char)) (v : List Char) (hv : ∀ c ∈ v, c ≠ ' ')
    (hws : ∀ w ∈ ws, ∀ c ∈ w, c ≠ ' ')
    (h : strstr (spaced ws) (' ' :: (v ++ [' '])) = true) : v ∈ ws := by
  induction ws with
  | nil =>
    rw [spaced, strstr_cons, strstr_nil _ (by simp), Bool.or_false] at h
    cases v with
    | nil => simp [List.isPrefixOf] at h
    | cons c v => simp [List.isPrefixOf] at h
  | cons w ws ih =>
    have hw : ∀ c ∈ w, c ≠ ' ' := hws w (List.mem_cons_self _ _)
    rw [spaced, List.cons_append, strstr_cons, Bool.or_eq_true] at h
    rcases h with h | h
    · obtain ⟨t, ht⟩ := spaced_head ws
      rw [ht, List.isPrefixOf] at h
      simp only [beq_self_eq_true, Bool.true_and] at h
      rw [word_eq_of_isPrefixOf v w [] t hv hw h]
      exact List.mem_cons_self _ _
    · rw [strstr_skip_word w (spaced ws) _ hw] at h
      exact List.mem_cons_of_mem _ (ih (fun x hx => hws x (List.mem_cons_of_mem _ hx)) h)

theorem toList_spaces (s : String) :
    (" " ++ s ++ " ").toList.map Char.toLower = ' ' :: (s.toList.map Char.toLower ++ [' ']) := by
  simp [String.toList, String.data_append]

theorem takeWhile_all {α : Type} (p : α → Bool) (l : List α) (h : ∀ x ∈ l, p x = true) :
    l.takeWhile p = l := by
  induction l with
  | nil => rfl
  | cons a l ih =>
    rw [List.takeWhile_cons, h a (List.mem_cons_self _ _), if_pos rfl,
      ih (fun x hx => h x (List.mem_cons_of_mem _ hx))]

theorem filter_all {α : Type} (p : α → Bool) (l : List α) (h : ∀ x ∈ l, p x = true) :
    l.filter p = l := List.filter_eq_self.mpr h

/-- A first parameter that is one of the eleven mode words, in any mix of cases, selects
that word in lower case as the mode and is not taken as a key. -/
theorem extkey_mode_word (s : String) (rest : List String) (w : String) (hw : w ∈ modeWords)
    (hs : s.toList.map Char.toLower = w.toList) :
    extkey_mode (s :: rest) = { mode := w, sInKey := "", nParamOffset := 1 } := by
  unfold extkey_mode
  simp only [toList_spaces, hs]
  simp only [modeWords, List.mem_cons, List.mem_singleton, List.not_mem_nil, or_false] at hw
  rcases hw with h | h | h | h | h | h | h | h | h | h | h <;> subst h <;>
    (rw [if_pos (by decide)]; decide)

/-- A first parameter whose lower-case form has no space and no NUL character and is
none of the eleven mode words selects the mode `info` and is taken as the key. -/
theorem extkey_mode_key (s : String) (rest : List String)
    (hsp : ∀ c ∈ s.toList.map Char.toLower, c ≠ ' ')
    (hnul : ∀ c ∈ s.toList.map Char.toLower, c ≠ '\x00')
    (hw : s.toList.map Char.toLower ∉ modeWords.map String.toList) :
    extkey_mode (s :: rest) = { mode := "info", sInKey := s, nParamOffset := 1 } := by
  unfold extkey_mode
  simp only [toList_spaces]
  have htw : (' ' :: (s.toList.map Char.toLower ++ [' '])).takeWhile (fun c => c ≠ '\x00') =
      ' ' :: (s.toList.map Char.toLower ++ [' ']) := by
    apply takeWhile_all
    intro c hc
    simp only [List.mem_cons, List.mem_append, List.mem_singleton, List.not_mem_nil,
      or_false] at hc
    rcases hc with h | h | h
    · subst h; decide
    · simpa using hnul c h
    · subst h; decide
  rw [htw, pmodes_spaced]
  have hno : strstr (spaced (modeWords.map String.toList))
      (' ' :: (s.toList.map Char.toLower ++ [' '])) = false := by
    cases hst : strstr (spaced (modeWords.map String.toList))
      (' ' :: (s.toList.map Char.toLower ++ [' '])) with
    | false => rfl
    | true =>
      exact absurd (strstr_spaced _ _ hsp (by decide) hst) hw
  rw [hno]
  rfl

set_option maxRecDepth 100000 in
/-- C30, at the failing input: the first parameter `info list` is none of the eleven
mode words, yet `" info list "` occurs in the text of mode words, so the mode becomes
`infolist` (a mode that no branch handles) and the parameter is not taken as a key;
the claim asks for the mode `info` with the key `info list`. A first parameter in
mixed case selects the lower-case word, a key text selects `info`, no parameter
selects `list`. -/
theorem c30_two_mode_words_taken_as_mode :
    "info list" ∉ modeWords ∧
    extkey_mode ["info list", "x"] = { mode := "infolist", sInKey := "", nParamOffset := 1 } ∧
    extkey_mode ["gen account key"] =
      { mode := "genaccountkey", sInKey := "", nParamOffset := 1 } ∧
    extkey_mode ["setDefaultAccount", "x"] =
      { mode := "setdefaultaccount", sInKey := "", nParamOffset := 1 } ∧
    extkey_mode ["8f1daeb8"] = { mode := "info", sInKey := "8f1daeb8", nParamOffset := 1 } ∧
    extkey_mode [] = { mode := "list", sInKey := "", nParamOffset := 0 } := by
  decide

/-! ## Claims on `extkeyaltversion` -/

theorem IsValid_versionOf (env : Env) (k : CExtKey58) (type : Base58Type) :
    k.IsValid env type = true ↔ k.vchVersion = versionOf env type :=
  CExtKey58_IsValid_iff env k type

/-- The value of `extkeyaltversion` on a decoded key, by the version of the key; the
four versions are pairwise different. -/
theorem extkeyaltversion_cases (env : Env) (wenv : WalletEnv)
    (ToStringVersion : CExtKey58 → Base58Type → String) (sKeyIn : String) (k : CExtKey58)
    (hd : (extTypes.map (versionOf env)).Nodup) (hk : wenv.Set58 sKeyIn = (0, k)) :
    (k.vchVersion = versionOf env .EXT_SECRET_KEY_BTC →
      extkeyaltversion env wenv ToStringVersion sKeyIn =
        .ok (ToStringVersion k .EXT_SECRET_KEY)) ∧
    (k.vchVersion = versionOf env .EXT_SECRET_KEY →
      extkeyaltversion env wenv ToStringVersion sKeyIn =
        .ok (ToStringVersion k .EXT_SECRET_KEY_BTC)) ∧
    (k.vchVersion = versionOf env .EXT_PUBLIC_KEY_BTC →
      extkeyaltversion env wenv ToStringVersion sKeyIn =
        .ok (ToStringVersion k .EXT_PUBLIC_KEY)) ∧
    (k.vchVersion = versionOf env .EXT_PUBLIC_KEY →
      extkeyaltversion env wenv ToStringVersion sKeyIn =
        .ok (ToStringVersion k .EXT_PUBLIC_KEY_BTC)) := by
  simp only [extTypes, List.map_cons, List.map_nil, List.nodup_cons, List.mem_cons,
    List.mem_singleton, List.not_mem_nil, or_false, not_or, List.nodup_nil, and_true] at hd
  obtain ⟨⟨h12, h13, h14⟩, ⟨h23, h24⟩, h34⟩ := hd
  unfold extkeyaltversion
  rw [hk]
  simp only [ne_eq, not_true_eq_false, if_false, IsValid_versionOf]
  refine ⟨?_, ?_, ?_, ?_⟩
  · intro hv
    rw [if_pos hv]
  · intro hv
    rw [if_neg (by rw [hv]; exact h12), if_pos hv]
  · intro hv
    rw [if_neg (by rw [hv]; exact fun h => h24 h.symm),
      if_neg (by rw [hv]; exact fun h => h14 h.symm), if_pos hv]
  · intro hv
    rw [if_neg (by rw [hv]; exact fun h => h23 h.symm),
      if_neg (by rw [hv]; exact fun h => h13 h.symm),
      if_neg (by rw [hv]; exact h34.1), if_pos hv]

/-- C25: for every key text that `Set58` decodes to a key carrying one of the four
extended-key versions of the active network, `extkeyaltversion` returns the key under
the other version of the same kind (Bitcoin secret to Particl secret, Particl secret to
Bitcoin secret, Bitcoin public to Particl public, Particl public to Bitcoin public),
never a public version for a secret one or the reverse, and applied to its own output
it returns the key under the version it started with. The four versions are pairwise
different, and a text made by `ToStringVersion` decodes to the same key data under
the version asked for. -/
theorem c25_alternate_version_same_kind (env : Env) (wenv : WalletEnv)
    (ToStringVersion : CExtKey58 → Base58Type → String) (sKeyIn : String) (k : CExtKey58)
    (hd : (extTypes.map (versionOf env)).Nodup) (hk : wenv.Set58 sKeyIn = (0, k))
    (hrt : ∀ t ∈ extTypes,
      wenv.Set58 (ToStringVersion k t) = (0, { k with vchVersion := versionOf env t })) :
    (k.vchVersion = versionOf env .EXT_SECRET_KEY_BTC →
      extkeyaltversion env wenv ToStringVersion sKeyIn =
        .ok (ToStringVersion k .EXT_SECRET_KEY) ∧
      extkeyaltversion env wenv ToStringVersion (ToStringVersion k .EXT_SECRET_KEY) =
        .ok (ToStringVersion { k with vchVersion := versionOf env .EXT_SECRET_KEY }
          .EXT_SECRET_KEY_BTC)) ∧
    (k.vchVersion = versionOf env .EXT_SECRET_KEY →
      extkeyaltversion env wenv ToStringVersion sKeyIn =
        .ok (ToStringVersion k .EXT_SECRET_KEY_BTC) ∧
      extkeyaltversion env wenv ToStringVersion (ToStringVersion k .EXT_SECRET_KEY_BTC) =
        .ok (ToStringVersion { k with vchVersion := versionOf env .EXT_SECRET_KEY_BTC }
          .EXT_SECRET_KEY)) ∧
    (k.vchVersion = versionOf env .EXT_PUBLIC_KEY_BTC →
      extkeyaltversion env wenv ToStringVersion sKeyIn =
        .ok (ToStringVersion k .EXT_PUBLIC_KEY) ∧
      extkeyaltversion env wenv ToStringVersion (ToStringVersion k .EXT_PUBLIC_KEY) =
        .ok (ToStringVersion { k with vchVersion := versionOf env .EXT_PUBLIC_KEY }
          .EXT_PUBLIC_KEY_BTC)) ∧
    (k.vchVersion = versionOf env .EXT_PUBLIC_KEY →
      extkeyaltversion env wenv ToStringVersion sKeyIn =
        .ok (ToStringVersion k .EXT_PUBLIC_KEY_BTC) ∧
      extkeyaltversion env wenv ToStringVersion (ToStringVersion k .EXT_PUBLIC_KEY_BTC) =
        .ok (ToStringVersion { k with vchVersion := versionOf env .EXT_PUBLIC_KEY_BTC }
          .EXT_PUBLIC_KEY)) := by
  obtain ⟨a1, a2, a3, a4⟩ := extkeyaltversion_cases env wenv ToStringVersion sKeyIn k hd hk
  have hS := hrt .EXT_SECRET_KEY (by simp [extTypes])
  have hSB := hrt .EXT_SECRET_KEY_BTC (by simp [extTypes])
  have hP := hrt .EXT_PUBLIC_KEY (by simp [extTypes])
  have hPB := hrt .EXT_PUBLIC_KEY_BTC (by simp [extTypes])
  refine ⟨fun hv => ⟨a1 hv, ?_⟩, fun hv => ⟨a2 hv, ?_⟩, fun hv => ⟨a3 hv, ?_⟩,
    fun hv => ⟨a4 hv, ?_⟩⟩
  · exact (extkeyaltversion_cases env wenv ToStringVersion _ _ hd hS).2.1 rfl
  · exact (extkeyaltversion_cases env wenv ToStringVersion _ _ hd hSB).1 rfl
  · exact (extkeyaltversion_cases env wenv ToStringVersion _ _ hd hP).2.2.2 rfl
  · exact (extkeyaltversion_cases env wenv ToStringVersion _ _ hd hPB).2.2.1 rfl

set_option maxRecDepth 100000 in
/-- C25 on the sample key with the Bitcoin secret version: the text `0488ade4010203`
becomes `8f1daeb8010203`, the same key data under the Particl secret version, and that
text becomes `0488ade4010203` again. -/
theorem c25_alternate_version_same_kind_witness :
    extkeyaltversion Sample.env (Sample.wenv true true true 0) Sample.ToStringVersion
        "0488ade4010203" = .ok "8f1daeb8010203" ∧
    extkeyaltversion Sample.env (Sample.wenv true true true 0) Sample.ToStringVersion
        "8f1daeb8010203" = .ok "0488ade4010203" :=
  (c25_alternate_version_same_kind Sample.env (Sample.wenv true true true 0)
    Sample.ToStringVersion "0488ade4010203" Sample.key58Btc (by decide) (by decide)
    (by decide)).1 (by decide)

/-! ## Claims on the decoding of the stealth secrets -/

/-- The size check after decoding: 32 bytes set the key, any other non-zero number of
bytes is rejected, and an empty vector passes with the key left as it was. -/
theorem importstealthaddress_setKey_cases (senv : StealthEnv) (vch : Bytes) (sk : CKey)
    (err32 : String) :
    (vch.length = 32 → importstealthaddress.setKey senv vch sk err32 = .ok (senv.KeySet vch)) ∧
    (vch.length ≠ 0 → vch.length ≠ 32 →
      importstealthaddress.setKey senv vch sk err32 = .error err32) ∧
    (vch.length = 0 → importstealthaddress.setKey senv vch sk err32 = .ok sk) := by
  unfold importstealthaddress.setKey
  refine ⟨fun h => ?_, fun h0 h32 => ?_, fun h => ?_⟩
  · simp [h]
  · simp [Nat.pos_of_ne_zero h0, h32]
  · simp [h]

/-- A secret taken through the Base58 branch that decodes to no byte at all passes the
decoding with a default-constructed key. -/
theorem importstealthaddress_secret_empty (env : Env) (senv : StealthEnv) (s : String)
    (errDecode err32 : String) (hh : senv.IsHex s = false) (hw : senv.WifSetString s = none)
    (hb : env.DecodeBase58 s = some []) :
    importstealthaddress.secret env senv s errDecode err32 = .ok senv.KeyDefault := by
  unfold importstealthaddress.secret
  simp [hh, hw, hb, importstealthaddress.setKey]

set_option maxRecDepth 100000 in
/-- C23, at the failing input: the empty text is no hex text and no WIF text, and Base58
decodes it to the empty byte string; the size check is skipped, the secret passes the
decoding with the default-constructed key, and the call goes on to the public keys:
with an empty scan secret it ends in `Could not get scan public key.`, with an empty
spend secret in `Could not get spend public key.`, in neither case in the 32-byte
error. The claim asks for a rejection of the decoded length 0 at the decoding. -/
theorem c23_empty_secret_passes_size_check :
    Sample.senv.IsHex "" = false ∧ Sample.senv.WifSetString "" = none ∧
    Sample.env.DecodeBase58 "" = some [] ∧
    importstealthaddress.secret Sample.env Sample.senv ""
        "Could not decode scan secret as wif, hex or base58." "Scan secret is not 32 bytes." =
      .ok Sample.senv.KeyDefault ∧
    importstealthaddress.sxAddr Sample.env Sample.senv ["", Sample.spendSecret] =
      .error "Could not get scan public key." ∧
    importstealthaddress.sxAddr Sample.env Sample.senv [Sample.scanSecret, ""] =
      .error "Could not get spend public key." := by
  decide

/-! ## Claims on the prefix taken from the spend secret -/

set_option maxRecDepth 1000000 in
/-- C21 as stated fails: the spend secret `01 02 .. 20` has the SHA-256 digest
`ae 21 6c 2e ..`, whose leading four bits are `1010` (10), and the import with four
prefix bits stores 14, the low four bits of the first digest byte; the spend secret
`09 0a .. 28` has the digest `ab 39 63 04 ..` with the same leading four bits, and
its import stores 11. The stored value is neither the leading bits of the digest nor a
function of them. -/
theorem c21_leading_bits_counterexample :
    (sha256 ((List.range 32).map (fun i => i + 1))).take 4 = [0xae, 0x21, 0x6c, 0x2e] ∧
    leadingBits (sha256 ((List.range 32).map (fun i => i + 1))) 4 = 10 ∧
    (importstealthaddress.sxAddr Sample.env Sample.senvSha
        [Sample.spendSecret, Sample.scanSecret, "lbl", "4"]).map
      (fun r => (r.2.keydata, r.1.number_bits, r.1.bitfield)) =
      .ok ((List.range 32).map (fun i => i + 1), 4, 14) ∧
    (sha256 ((List.range 32).map (fun i => i + 9))).take 4 = [0xab, 0x39, 0x63, 0x04] ∧
    leadingBits (sha256 ((List.range 32).map (fun i => i + 9))) 4 = 10 ∧
    (importstealthaddress.sxAddr Sample.env Sample.senvSha
        [Sample.spendSecret, Sample.spendSecretB, "lbl", "4"]).map
      (fun r => (r.2.keydata, r.1.number_bits, r.1.bitfield)) =
      .ok ((List.range 32).map (fun i => i + 9), 4, 11) := by
  decide

/-- What `importstealthaddress` builds, with the spend key it hashes: the key is the
one decoded from the second parameter, and the prefix fields are those set by lines
1949-1963 for that key. -/
theorem importstealthaddress_sxAddr_spend (env : Env) (senv : StealthEnv)
    (params : List String) (sx : CStealthAddress) (sk : CKey)
    (h : importstealthaddress.sxAddr env senv params = .ok (sx, sk)) :
    importstealthaddress.secret env senv (params.getD 1 "")
      "Could not decode spend secret as hex or base58." "Spend secret is not 32 bytes." =
      .ok sk ∧
    ∃ (bits nPrefix : Nat) (sx0 : CStealthAddress),
      sx.number_bits = bits ∧
      sx.bitfield =
        (importstealthaddress.setPrefix senv sx0 bits nPrefix (params.getD 4 "") sk).bitfield := by
  unfold importstealthaddress.sxAddr at h
  dsimp only at h
  cases hbits : num_prefix_bits params[3]? with
  | error e => rw [hbits] at h; cases h
  | ok bits =>
    rw [hbits] at h
    dsimp only at h
    generalize (match params[4]? with
      | none => some 0
      | some s => (senv.ExtractStealthPrefix (String.mk (c_str s))).map
                    (fun n => n % 2 ^ 32)) = np at h
    cases np with
    | none => cases h
    | some nPrefix =>
      dsimp only at h
      cases hscan : importstealthaddress.secret env senv (params.getD 0 "")
          "Could not decode scan secret as wif, hex or base58." "Scan secret is not 32 bytes." with
      | error e => rw [hscan] at h; cases h
      | ok skScan =>
        rw [hscan] at h
        dsimp only at h
        cases hspend : importstealthaddress.secret env senv (params.getD 1 "")
            "Could not decode spend secret as hex or base58." "Spend secret is not 32 bytes." with
        | error e => rw [hspend] at h; cases h
        | ok skSpend =>
          rw [hspend] at h
          dsimp only at h
          cases hp1 : senv.SecretToPublicKey skScan with
          | none => rw [hp1] at h; cases h
          | some p1 =>
            rw [hp1] at h
            dsimp only at h
            cases hp2 : senv.SecretToPublicKey skSpend with
            | none => rw [hp2] at h; cases h
            | some p2 =>
              rw [hp2] at h
              dsimp only at h
              injection h with h
              injection h with h1 h2
              subst h1 h2
              exact ⟨rfl, bits, nPrefix, _, setPrefix_number_bits _ _ _ _ _ _, rfl⟩

/-- C21, amended: for every import that succeeds with a positive number of prefix bits
and no explicit prefix number, the stored prefix value is the `number_bits` least
significant bits of the 32-bit number read, least significant byte first, from the
first four bytes of the hash of the spend key, which is the key decoded from the
spend secret parameter; so every other such import with the same spend key and bit
count stores the same value. -/
theorem c21_prefix_from_spend_secret (env : Env) (senv : StealthEnv) (params : List String)
    (sx : CStealthAddress) (sk : CKey)
    (h : importstealthaddress.sxAddr env senv params = .ok (sx, sk))
    (hbits : 1 ≤ sx.number_bits) (hnum : params.getD 4 "" = "") :
    importstealthaddress.secret env senv (params.getD 1 "")
      "Could not decode spend secret as hex or base58." "Spend secret is not 32 bytes." =
      .ok sk ∧
    sx.bitfield = leValue ((senv.Sha256Key sk).take 4) % 2 ^ 32 % 2 ^ sx.number_bits ∧
    ∀ (params2 : List String) (sx2 : CStealthAddress),
      importstealthaddress.sxAddr env senv params2 = .ok (sx2, sk) →
      params2.getD 4 "" = "" → sx2.number_bits = sx.number_bits → sx2.bitfield = sx.bitfield := by
  have key : ∀ (p : List String) (a : CStealthAddress),
      importstealthaddress.sxAddr env senv p = .ok (a, sk) → 1 ≤ a.number_bits →
      p.getD 4 "" = "" →
      a.bitfield = leValue ((senv.Sha256Key sk).take 4) % 2 ^ 32 % 2 ^ a.number_bits := by
    intro p a ha hb hn
    obtain ⟨_, bits, nPrefix, sx0, hnb, hbf⟩ := importstealthaddress_sxAddr_spend env senv p a sk ha
    rw [hbf, setPrefix_bitfield, hn, hnb, if_pos (by omega), if_pos rfl, SetStealthMask,
      Nat.and_pow_two_sub_one_eq_mod]
  refine ⟨(importstealthaddress_sxAddr_spend env senv params sx sk h).1,
    key params sx h hbits hnum, ?_⟩
  intro params2 sx2 h2 hn2 hb2
  rw [key params2 sx2 h2 (by omega) hn2, key params sx h hbits hnum, hb2]

set_option maxRecDepth 1000000 in
/-- C21 amended, on the import of the spend secret `a0 a1 .. bf` with twelve prefix
bits and SHA-256 as the hash: the digest starts `00 e9 88 67`, and the value stored is
`0x900`. -/
theorem c21_prefix_from_spend_secret_witness :
    importstealthaddress.sxAddr Sample.env Sample.senvSha
        [Sample.scanSecret, Sample.spendSecret, "lbl", "12"] =
      .ok (Sample.importedAddress 12 0x900, Sample.spendKey) ∧
    (Sample.importedAddress 12 0x900).bitfield =
      leValue ((Sample.senvSha.Sha256Key Sample.spendKey).take 4) % 2 ^ 32 %
        2 ^ (Sample.importedAddress 12 0x900).number_bits :=
  ⟨by decide,
   (c21_prefix_from_spend_secret Sample.env Sample.senvSha
      [Sample.scanSecret, Sample.spendSecret, "lbl", "12"]
      (Sample.importedAddress 12 0x900) Sample.spendKey (by decide) (by decide)
      (by decide)).2.1⟩

/-! ## Claims on the import of an existing stealth address -/

/-- The loop over the stored addresses stops at the first one with the public keys of
the import. -/
theorem importstealthaddress_find_first (w : StealthWallet) (sx : CStealthAddress) (sk : CKey)
    (pre post : List CStealthAddress) (a : CStealthAddress)
    (hpre : ∀ b ∈ pre, ¬ (b.scan_pubkey = sx.scan_pubkey ∧ b.spend_pubkey = sx.spend_pubkey))
    (ha : a.scan_pubkey = sx.scan_pubkey ∧ a.spend_pubkey = sx.spend_pubkey) :
    importstealthaddress.find w sx sk (pre ++ a :: post) =
      if ¬ w.HaveKey (w.GetSpendKeyID a) then
        if ¬ w.AddKeyPubKey sk then
          (.error "Import failed - AddKeyPubKey failed.", [.AddKeyPubKey sk])
        else (.ok true, [.AddKeyPubKey sk])
      else (.error "Import failed - stealth address exists.", []) := by
  induction pre with
  | nil =>
    rw [List.nil_append, importstealthaddress.find, if_pos ha]
  | cons b pre ih =>
    rw [List.cons_append, importstealthaddress.find, if_neg (hpre b (List.mem_cons_self _ _))]
    exact ih (fun c hc => hpre c (List.mem_cons_of_mem _ hc))

/-- The two guards between the attached key and the update answer: a failing
`AddKeyPubKey` ends the import in its error, and an address that `HaveStealthAddress`
reports ends it in the address-exists error, after the key has been attached. -/
theorem importstealthaddress_update_guards (env : Env) (senv : StealthEnv)
    (w : StealthWallet) (params : List String) (sx : CStealthAddress) (sk : CKey)
    (pre post : List CStealthAddress) (a : CStealthAddress)
    (h : importstealthaddress.sxAddr env senv params = .ok (sx, sk))
    (hw : w.stealthAddresses = pre ++ a :: post)
    (hpre : ∀ b ∈ pre, ¬ (b.scan_pubkey = sx.scan_pubkey ∧ b.spend_pubkey = sx.spend_pubkey))
    (ha : a.scan_pubkey = sx.scan_pubkey ∧ a.spend_pubkey = sx.spend_pubkey)
    (hk : w.HaveKey (w.GetSpendKeyID a) = false) :
    (w.AddKeyPubKey sk = false →
      importstealthaddress env senv w params =
        (.error "Import failed - AddKeyPubKey failed.", [.AddKeyPubKey sk])) ∧
    (w.AddKeyPubKey sk = true → w.HaveStealthAddress sx = true →
      importstealthaddress env senv w params =
        (.error "Import failed - stealth address exists.", [.AddKeyPubKey sk])) := by
  have hf := importstealthaddress_find_first w sx sk pre post a hpre ha
  rw [← hw] at hf
  unfold importstealthaddress
  rw [h]
  simp only []
  unfold importstealthaddress.store
  rw [hf]
  refine ⟨fun h2 => ?_, fun h2 h3 => ?_⟩
  · simp [hk, h2]
  · simp [hk, h2, h3]

theorem wrapInt32_range (x : Int) : -2147483648 ≤ wrapInt32 x ∧ wrapInt32 x ≤ 2147483647 := by
  unfold wrapInt32
  omega

theorem wrapInt32_small (x : Int) (h0 : -2147483648 ≤ x) (h1 : x ≤ 2147483647) :
    wrapInt32 x = x := by
  unfold wrapInt32
  omega

/-- With `end` equal to `INT_MAX` the loop condition `i <= nEnd` holds for every `int`:
on a chain where every `DeriveKey` call succeeds, and without saving, the loop is still
running after any number of evaluations of its condition. -/
theorem deriverangekeys_loop_INT_MAX (env : Env) (r : RangeEnv) (fHardened fAdd : Bool)
    (idIndex : Nat) (hD : ∀ n, (r.DeriveKey n fHardened).isSome = true) (fuel : Nat) :
    ∀ (i : Int) (result : List String) (calls : List RCall), i ≤ 2147483647 →
      deriverangekeys.loop env r fHardened false fAdd idIndex INT_MAX fuel i result calls =
        none := by
  induction fuel with
  | zero => intro i result calls _; rfl
  | succ fuel ih =>
    intro i result calls hi
    rw [deriverangekeys.loop, if_pos (by unfold INT_MAX; exact hi)]
    dsimp only
    have hd := hD (i % 4294967296).toNat
    cases hk : r.DeriveKey (i % 4294967296).toNat fHardened with
    | none => rw [hk] at hd; cases hd
    | some p =>
      rcases p with ⟨newKey, nChildOut⟩
      simp only [Bool.false_eq_true, if_false]
      exact ih _ _ _ (wrapInt32_range _).2

/-- With `end` below `INT_MAX`, on a chain where every `DeriveKey` call succeeds and
without saving, the loop from `i` ends after `k + 1` evaluations of its condition,
`k` being the number of children from `i` to `end`, and has added the addresses of the
keys derived for the children `i`, `i + 1`, .., `end` in this order. -/
theorem deriverangekeys_loop_count (env : Env) (r : RangeEnv) (fHardened fAdd : Bool)
    (idIndex : Nat) (nEnd : Int) (hend : nEnd < INT_MAX) (key : Nat → Bytes) (out : Nat → Nat)
    (hD : ∀ n, r.DeriveKey n fHardened = some (key n, out n)) (k : Nat) :
    ∀ (i : Int) (result : List String) (calls : List RCall) (fuel : Nat),
      0 ≤ i → i + k = nEnd + 1 → k < fuel →
      deriverangekeys.loop env r fHardened false fAdd idIndex nEnd fuel i result calls =
        some (.ok (result ++ (List.range k).map (fun j =>
                env.AddressToString (env.PubKeyID (key (i.toNat + j))) .PUBKEY_ADDRESS)),
              calls ++ (List.range k).map (fun j => RCall.DeriveKey (i.toNat + j) fHardened)) := by
  unfold INT_MAX at hend
  induction k with
  | zero =>
    intro i result calls fuel h0 hik hf
    obtain ⟨f, rfl⟩ : ∃ f, fuel = f + 1 := ⟨fuel - 1, by omega⟩
    rw [deriverangekeys.loop, if_neg (by omega)]
    simp
  | succ k ih =>
    intro i result calls fuel h0 hik hf
    obtain ⟨f, rfl⟩ : ∃ f, fuel = f + 1 := ⟨fuel - 1, by omega⟩
    have hchild : (i % 4294967296).toNat = i.toNat := by omega
    have hnext : wrapInt32 (i + 1) = i + 1 := wrapInt32_small _ (by omega) (by omega)
    have htn : (i + 1).toNat = i.toNat + 1 := by omega
    rw [deriverangekeys.loop, if_pos (by omega), hchild]
    dsimp only
    rw [hD]
    simp only [Bool.false_eq_true, if_false, hnext]
    rw [ih (i + 1) _ _ f (by omega) (by omega) (by omega), htn, List.range_succ_eq_map]
    simp [List.map_map, Function.comp_def, Nat.add_assoc, Nat.add_comm 1]

/-- The part of C26 that holds: a call with `end` before `start` or with a negative
`start` throws before any derivation, and for `0 ≤ start ≤ end < INT_MAX`, on a chain
that is found and where every `DeriveKey` call succeeds, without saving, the call
returns `end - start + 1` addresses, the `j`-th being that of the key derived for the
child `start + j`. -/
theorem deriverangekeys_in_range (env : Env) (r : RangeEnv) (nStart nEnd : Int)
    (key : Nat → Bytes) (out : Nat → Nat)
    (hD : ∀ n, r.DeriveKey n false = some (key n, out n)) (hc : r.findChain = none) :
    (nEnd < nStart → ∀ fuel, deriverangekeys env r fuel nStart (some nEnd) false false false =
      some (.error "end can not be before start.", [])) ∧
    (nStart ≤ nEnd → nStart < 0 →
      ∀ fuel, deriverangekeys env r fuel nStart (some nEnd) false false false =
        some (.error "start can not be negative.", [])) ∧
    (0 ≤ nStart → nStart ≤ nEnd → nEnd < INT_MAX →
      deriverangekeys env r ((nEnd - nStart).toNat + 2) nStart (some nEnd) false false false =
        some (.ok ((List.range ((nEnd - nStart).toNat + 1)).map (fun j =>
                env.AddressToString (env.PubKeyID (key (nStart.toNat + j))) .PUBKEY_ADDRESS)),
              (List.range ((nEnd - nStart).toNat + 1)).map (fun j =>
                RCall.DeriveKey (nStart.toNat + j) false))) := by
  refine ⟨fun h fuel => ?_, fun h1 h2 fuel => ?_, fun h0 h1 h2 => ?_⟩
  · unfold deriverangekeys
    simp [h]
  · unfold deriverangekeys
    simp [h2, Int.not_lt.mpr h1]
  · unfold deriverangekeys
    have e1 : ¬ nEnd < nStart := by omega
    have e2 : ¬ nStart < 0 := by omega
    have e3 : ¬ nEnd < 0 := by omega
    simp only [Option.getD_some, e1, e2, e3, if_false, Bool.false_eq_true, and_false, or_self,
      not_false_eq_true, hc]
    rw [deriverangekeys_loop_count env r false false 0 nEnd h2 key out hD
      ((nEnd - nStart).toNat + 1) nStart [] [] _ h0 (by omega) (by omega)]
    simp

set_option maxRecDepth 100000 in
/-- C26, at the failing input `start = end = 2147483647` (`INT_MAX`, the end defaulting
to the start) on the sample chain, where every `DeriveKey` call succeeds: the loop
condition `i <= nEnd` never fails, `++i` wraps from `INT_MAX` to `INT_MIN`, and the
loop is still running after any number of evaluations of its condition; the claim
asks for termination with one address. With `start = end = 2147483646` the call
returns its one address. -/
theorem c26_loop_runs_on_at_INT_MAX (fuel : Nat) :
    deriverangekeys Sample.env Sample.renv fuel 2147483647 none false false false = none ∧
    wrapInt32 (2147483647 + 1) = -2147483648 ∧
    deriverangekeys Sample.env Sample.renv 2 2147483646 none false false false =
      some (.ok ["027ffffffe"], [.DeriveKey 2147483646 false]) := by
  refine ⟨?_, by decide, by decide⟩
  unfold deriverangekeys
  simp only [Option.getD_none, Int.lt_irrefl, if_false]
  exact deriverangekeys_loop_INT_MAX Sample.env Sample.renv false false 0
    (fun n => rfl) fuel 2147483647 [] [] (Int.le_refl _)

/-! ## Claims on `filteraddresses` -/

/-- The value of `filteraddresses` on arguments that pass its checks: the slice of at
most `nCount` entries from position `nOffset` of the sorted list of the entries that
pass the filters, when that position is not beyond the end of the list; else the loop
starts from an iterator beyond the end. The offset has been compared with the size of
the address book, not with the length of the filtered list. -/
theorem filteraddresses_accepted (env : Env) (b : BookEnv) (book : List BookEntry)
    (nOffset nCount : Int) (sCode : Option String) (sMatch : String)
    (nMatchOwned nShowPath : Int) (h0 : 0 ≤ nOffset) (h1 : 1 ≤ nCount)
    (hs : sCode = none ∨ sCode = some "0" ∨ sCode = some "1")
    (hsize : nOffset < toInt32 book.length) :
    filteraddresses env b book nOffset nCount sCode sMatch nMatchOwned nShowPath =
      { book := book.map (filteraddresses.owned b),
        result :=
          if nOffset.toNat ≤
              (b.stdSort (AddressComp (if sCode = some "1" then SRT_LABEL_DESC else SRT_LABEL_ASC))
                ((book.map (filteraddresses.owned b)).filter
                  (filteraddresses.passes b nMatchOwned (if sMatch ≠ "" then 1 else 0)
                    sMatch))).length then
            some (.ok (filteraddresses.entries env b nShowPath
              (((b.stdSort
                  (AddressComp (if sCode = some "1" then SRT_LABEL_DESC else SRT_LABEL_ASC))
                  ((book.map (filteraddresses.owned b)).filter
                    (filteraddresses.passes b nMatchOwned (if sMatch ≠ "" then 1 else 0)
                      sMatch))).drop nOffset.toNat).take nCount.toNat) []))
          else none } := by
  unfold filteraddresses
  have e0 : ¬ nOffset < 0 := by omega
  have e1 : ¬ nCount < 1 := by omega
  have e2 : ¬ (sCode ≠ none ∧ sCode ≠ some "0" ∧ sCode ≠ some "1") := by
    rcases hs with h | h | h <;> simp [h]
  have e3 : ¬ nOffset ≥ toInt32 book.length := by omega
  rw [if_neg e0, if_neg e1, if_neg e2]
  simp only [if_neg e3]
  split_ifs <;> rfl

set_option maxRecDepth 100000 in
/-- C27, at the failing input: the sample address book has three entries, of which one,
`alice`, passes the label filter `ali`; the call with offset 2 and count 1 passes the
check of the offset against the size of the address book (2 < 3), and the loop then
starts at `begin() + 2` of a vector of one element, beyond its end. The claim says the
starting position never lies beyond the end of the filtered list. With offset 0 the
call returns the entry, with offset 1, the end of the list, no entry. -/
theorem c27_offset_beyond_filtered_list :
    Sample.book.length = 3 ∧
    ((Sample.book.map (filteraddresses.owned Sample.benv)).filter
        (filteraddresses.passes Sample.benv 0 1 "ali")).map (fun e => e.name) = ["alice"] ∧
    (filteraddresses Sample.env Sample.benv Sample.book 2 1 (some "0") "ali" 0 1).result = none ∧
    (filteraddresses Sample.env Sample.benv Sample.book 0 1 (some "0") "ali" 0 1).result =
      some (.ok [[("address", .str "03"), ("label", .str "alice"), ("owned", .str "false"),
                  ("root", .str "bb"), ("path", .str "0/5")]]) ∧
    (filteraddresses Sample.env Sample.benv Sample.book 1 1 (some "0") "ali" 0 1).result =
      some (.ok []) ∧
    (filteraddresses Sample.env Sample.benv Sample.book 3 1 (some "0") "ali" 0 1).result =
      some (.error "offset is beyond last address (3).") :=
  ⟨by decide, by decide, by decide, by decide, by decide, by decide⟩

end Particl
